import Mathlib

/-! Shapes, drawings and their text emitters (`src/visitor/shape1.cc` .. `shape8.cc`).

A shallow embedding of the shape tree and of the operations `draw`, `toJSON` and `toYAML`
in their three dispatch styles, and of the operations that build and change a tree:

* `Shape1`, `Shape2`, `Shape3`: one virtual method per class (`shape1.cc`, `shape2.cc`,
  `shape3.cc`);
* `Shape4`: the `Visitor` interface with `Shape::accept` (`shape4.cc`);
* `Shape5`, `Shape6`: `draw` and the functors `ToJSON`, `ToYAML` applied with `std::visit`
  over `std::variant<Circle, Triangle, Rectangle, Drawing>` (`shape5.cc`, `shape6.cc`);
* `Shape7`, `Shape8`: the operations `Scale` and `FillColor` on SFML shapes, looping over
  the children themselves (`shape7.cc`) or through `Composite::accept` (`shape8.cc`).

Conventions of the embedding.

* A `std::ostream &` is the `String` of everything written to it so far; every method takes
  the stream and returns it with its own text appended (`os << a << b` is `os ++ a ++ b`).
* The `int` fields are only stored and printed, never computed with, so they are `Int`.
  The counter `Indenter::m_ilevel` is an `Int` as well: it only moves in steps of
  `m_num_space`, and leaving the range of `int` would take more than `2^30` nested drawings.
* In `shape7.cc` and `shape8.cc` the type `float`, its product and the SFML classes are
  outside the repository: the type and the product are parameters, and the classes are
  records of the attributes the operations touch. An operation that changes the tree in
  place gives the tree afterwards.
* A `Drawing` is its member `m_shape`, the sequence of its children in insertion order
  (`std::vector<std::unique_ptr<Shape>>` or `std::vector<Shape>`); a range-based `for` over
  it is a recursion over the list.
-/

namespace Visitor

/-! ## Data model -/

/-- Text written by `os << v` for an `int`: decimal digits, with a leading `-` when negative. -/
def showInt (v : Int) : String := toString v

/-- The stream manipulator `std::endl`: a newline (the flush is not observable in the text). -/
def endl : String := "\n"

/-- Class `Circle`: `int m_x, m_y, m_radius`. -/
structure Circle where
  m_x : Int
  m_y : Int
  m_radius : Int
deriving DecidableEq, Repr

/-- Class `Triangle`: `int m_x, m_y, m_len`. -/
structure Triangle where
  m_x : Int
  m_y : Int
  m_len : Int
deriving DecidableEq, Repr

/-- Class `Rectangle`: `int m_x, m_y, m_w, m_h`. -/
structure Rectangle where
  m_x : Int
  m_y : Int
  m_w : Int
  m_h : Int
deriving DecidableEq, Repr

/-- A node of the tree: the dynamic type behind a `std::unique_ptr<Shape>` (shape1-4) or the
active alternative of `std::variant<Circle, Triangle, Rectangle, Drawing>` (shape5-6).
A `Drawing` is its child sequence `m_shape`. -/
inductive Shape where
  | circle (c : Circle)
  | triangle (t : Triangle)
  | rectangle (r : Rectangle)
  | drawing (m_shape : List Shape)
deriving Repr

/-- Method `Circle::getPosition`. -/
def Circle.getPosition (s : Circle) : Int × Int := (s.m_x, s.m_y)

/-- Method `Circle::getSize`. -/
def Circle.getSize (s : Circle) : Int := s.m_radius

/-- Method `Triangle::getPosition`. -/
def Triangle.getPosition (s : Triangle) : Int × Int := (s.m_x, s.m_y)

/-- Method `Triangle::getSize`. -/
def Triangle.getSize (s : Triangle) : Int := s.m_len

/-- Method `Rectangle::getPosition`. -/
def Rectangle.getPosition (s : Rectangle) : Int × Int := (s.m_x, s.m_y)

/-- Method `Rectangle::getSize`. -/
def Rectangle.getSize (s : Rectangle) : Int × Int := (s.m_w, s.m_h)

/-! ## `shape1.cc`: `draw` as a virtual method

`shape2.cc`, `shape3.cc` and `shape4.cc` repeat these four bodies verbatim. -/

namespace Shape1

/-- Method `Circle::draw`. -/
def Circle.draw (c : Circle) (os : String) : String :=
  os ++ "Circle(" ++ showInt c.m_x ++ "," ++ showInt c.m_y ++ ","
     ++ showInt c.m_radius ++ ")" ++ endl

/-- Method `Triangle::draw`. -/
def Triangle.draw (t : Triangle) (os : String) : String :=
  os ++ "Triangle(" ++ showInt t.m_x ++ "," ++ showInt t.m_y ++ ","
     ++ showInt t.m_len ++ ")" ++ endl

/-- Method `Rectangle::draw`. -/
def Rectangle.draw (r : Rectangle) (os : String) : String :=
  os ++ "Rectangle(" ++ showInt r.m_x ++ "," ++ showInt r.m_y ++ ","
     ++ showInt r.m_w ++ "," ++ showInt r.m_h ++ ")" ++ endl

mutual
/-- The virtual call `s->draw(os)`: the body of the dynamic type of `s` runs. -/
def Shape.draw : Shape → String → String
  | .circle c, os => Circle.draw c os
  | .triangle t, os => Triangle.draw t os
  | .rectangle r, os => Rectangle.draw r os
  | .drawing m_shape, os => Drawing.draw m_shape os
/-- Method `Drawing::draw`: `for(auto &s : m_shape) { s->draw(os); }`. -/
def Drawing.draw : List Shape → String → String
  | [], os => os
  | s :: rest, os => Drawing.draw rest (Shape.draw s os)
end

end Shape1

/-! ## `shape2.cc`: `toJSON` as a virtual method

`shape3.cc` repeats these four bodies verbatim. -/

namespace Shape2

/-- Method `Circle::toJSON`. -/
def Circle.toJSON (c : Circle) (os : String) : String :=
  os ++ "\"circle\": \x7b\n"
     ++ "  \"x\": " ++ showInt c.m_x ++ ",\n"
     ++ "  \"y\": " ++ showInt c.m_y ++ ",\n"
     ++ "  \"radius\": " ++ showInt c.m_radius ++ "\n\x7d"

/-- Method `Triangle::toJSON`. -/
def Triangle.toJSON (t : Triangle) (os : String) : String :=
  os ++ "\"triangle\": \x7b\n"
     ++ "  \"x\": " ++ showInt t.m_x ++ ",\n"
     ++ "  \"y\": " ++ showInt t.m_y ++ ",\n"
     ++ "  \"len\": " ++ showInt t.m_len ++ "\n\x7d"

/-- Method `Rectangle::toJSON`. -/
def Rectangle.toJSON (r : Rectangle) (os : String) : String :=
  os ++ "\"rectangle\": \x7b\n"
     ++ "  \"x\": " ++ showInt r.m_x ++ ",\n"
     ++ "  \"y\": " ++ showInt r.m_y ++ ",\n"
     ++ "  \"w\": " ++ showInt r.m_w ++ ",\n"
     ++ "  \"h\": " ++ showInt r.m_h ++ "\n\x7d"

mutual
/-- The virtual call `s->toJSON(os)`. The `Drawing` case is the body of `Drawing::toJSON`:
the header, the loop started with `p = ""`, then the closing bracket. -/
def Shape.toJSON : Shape → String → String
  | .circle c, os => Circle.toJSON c os
  | .triangle t, os => Triangle.toJSON t os
  | .rectangle r, os => Rectangle.toJSON r os
  | .drawing m_shape, os => Drawing.toJSON.loop m_shape "" (os ++ "\"drawing\": [\n") ++ "]\n"
/-- The loop of `Drawing::toJSON` over the remaining children, with the current value of
the local `p`: `{ os << p; s->toJSON(os); p = postfix; }` where `postfix = ",\n"`. -/
def Drawing.toJSON.loop : List Shape → String → String → String
  | [], _, os => os
  | s :: rest, p, os => Drawing.toJSON.loop rest ",\n" (Shape.toJSON s (os ++ p))
end

/-- Method `Drawing::toJSON`. -/
def Drawing.toJSON (m_shape : List Shape) (os : String) : String :=
  Drawing.toJSON.loop m_shape "" (os ++ "\"drawing\": [\n") ++ "]\n"

end Shape2

/-! ## The indent context: class `Indenter` (`shape3.cc`, repeated in `shape4.cc`, `shape6.cc`) -/

/-- What `toYAML` reads and writes: the stream `os` and the static `Indenter::m_ilevel`. -/
structure State where
  os : String
  m_ilevel : Int
deriving DecidableEq, Repr

/-- An `Indenter` object: its member `m_num_space`. -/
structure Indenter where
  m_num_space : Int
deriving DecidableEq, Repr

/-- The insertion `os << text` on the stream of the state. -/
def put (text : String) (st : State) : State := ⟨st.os ++ text, st.m_ilevel⟩

/-- The insertion `os << v` for an `int v` on the stream of the state. -/
def putInt (v : Int) (st : State) : State := ⟨st.os ++ showInt v, st.m_ilevel⟩

/-- The constructor body of `Indenter`: `m_ilevel += m_num_space`. -/
def Indenter.construct (ind : Indenter) (st : State) : State :=
  ⟨st.os, st.m_ilevel + ind.m_num_space⟩

/-- The destructor of `Indenter`: `m_ilevel -= m_num_space; if (m_ilevel < 0) m_ilevel = 0;`. -/
def Indenter.destruct (ind : Indenter) (st : State) : State :=
  let m_ilevel := st.m_ilevel - ind.m_num_space
  ⟨st.os, if m_ilevel < 0 then 0 else m_ilevel⟩

/-- The text of `for (int i = 0; i < m_ilevel; ++i) os << ' ';`: one space per value of `i`
from `0` up to `m_ilevel - 1`, none when `m_ilevel` is not positive. -/
def Indenter.spaces (m_ilevel : Int) : String := String.mk (List.replicate m_ilevel.toNat ' ')

/-- The insertion `os << ind`: the friend `operator<<` of `Indenter`, which reads the static counter. -/
def Indenter.put (_ind : Indenter) (st : State) : State :=
  ⟨st.os ++ Indenter.spaces st.m_ilevel, st.m_ilevel⟩

/-! ## `shape3.cc`: `toYAML` as a virtual method -/

namespace Shape3

/-- Method `Circle::toYAML`: `Indenter ind;` with the default `num_space = 2`, the chained output,
and the destructor of `ind` at the end of the scope. -/
def Circle.toYAML (c : Circle) (st : State) : State :=
  let ind : Indenter := ⟨2⟩
  st |> ind.construct
     |> put "circle:\n"
     |> ind.put |> put "- x: " |> putInt c.m_x |> put "\n"
     |> ind.put |> put "- y: " |> putInt c.m_y |> put "\n"
     |> ind.put |> put "- radius: " |> putInt c.m_radius |> put "\n"
     |> ind.destruct

/-- Method `Triangle::toYAML`. -/
def Triangle.toYAML (t : Triangle) (st : State) : State :=
  let ind : Indenter := ⟨2⟩
  st |> ind.construct
     |> put "triangle:\n"
     |> ind.put |> put "- x: " |> putInt t.m_x |> put "\n"
     |> ind.put |> put "- y: " |> putInt t.m_y |> put "\n"
     |> ind.put |> put "- len: " |> putInt t.m_len |> put "\n"
     |> ind.destruct

/-- Method `Rectangle::toYAML`. -/
def Rectangle.toYAML (r : Rectangle) (st : State) : State :=
  let ind : Indenter := ⟨2⟩
  st |> ind.construct
     |> put "rectangle: \n"
     |> ind.put |> put "- x: " |> putInt r.m_x |> put "\n"
     |> ind.put |> put "- y: " |> putInt r.m_y |> put "\n"
     |> ind.put |> put "- w: " |> putInt r.m_w |> put "\n"
     |> ind.put |> put "- h: " |> putInt r.m_h |> put "\n"
     |> ind.destruct

mutual
/-- The virtual call `s->toYAML(os)`. The `Drawing` case is the body of `Drawing::toYAML`. -/
def Shape.toYAML : Shape → State → State
  | .circle c, st => Circle.toYAML c st
  | .triangle t, st => Triangle.toYAML t st
  | .rectangle r, st => Rectangle.toYAML r st
  | .drawing m_shape, st =>
    Indenter.destruct ⟨2⟩
      (Drawing.toYAML.loop ⟨2⟩ m_shape (put "drawing:\n" (Indenter.construct ⟨2⟩ st)))
/-- The loop of `Drawing::toYAML` over the remaining children:
`{ os << ind << "- "; s->toYAML(os); }`. -/
def Drawing.toYAML.loop (ind : Indenter) : List Shape → State → State
  | [], st => st
  | s :: rest, st => Drawing.toYAML.loop ind rest (Shape.toYAML s (put "- " (ind.put st)))
end

/-- Method `Drawing::toYAML`. -/
def Drawing.toYAML (m_shape : List Shape) (st : State) : State :=
  let ind : Indenter := ⟨2⟩
  st |> ind.construct
     |> put "drawing:\n"
     |> Drawing.toYAML.loop ind m_shape
     |> ind.destruct

end Shape3

/-! ## `shape4.cc`: the `Visitor` interface and `Shape::accept`

Every `accept` override is `visitor.visit(*this)`, so `s->accept(v)` runs the overload of
`v.visit` for the dynamic type of `s`. The four overloads of `visit` are told apart by a
suffix. `ToJSON` and `ToYAML` hold a reference `m_os` to the stream. -/

namespace Shape4

/-- Method `ToJSON::visit(Circle &)`. -/
def ToJSON.visitCircle (s : Circle) (m_os : String) : String :=
  let (x, y) := s.getPosition
  let radius := s.getSize
  m_os ++ "\"circle\": \x7b\n"
       ++ "  \"x\": " ++ showInt x ++ ",\n"
       ++ "  \"y\": " ++ showInt y ++ ",\n"
       ++ "  \"radius\": " ++ showInt radius ++ "\n\x7d"

/-- Method `ToJSON::visit(Triangle &)`. -/
def ToJSON.visitTriangle (s : Triangle) (m_os : String) : String :=
  let (x, y) := s.getPosition
  let len := s.getSize
  m_os ++ "\"triangle\": \x7b\n"
       ++ "  \"x\": " ++ showInt x ++ ",\n"
       ++ "  \"y\": " ++ showInt y ++ ",\n"
       ++ "  \"len\": " ++ showInt len ++ "\n\x7d"

/-- Method `ToJSON::visit(Rectangle &)`. -/
def ToJSON.visitRectangle (s : Rectangle) (m_os : String) : String :=
  let (x, y) := s.getPosition
  let (w, h) := s.getSize
  m_os ++ "\"rectangle\": \x7b\n"
       ++ "  \"x\": " ++ showInt x ++ ",\n"
       ++ "  \"y\": " ++ showInt y ++ ",\n"
       ++ "  \"w\": " ++ showInt w ++ ",\n"
       ++ "  \"h\": " ++ showInt h ++ "\n\x7d"

mutual
/-- The call `s->accept(*this)` made with a `ToJSON` visitor. The `Drawing` case is the body
of `ToJSON::visit(Drawing &)`. -/
def ToJSON.accept : Shape → String → String
  | .circle c, m_os => ToJSON.visitCircle c m_os
  | .triangle t, m_os => ToJSON.visitTriangle t m_os
  | .rectangle r, m_os => ToJSON.visitRectangle r m_os
  | .drawing d, m_os => ToJSON.visitDrawing.loop d "" (m_os ++ "\"drawing\": [\n") ++ "]\n"
/-- The `std::for_each` of `ToJSON::visit(Drawing &)` over the remaining children, with the
current value of the captured `p`: `{ m_os << p; s->accept(*this); p = postfix; }`. -/
def ToJSON.visitDrawing.loop : List Shape → String → String → String
  | [], _, m_os => m_os
  | s :: rest, p, m_os => ToJSON.visitDrawing.loop rest ",\n" (ToJSON.accept s (m_os ++ p))
end

/-- Method `ToJSON::visit(Drawing &)`. -/
def ToJSON.visitDrawing (d : List Shape) (m_os : String) : String :=
  ToJSON.visitDrawing.loop d "" (m_os ++ "\"drawing\": [\n") ++ "]\n"

/-- Method `ToYAML::visit(Circle &)`. -/
def ToYAML.visitCircle (s : Circle) (st : State) : State :=
  let ind : Indenter := ⟨2⟩
  let st := ind.construct st
  let (x, y) := s.getPosition
  let radius := s.getSize
  st |> put "circle:\n"
     |> ind.put |> put "- x: " |> putInt x |> put "\n"
     |> ind.put |> put "- y: " |> putInt y |> put "\n"
     |> ind.put |> put "- radius: " |> putInt radius |> put "\n"
     |> ind.destruct

/-- Method `ToYAML::visit(Triangle &)`. -/
def ToYAML.visitTriangle (s : Triangle) (st : State) : State :=
  let ind : Indenter := ⟨2⟩
  let st := ind.construct st
  let (x, y) := s.getPosition
  let len := s.getSize
  st |> put "triangle:\n"
     |> ind.put |> put "- x: " |> putInt x |> put "\n"
     |> ind.put |> put "- y: " |> putInt y |> put "\n"
     |> ind.put |> put "- len: " |> putInt len |> put "\n"
     |> ind.destruct

/-- Method `ToYAML::visit(Rectangle &)`. -/
def ToYAML.visitRectangle (s : Rectangle) (st : State) : State :=
  let ind : Indenter := ⟨2⟩
  let st := ind.construct st
  let (x, y) := s.getPosition
  let (w, h) := s.getSize
  st |> put "rectangle: \n"
     |> ind.put |> put "- x: " |> putInt x |> put "\n"
     |> ind.put |> put "- y: " |> putInt y |> put "\n"
     |> ind.put |> put "- w: " |> putInt w |> put "\n"
     |> ind.put |> put "- h: " |> putInt h |> put "\n"
     |> ind.destruct

mutual
/-- The call `s->accept(*this)` made with a `ToYAML` visitor. The `Drawing` case is the body
of `ToYAML::visit(Drawing &)`. -/
def ToYAML.accept : Shape → State → State
  | .circle c, st => ToYAML.visitCircle c st
  | .triangle t, st => ToYAML.visitTriangle t st
  | .rectangle r, st => ToYAML.visitRectangle r st
  | .drawing d, st =>
    Indenter.destruct ⟨2⟩
      (ToYAML.visitDrawing.loop ⟨2⟩ d (put "drawing:\n" (Indenter.construct ⟨2⟩ st)))
/-- The `std::for_each` of `ToYAML::visit(Drawing &)` over the remaining children:
`{ m_os << ind << "- "; s->accept(*this); }`. -/
def ToYAML.visitDrawing.loop (ind : Indenter) : List Shape → State → State
  | [], st => st
  | s :: rest, st => ToYAML.visitDrawing.loop ind rest (ToYAML.accept s (put "- " (ind.put st)))
end

/-- Method `ToYAML::visit(Drawing &)`. -/
def ToYAML.visitDrawing (d : List Shape) (st : State) : State :=
  let ind : Indenter := ⟨2⟩
  st |> ind.construct
     |> put "drawing:\n"
     |> ToYAML.visitDrawing.loop ind d
     |> ind.destruct

end Shape4

/-! ## `shape6.cc`: functors applied with `std::visit`

`std::visit(*this, s)` calls the overload of `operator()` for the active alternative of the
variant `s`. The four overloads of `operator()` are told apart by a suffix. -/

namespace Shape6

/-- Method `ToJSON::operator()(Circle &)`. -/
def ToJSON.callCircle (s : Circle) (m_os : String) : String :=
  let (x, y) := s.getPosition
  let radius := s.getSize
  m_os ++ "\"circle\": \x7b\n"
       ++ "  \"x\": " ++ showInt x ++ ",\n"
       ++ "  \"y\": " ++ showInt y ++ ",\n"
       ++ "  \"radius\": " ++ showInt radius ++ "\n\x7d"

/-- Method `ToJSON::operator()(Triangle &)`. -/
def ToJSON.callTriangle (s : Triangle) (m_os : String) : String :=
  let (x, y) := s.getPosition
  let len := s.getSize
  m_os ++ "\"triangle\": \x7b\n"
       ++ "  \"x\": " ++ showInt x ++ ",\n"
       ++ "  \"y\": " ++ showInt y ++ ",\n"
       ++ "  \"len\": " ++ showInt len ++ "\n\x7d"

/-- Method `ToJSON::operator()(Rectangle &)`. -/
def ToJSON.callRectangle (s : Rectangle) (m_os : String) : String :=
  let (x, y) := s.getPosition
  let (w, h) := s.getSize
  m_os ++ "\"rectangle\": \x7b\n"
       ++ "  \"x\": " ++ showInt x ++ ",\n"
       ++ "  \"y\": " ++ showInt y ++ ",\n"
       ++ "  \"w\": " ++ showInt w ++ ",\n"
       ++ "  \"h\": " ++ showInt h ++ "\n\x7d"

mutual
/-- The call `std::visit(*this, s)` made by a `ToJSON` functor. The `Drawing` case is the body
of `ToJSON::operator()(Drawing &)`. -/
def ToJSON.visit : Shape → String → String
  | .circle c, m_os => ToJSON.callCircle c m_os
  | .triangle t, m_os => ToJSON.callTriangle t m_os
  | .rectangle r, m_os => ToJSON.callRectangle r m_os
  | .drawing d, m_os => ToJSON.callDrawing.loop d "" (m_os ++ "\"drawing\": [\n") ++ "]\n"
/-- The loop of `ToJSON::operator()(Drawing &)` over the remaining children, with the current
value of the local `p`: `{ m_os << p; std::visit(*this, s); p = postfix; }`. -/
def ToJSON.callDrawing.loop : List Shape → String → String → String
  | [], _, m_os => m_os
  | s :: rest, p, m_os => ToJSON.callDrawing.loop rest ",\n" (ToJSON.visit s (m_os ++ p))
end

/-- Method `ToJSON::operator()(Drawing &)`. -/
def ToJSON.callDrawing (d : List Shape) (m_os : String) : String :=
  ToJSON.callDrawing.loop d "" (m_os ++ "\"drawing\": [\n") ++ "]\n"

/-- Method `ToYAML::operator()(Circle &)`. -/
def ToYAML.callCircle (s : Circle) (st : State) : State :=
  let ind : Indenter := ⟨2⟩
  let st := ind.construct st
  let (x, y) := s.getPosition
  let radius := s.getSize
  st |> put "circle:\n"
     |> ind.put |> put "- x: " |> putInt x |> put "\n"
     |> ind.put |> put "- y: " |> putInt y |> put "\n"
     |> ind.put |> put "- radius: " |> putInt radius |> put "\n"
     |> ind.destruct

/-- Method `ToYAML::operator()(Triangle &)`. -/
def ToYAML.callTriangle (s : Triangle) (st : State) : State :=
  let ind : Indenter := ⟨2⟩
  let st := ind.construct st
  let (x, y) := s.getPosition
  let len := s.getSize
  st |> put "triangle:\n"
     |> ind.put |> put "- x: " |> putInt x |> put "\n"
     |> ind.put |> put "- y: " |> putInt y |> put "\n"
     |> ind.put |> put "- len: " |> putInt len |> put "\n"
     |> ind.destruct

/-- Method `ToYAML::operator()(Rectangle &)`. -/
def ToYAML.callRectangle (s : Rectangle) (st : State) : State :=
  let ind : Indenter := ⟨2⟩
  let st := ind.construct st
  let (x, y) := s.getPosition
  let (w, h) := s.getSize
  st |> put "rectangle: \n"
     |> ind.put |> put "- x: " |> putInt x |> put "\n"
     |> ind.put |> put "- y: " |> putInt y |> put "\n"
     |> ind.put |> put "- w: " |> putInt w |> put "\n"
     |> ind.put |> put "- h: " |> putInt h |> put "\n"
     |> ind.destruct

mutual
/-- The call `std::visit(*this, s)` made by a `ToYAML` functor. The `Drawing` case is the body
of `ToYAML::operator()(Drawing &)`. -/
def ToYAML.visit : Shape → State → State
  | .circle c, st => ToYAML.callCircle c st
  | .triangle t, st => ToYAML.callTriangle t st
  | .rectangle r, st => ToYAML.callRectangle r st
  | .drawing d, st =>
    Indenter.destruct ⟨2⟩
      (ToYAML.callDrawing.loop ⟨2⟩ d (put "drawing:\n" (Indenter.construct ⟨2⟩ st)))
/-- The loop of `ToYAML::operator()(Drawing &)` over the remaining children:
`{ m_os << ind << "- "; std::visit(*this, s); }`. -/
def ToYAML.callDrawing.loop (ind : Indenter) : List Shape → State → State
  | [], st => st
  | s :: rest, st => ToYAML.callDrawing.loop ind rest (ToYAML.visit s (put "- " (ind.put st)))
end

/-- Method `ToYAML::operator()(Drawing &)`. -/
def ToYAML.callDrawing (d : List Shape) (st : State) : State :=
  let ind : Indenter := ⟨2⟩
  st |> ind.construct
     |> put "drawing:\n"
     |> ToYAML.callDrawing.loop ind d
     |> ind.destruct

end Shape6

/-! ## The tree of the testable scenario -/

/-- The tree `root [Circle(100,100,50), Triangle(100,200,40),
Drawing[Rectangle(50,50,25,50), Rectangle(75,75,25,50)]]`, the one `main` builds before it
adds the second nested drawing `d2`. -/
def scenarioTree : List Shape :=
  [.circle ⟨100, 100, 50⟩, .triangle ⟨100, 200, 40⟩,
   .drawing [.rectangle ⟨50, 50, 25, 50⟩, .rectangle ⟨75, 75, 25, 50⟩]]

/-- The tree `main` builds in `shape1.cc` .. `shape6.cc`: the scenario with the drawing
`d2 = [Rectangle(50,150,25,60), Rectangle(75,175,25,60)]` added to the nested drawing `d1`. -/
def mainTree : List Shape :=
  [.circle ⟨100, 100, 50⟩, .triangle ⟨100, 200, 40⟩,
   .drawing [.rectangle ⟨50, 50, 25, 50⟩, .rectangle ⟨75, 75, 25, 50⟩,
     .drawing [.rectangle ⟨50, 150, 25, 60⟩, .rectangle ⟨75, 175, 25, 60⟩]]]

/-! ## Notions used to state the properties -/

/-- The three primitive kinds, the nodes that are not a `Drawing`. -/
inductive Primitive where
  | circle (c : Circle)
  | triangle (t : Triangle)
  | rectangle (r : Rectangle)
deriving DecidableEq, Repr

mutual
/-- The primitives of a tree in pre-order: a primitive is itself, a drawing gives the
primitives of its children. -/
def Shape.primitives : Shape → List Primitive
  | .circle c => [.circle c]
  | .triangle t => [.triangle t]
  | .rectangle r => [.rectangle r]
  | .drawing m_shape => Drawing.primitives m_shape
/-- The primitives below a child sequence: those of the first child, then those of the
children after it, in insertion order. -/
def Drawing.primitives : List Shape → List Primitive
  | [] => []
  | s :: rest => Shape.primitives s ++ Drawing.primitives rest
end

/-- The line a primitive is drawn as: `Circle(x,y,radius)`, `Triangle(x,y,len)` or
`Rectangle(x,y,w,h)`, each followed by a newline. -/
def Primitive.line : Primitive → String
  | .circle c =>
    "Circle(" ++ showInt c.m_x ++ "," ++ showInt c.m_y ++ "," ++ showInt c.m_radius ++ ")\n"
  | .triangle t =>
    "Triangle(" ++ showInt t.m_x ++ "," ++ showInt t.m_y ++ "," ++ showInt t.m_len ++ ")\n"
  | .rectangle r =>
    "Rectangle(" ++ showInt r.m_x ++ "," ++ showInt r.m_y ++ "," ++ showInt r.m_w ++ ","
      ++ showInt r.m_h ++ ")\n"

/-- One field line of a primitive in the JSON text: two spaces, the quoted field name, a
colon, a space and the value. -/
def jsonField (name : String) (v : Int) : String := "  \"" ++ name ++ "\": " ++ showInt v

/-- The number a list of decimal digit characters stands for, most significant digit first. -/
def decimalValue (ds : List Char) : Nat :=
  ds.foldl (fun acc d => 10 * acc + (d.toNat - '0'.toNat)) 0

/-- One step of the scan for a trailing comma. The state is `none` once a comma has been
followed, after white space only, by `]`; otherwise it tells whether a comma is pending, that
is whether the last character other than white space was a comma. -/
def commaStep : Option Bool → Char → Option Bool
  | none, _ => none
  | some pending, c =>
    if c = ']' then (if pending then none else some false)
    else if c = ',' then some true
    else if c.isWhitespace then some pending
    else some false

/-- The scan for a trailing comma over a text, from a given state. -/
def commaScan (s : Option Bool) (text : String) : Option Bool := text.data.foldl commaStep s

/-- The name a node is announced with in the emitted text. -/
def Shape.kindName : Shape → String
  | .circle _ => "circle"
  | .triangle _ => "triangle"
  | .rectangle _ => "rectangle"
  | .drawing _ => "drawing"

/-- The run of `toYAML` followed from the root `s` down to the node at path `p` (the child
indices met on the way): the node found there, and the state at the moment its own emission
is called. For the child `i` of a drawing that is the state after the `Indenter` of the
drawing was constructed, the header was written, the loop (the argument `loop`, the children
loop of the implementation at hand) ran over the `i` children before it, and
`os << ind << "- "` was written for the child itself. The result is `none` when the path
leaves the tree. -/
def enterAt (loop : Indenter → List Shape → State → State) :
    List Nat → Shape → State → Option (Shape × State)
  | [], s, st => some (s, st)
  | i :: p, .drawing m_shape, st =>
    match m_shape[i]? with
    | none => none
    | some c =>
      enterAt loop p c
        (put "- " (Indenter.put ⟨2⟩ (loop ⟨2⟩ (m_shape.take i)
          (put "drawing:\n" (Indenter.construct ⟨2⟩ st)))))
  | _ :: _, .circle _, _ => none
  | _ :: _, .triangle _, _ => none
  | _ :: _, .rectangle _, _ => none

/-! ## `shape1.cc` and `shape5.cc`: building a drawing with `add` -/

/-- A use of the member template `add<T>(a...)` of `Drawing`: the class `T` that is named and
the arguments `a...`, which are those of the constructor of `T`. -/
inductive AddCall where
  | circle (x y radius : Int)
  | triangle (x y len : Int)
  | rectangle (x y w h : Int)
  | drawing
deriving DecidableEq, Repr

/-- The object `T(a...)` that the call constructs in place: the constructors of `Circle`,
`Triangle` and `Rectangle` store their arguments, and `Drawing()` has an empty `m_shape`. -/
def AddCall.construct : AddCall → Shape
  | .circle x y radius => .circle ⟨x, y, radius⟩
  | .triangle x y len => .triangle ⟨x, y, len⟩
  | .rectangle x y w h => .rectangle ⟨x, y, w, h⟩
  | .drawing => .drawing []

/-- Method `Drawing::add` of `shape1.cc` (the same in `shape2.cc` .. `shape4.cc`):
`m_shape.emplace_back(std::make_unique<T>(a...))` puts the new object at the end of the
vector, and the reference returned is to that object (`tmp` is the element `emplace_back`
inserted). The result is the new `m_shape` and the position of the element the returned
reference designates. -/
def Shape1.Drawing.add (call : AddCall) (m_shape : List Shape) : List Shape × Nat :=
  let m_shape := m_shape ++ [call.construct]
  (m_shape, m_shape.length - 1)

namespace Shape5

/-- Method `Circle::draw` of `shape5.cc` (the same in `shape6.cc`). -/
def Circle.draw (c : Circle) (os : String) : String :=
  os ++ "Circle(" ++ showInt c.m_x ++ "," ++ showInt c.m_y ++ ","
     ++ showInt c.m_radius ++ ")" ++ endl

/-- Method `Triangle::draw` of `shape5.cc` (the same in `shape6.cc`). -/
def Triangle.draw (t : Triangle) (os : String) : String :=
  os ++ "Triangle(" ++ showInt t.m_x ++ "," ++ showInt t.m_y ++ ","
     ++ showInt t.m_len ++ ")" ++ endl

/-- Method `Rectangle::draw` of `shape5.cc` (the same in `shape6.cc`). -/
def Rectangle.draw (r : Rectangle) (os : String) : String :=
  os ++ "Rectangle(" ++ showInt r.m_x ++ "," ++ showInt r.m_y ++ ","
     ++ showInt r.m_w ++ "," ++ showInt r.m_h ++ ")" ++ endl

mutual
/-- The call `std::visit([&](auto&& t) { t.draw(os); }, s)`: the generic lambda calls the
`draw` of the active alternative of the variant `s`. -/
def Shape.draw : Shape → String → String
  | .circle c, os => Circle.draw c os
  | .triangle t, os => Triangle.draw t os
  | .rectangle r, os => Rectangle.draw r os
  | .drawing m_shape, os => Drawing.draw m_shape os
/-- Method `Drawing::draw` of `shape5.cc` (the same in `shape6.cc`):
`for (auto &s : m_shape) std::visit([&](auto&& t) { t.draw(os); }, s);`. -/
def Drawing.draw : List Shape → String → String
  | [], os => os
  | s :: rest, os => Drawing.draw rest (Shape.draw s os)
end

/-- Method `Drawing::add` of `shape5.cc` (the same in `shape6.cc`):
`m_shape.emplace_back(std::in_place_type<T>, a...)` puts a variant holding `T(a...)` at the
end of the vector, and `std::get<T>(tmp)` is the reference to the object in that new element.
The result is the new `m_shape` and the position of the element the returned reference
designates. -/
def Drawing.add (call : AddCall) (m_shape : List Shape) : List Shape × Nat :=
  let m_shape := m_shape ++ [call.construct]
  (m_shape, m_shape.length - 1)

end Shape5

/-! ## `shape7.cc`, `shape8.cc`: the SFML shapes

The shapes of these two files are the SFML classes `sf::CircleShape` and
`sf::RectangleShape`, which are not part of the repository. They are modelled by the
attributes the operations use. The type `F` stands for `float` and `C` for `sf::Color`;
the product of two `float`s is the parameter `mul`. -/

namespace Sfml

/-- Modelled from the spec: the class `sf::Vector2f`, a pair of `float`s. -/
structure Vector2f (F : Type) where
  x : F
  y : F
deriving DecidableEq, Repr

/-- Modelled from the spec: the class `sf::CircleShape` (`using Circle = sf::CircleShape`), a
primitive with a position, a size (its radius) and a fill colour; `m_pointCount` is the
second argument of its constructor. -/
structure Circle (F C : Type) where
  m_radius : F
  m_pointCount : Nat
  m_fillColor : C
  m_position : Vector2f F
deriving DecidableEq, Repr

/-- Modelled from the spec: the getter `sf::CircleShape::getRadius`. -/
def Circle.getRadius {F C : Type} (s : Circle F C) : F := s.m_radius

/-- Modelled from the spec: the setter `sf::CircleShape::setRadius`, which changes the size
and nothing else. -/
def Circle.setRadius {F C : Type} (s : Circle F C) (radius : F) : Circle F C :=
  ⟨radius, s.m_pointCount, s.m_fillColor, s.m_position⟩

/-- Modelled from the spec: the setter `sf::Shape::setFillColor` on a circle, which changes
the fill colour and nothing else. -/
def Circle.setFillColor {F C : Type} (s : Circle F C) (color : C) : Circle F C :=
  ⟨s.m_radius, s.m_pointCount, color, s.m_position⟩

/-- Class `Triangle` of `shape7.cc` and `shape8.cc`: `class Triangle : public Circle`, a
circle shape and nothing more. -/
structure Triangle (F C : Type) where
  toCircle : Circle F C
deriving DecidableEq, Repr

/-- Modelled from the spec: the class `sf::RectangleShape`
(`using Rectangle = sf::RectangleShape`), a primitive with a position, a size `(w, h)` and a
fill colour. -/
structure Rectangle (F C : Type) where
  m_size : Vector2f F
  m_fillColor : C
  m_position : Vector2f F
deriving DecidableEq, Repr

/-- Modelled from the spec: the getter `sf::RectangleShape::getSize`. -/
def Rectangle.getSize {F C : Type} (s : Rectangle F C) : Vector2f F := s.m_size

/-- Modelled from the spec: the setter `sf::RectangleShape::setSize`, which changes the size
and nothing else. -/
def Rectangle.setSize {F C : Type} (s : Rectangle F C) (size : Vector2f F) : Rectangle F C :=
  ⟨size, s.m_fillColor, s.m_position⟩

/-- Modelled from the spec: the setter `sf::Shape::setFillColor` on a rectangle, which
changes the fill colour and nothing else. -/
def Rectangle.setFillColor {F C : Type} (s : Rectangle F C) (color : C) : Rectangle F C :=
  ⟨s.m_size, color, s.m_position⟩

/-- The variant `std::variant<Circle, Triangle, Rectangle, Drawing>` of `shape7.cc`, which is
also `Composite<Circle, Triangle, Rectangle>::value_type` of `shape8.cc`. A `Drawing` is
its child sequence (`m_shape` in `shape7.cc`, `m_composite` in `shape8.cc`). -/
inductive Shape (F C : Type) where
  | circle (s : Circle F C)
  | triangle (s : Triangle F C)
  | rectangle (s : Rectangle F C)
  | drawing (m_shape : List (Shape F C))
deriving Repr

/-- A use of `add<T>(a...)` (`shape7.cc`) or `emplace_back<T>(a...)` (`shape8.cc`): the class
`T` that is named and the arguments, which are those of the constructor of `T`. -/
inductive AddCall (F : Type) where
  | circle (radius : F)
  | triangle (radius : F)
  | rectangle (size : Vector2f F)
  | drawing
deriving DecidableEq, Repr

/-- Modelled from the spec: the constructor `sf::CircleShape(radius, pointCount)`, whose
second argument is 30 when it is not given. A new SFML shape is at the position
`(zero, zero)` and has the fill colour `white`, where `zero` stands for `0.f` and `white` for
`sf::Color::White`. -/
def Circle.construct {F C : Type} (zero : F) (white : C) (radius : F) (pointCount : Nat) :
    Circle F C :=
  ⟨radius, pointCount, white, ⟨zero, zero⟩⟩

/-- Modelled from the spec: the constructor `sf::RectangleShape(size)`; the new shape is at
the position `(zero, zero)` and has the fill colour `white`. -/
def Rectangle.construct {F C : Type} (zero : F) (white : C) (size : Vector2f F) :
    Rectangle F C :=
  ⟨size, white, ⟨zero, zero⟩⟩

/-- The constructor `Triangle(float radius) : Circle (radius, 3) {}`. -/
def Triangle.construct {F C : Type} (zero : F) (white : C) (radius : F) : Triangle F C :=
  ⟨Circle.construct zero white radius 3⟩

/-- The object `T(a...)` that the call constructs in place; `Drawing()` has no children. -/
def AddCall.construct {F C : Type} (zero : F) (white : C) : AddCall F → Shape F C
  | .circle radius => .circle (Circle.construct zero white radius 30)
  | .triangle radius => .triangle (Triangle.construct zero white radius)
  | .rectangle size => .rectangle (Rectangle.construct zero white size)
  | .drawing => .drawing []

end Sfml

/-! ## `shape7.cc`: `Scale` and `FillColor` looping over the children themselves -/

namespace Shape7

/-- Method `Drawing::add` of `shape7.cc`: `m_shape.emplace_back(std::in_place_type<T>, a...)`
and `std::get<T>(tmp)`. The result is the new `m_shape` and the position of the element the
returned reference designates. -/
def Drawing.add {F C : Type} (zero : F) (white : C) (call : Sfml.AddCall F)
    (m_shape : List (Sfml.Shape F C)) : List (Sfml.Shape F C) × Nat :=
  let m_shape := m_shape ++ [call.construct zero white]
  (m_shape, m_shape.length - 1)

/-- Class `Scale`: its member `float m_ratio`. -/
structure Scale (F : Type) where
  m_ratio : F
deriving DecidableEq, Repr

/-- Method `Scale::operator()(Circle &s)`: `s.setRadius(s.getRadius() * m_ratio)`. -/
def Scale.callCircle {F C : Type} (mul : F → F → F) (self : Scale F) (s : Sfml.Circle F C) :
    Sfml.Circle F C :=
  s.setRadius (mul s.getRadius self.m_ratio)

/-- Method `Scale::operator()(Triangle &s)`: `s.setRadius(s.getRadius() * m_ratio)`, on the
circle shape the triangle is. -/
def Scale.callTriangle {F C : Type} (mul : F → F → F) (self : Scale F)
    (s : Sfml.Triangle F C) : Sfml.Triangle F C :=
  ⟨s.toCircle.setRadius (mul s.toCircle.getRadius self.m_ratio)⟩

/-- Method `Scale::operator()(Rectangle &s)`:
`auto sz = s.getSize(); s.setSize(V2f(sz.x * m_ratio, sz.y * m_ratio))`. -/
def Scale.callRectangle {F C : Type} (mul : F → F → F) (self : Scale F)
    (s : Sfml.Rectangle F C) : Sfml.Rectangle F C :=
  let sz := s.getSize
  s.setSize ⟨mul sz.x self.m_ratio, mul sz.y self.m_ratio⟩

mutual
/-- The call `std::visit(*this, s)` made by a `Scale`: the overload of `operator()` for the
active alternative of `s` runs on the object in place; the result is the node afterwards. -/
def Scale.visit {F C : Type} (mul : F → F → F) (self : Scale F) :
    Sfml.Shape F C → Sfml.Shape F C
  | .circle s => .circle (Scale.callCircle mul self s)
  | .triangle s => .triangle (Scale.callTriangle mul self s)
  | .rectangle s => .rectangle (Scale.callRectangle mul self s)
  | .drawing d => .drawing (Scale.callDrawing mul self d)
/-- Method `Scale::operator()(Drawing &d)`: `for (auto &s : d) std::visit(*this, s);`. The
result is the child sequence afterwards. -/
def Scale.callDrawing {F C : Type} (mul : F → F → F) (self : Scale F) :
    List (Sfml.Shape F C) → List (Sfml.Shape F C)
  | [] => []
  | s :: rest => Scale.visit mul self s :: Scale.callDrawing mul self rest
end

/-- Class `FillColor`: its member `Color m_color`. -/
structure FillColor (C : Type) where
  m_color : C
deriving DecidableEq, Repr

/-- Method `FillColor::operator()(Circle &s)`: `s.setFillColor(m_color)`. -/
def FillColor.callCircle {F C : Type} (self : FillColor C) (s : Sfml.Circle F C) :
    Sfml.Circle F C :=
  s.setFillColor self.m_color

/-- Method `FillColor::operator()(Triangle &s)`: `s.setFillColor(m_color)`, on the circle
shape the triangle is. -/
def FillColor.callTriangle {F C : Type} (self : FillColor C) (s : Sfml.Triangle F C) :
    Sfml.Triangle F C :=
  ⟨s.toCircle.setFillColor self.m_color⟩

/-- Method `FillColor::operator()(Rectangle &s)`: `s.setFillColor(m_color)`. -/
def FillColor.callRectangle {F C : Type} (self : FillColor C) (s : Sfml.Rectangle F C) :
    Sfml.Rectangle F C :=
  s.setFillColor self.m_color

mutual
/-- The call `std::visit(*this, s)` made by a `FillColor`; the result is the node
afterwards. -/
def FillColor.visit {F C : Type} (self : FillColor C) : Sfml.Shape F C → Sfml.Shape F C
  | .circle s => .circle (FillColor.callCircle self s)
  | .triangle s => .triangle (FillColor.callTriangle self s)
  | .rectangle s => .rectangle (FillColor.callRectangle self s)
  | .drawing d => .drawing (FillColor.callDrawing self d)
/-- Method `FillColor::operator()(Drawing &d)`: `for (auto &s : d) std::visit(*this, s);`.
The result is the child sequence afterwards. -/
def FillColor.callDrawing {F C : Type} (self : FillColor C) :
    List (Sfml.Shape F C) → List (Sfml.Shape F C)
  | [] => []
  | s :: rest => FillColor.visit self s :: FillColor.callDrawing self rest
end

end Shape7

/-! ## `shape8.cc`: the class template `Composite`, `Scale` and `FillColor` through `accept` -/

namespace Shape8

/-- Method `Composite::emplace_back`:
`m_composite.emplace_back(std::in_place_type<T>, a...)` and `std::get<T>(tmp)`. The result is
the new `m_composite` and the position of the element the returned reference designates. -/
def Composite.emplace_back {F C : Type} (zero : F) (white : C) (call : Sfml.AddCall F)
    (m_composite : List (Sfml.Shape F C)) : List (Sfml.Shape F C) × Nat :=
  let m_composite := m_composite ++ [call.construct zero white]
  (m_composite, m_composite.length - 1)

/-- Method `Composite::accept`, for any visitor type:
`for (auto &s : m_composite) { std::visit(visitor, s); }`. The visitor is passed by
reference and each child is visited in place, so `visit s v` gives what the call
`std::visit(visitor, s)` leaves of the child `s` and of the visitor `v`. The result is the
child sequence and the visitor afterwards. -/
def Composite.accept {F C V : Type} (visit : Sfml.Shape F C → V → Sfml.Shape F C × V) :
    List (Sfml.Shape F C) → V → List (Sfml.Shape F C) × V
  | [], visitor => ([], visitor)
  | s :: rest, visitor =>
    let r := visit s visitor
    let rs := Composite.accept visit rest r.2
    (r.1 :: rs.1, rs.2)

/-- Class `Scale` of `shape8.cc`: its member `float m_ratio`. -/
structure Scale (F : Type) where
  m_ratio : F
deriving DecidableEq, Repr

/-- Method `Scale::operator()(Circle &s)`: `s.setRadius(s.getRadius() * m_ratio)`. -/
def Scale.callCircle {F C : Type} (mul : F → F → F) (self : Scale F) (s : Sfml.Circle F C) :
    Sfml.Circle F C :=
  s.setRadius (mul s.getRadius self.m_ratio)

/-- Method `Scale::operator()(Triangle &s)`: `s.setRadius(s.getRadius() * m_ratio)`, on the
circle shape the triangle is. -/
def Scale.callTriangle {F C : Type} (mul : F → F → F) (self : Scale F)
    (s : Sfml.Triangle F C) : Sfml.Triangle F C :=
  ⟨s.toCircle.setRadius (mul s.toCircle.getRadius self.m_ratio)⟩

/-- Method `Scale::operator()(Rectangle &s)`:
`auto sz = s.getSize(); s.setSize(V2f(sz.x * m_ratio, sz.y * m_ratio))`. -/
def Scale.callRectangle {F C : Type} (mul : F → F → F) (self : Scale F)
    (s : Sfml.Rectangle F C) : Sfml.Rectangle F C :=
  let sz := s.getSize
  s.setSize ⟨mul sz.x self.m_ratio, mul sz.y self.m_ratio⟩

mutual
/-- The call `std::visit(visitor, s)` made with a `Scale`; the result is the node afterwards.
The `Drawing` case is the body of `Scale::operator()(Drawing &d)`, `d.accept(*this)`. -/
def Scale.visit {F C : Type} (mul : F → F → F) (self : Scale F) :
    Sfml.Shape F C → Sfml.Shape F C
  | .circle s => .circle (Scale.callCircle mul self s)
  | .triangle s => .triangle (Scale.callTriangle mul self s)
  | .rectangle s => .rectangle (Scale.callRectangle mul self s)
  | .drawing d => .drawing (Scale.accept mul self d)
/-- The instance of `Composite::accept` for a `Scale` visitor:
`for (auto &s : m_composite) { std::visit(visitor, s); }`. The result is the child sequence
afterwards. -/
def Scale.accept {F C : Type} (mul : F → F → F) (self : Scale F) :
    List (Sfml.Shape F C) → List (Sfml.Shape F C)
  | [] => []
  | s :: rest => Scale.visit mul self s :: Scale.accept mul self rest
end

/-- Method `Scale::operator()(Drawing &d)`: `d.accept(*this)`. -/
def Scale.callDrawing {F C : Type} (mul : F → F → F) (self : Scale F)
    (d : List (Sfml.Shape F C)) : List (Sfml.Shape F C) :=
  Scale.accept mul self d

/-- Class `FillColor` of `shape8.cc`: its member `Color m_color`. -/
structure FillColor (C : Type) where
  m_color : C
deriving DecidableEq, Repr

/-- Method `FillColor::operator()(Circle &s)`: `s.setFillColor(m_color)`. -/
def FillColor.callCircle {F C : Type} (self : FillColor C) (s : Sfml.Circle F C) :
    Sfml.Circle F C :=
  s.setFillColor self.m_color

/-- Method `FillColor::operator()(Triangle &s)`: `s.setFillColor(m_color)`, on the circle
shape the triangle is. -/
def FillColor.callTriangle {F C : Type} (self : FillColor C) (s : Sfml.Triangle F C) :
    Sfml.Triangle F C :=
  ⟨s.toCircle.setFillColor self.m_color⟩

/-- Method `FillColor::operator()(Rectangle &s)`: `s.setFillColor(m_color)`. -/
def FillColor.callRectangle {F C : Type} (self : FillColor C) (s : Sfml.Rectangle F C) :
    Sfml.Rectangle F C :=
  s.setFillColor self.m_color

mutual
/-- The call `std::visit(visitor, s)` made with a `FillColor`; the result is the node
afterwards. The `Drawing` case is the body of `FillColor::operator()(Drawing &d)`,
`d.accept(*this)`. -/
def FillColor.visit {F C : Type} (self : FillColor C) : Sfml.Shape F C → Sfml.Shape F C
  | .circle s => .circle (FillColor.callCircle self s)
  | .triangle s => .triangle (FillColor.callTriangle self s)
  | .rectangle s => .rectangle (FillColor.callRectangle self s)
  | .drawing d => .drawing (FillColor.accept self d)
/-- The instance of `Composite::accept` for a `FillColor` visitor:
`for (auto &s : m_composite) { std::visit(visitor, s); }`. The result is the child sequence
afterwards. -/
def FillColor.accept {F C : Type} (self : FillColor C) :
    List (Sfml.Shape F C) → List (Sfml.Shape F C)
  | [] => []
  | s :: rest => FillColor.visit self s :: FillColor.accept self rest
end

/-- Method `FillColor::operator()(Drawing &d)`: `d.accept(*this)`. -/
def FillColor.callDrawing {F C : Type} (self : FillColor C) (d : List (Sfml.Shape F C)) :
    List (Sfml.Shape F C) :=
  FillColor.accept self d

end Shape8

/-! ## The dispatch mechanisms in general, and the canary operation -/

/-- The four kinds of node. -/
inductive Kind where
  | circle
  | triangle
  | rectangle
  | drawing
deriving DecidableEq, Repr

namespace Shape4

/-- Class `Visitor` of `shape4.cc`: the four pure virtual overloads of `visit`, told apart by
a suffix. An overload acts on the state `σ` of the visitor object and of what it refers to;
the node it is given is only read (`ToJSON` and `ToYAML` use its `const` getters). -/
structure Visitor (σ : Type) where
  visitCircle : Circle → σ → σ
  visitTriangle : Triangle → σ → σ
  visitRectangle : Rectangle → σ → σ
  visitDrawing : List Shape → σ → σ

/-- The four overrides of `Shape::accept`, each of them `visitor.visit(*this)`: the virtual
call `s->accept(visitor)` runs the override of the dynamic type of `s`, where the static type
of `*this` selects the overload of `visit` for that class. -/
def Shape.accept {σ : Type} (visitor : Visitor σ) : Shape → σ → σ
  | .circle c, st => visitor.visitCircle c st
  | .triangle t, st => visitor.visitTriangle t st
  | .rectangle r, st => visitor.visitRectangle r st
  | .drawing d, st => visitor.visitDrawing d st

/-- Modelled from the spec: the canary operation of the testable properties as a `Visitor`
subclass, whose state is the list `m_log` of the kinds recorded so far; `visit(Circle &)`
records the kind it was called for. -/
def Canary.visitCircle (_s : Circle) (m_log : List Kind) : List Kind := m_log ++ [Kind.circle]

/-- Modelled from the spec: the canary's `visit(Triangle &)` records the kind it was called
for. -/
def Canary.visitTriangle (_s : Triangle) (m_log : List Kind) : List Kind :=
  m_log ++ [Kind.triangle]

/-- Modelled from the spec: the canary's `visit(Rectangle &)` records the kind it was called
for. -/
def Canary.visitRectangle (_s : Rectangle) (m_log : List Kind) : List Kind :=
  m_log ++ [Kind.rectangle]

mutual
/-- The call `s->accept(*this)` made with the canary. The `Drawing` case is the body of the
canary's `visit(Drawing &)`. -/
def Canary.accept : Shape → List Kind → List Kind
  | .circle c, m_log => Canary.visitCircle c m_log
  | .triangle t, m_log => Canary.visitTriangle t m_log
  | .rectangle r, m_log => Canary.visitRectangle r m_log
  | .drawing d, m_log => Canary.visitDrawing.loop d (m_log ++ [Kind.drawing])
/-- The loop of the canary's `visit(Drawing &)` over the remaining children, as in the
visitors of `shape4.cc`: `std::for_each(d.begin(), d.end(), ...)` with the body
`s->accept(*this)`. -/
def Canary.visitDrawing.loop : List Shape → List Kind → List Kind
  | [], m_log => m_log
  | s :: rest, m_log => Canary.visitDrawing.loop rest (Canary.accept s m_log)
end

/-- Modelled from the spec: the canary's `visit(Drawing &)` records the kind it was called
for and then recurses into the children, as the visitors of `shape4.cc` do. -/
def Canary.visitDrawing (d : List Shape) (m_log : List Kind) : List Kind :=
  Canary.visitDrawing.loop d (m_log ++ [Kind.drawing])

/-- The canary as a `Visitor` object: its four overloads of `visit`. -/
def Canary.visitor : Visitor (List Kind) :=
  ⟨Canary.visitCircle, Canary.visitTriangle, Canary.visitRectangle, Canary.visitDrawing⟩

end Shape4

namespace Shape8

/-- A class used as the visitor of `std::visit`: its four overloads of `operator()`, told
apart by a suffix. An overload gets its node by reference and may change it and the visitor
`V`, so it gives the node and the visitor afterwards. -/
structure Callable (F C V : Type) where
  callCircle : Sfml.Circle F C → V → Sfml.Circle F C × V
  callTriangle : Sfml.Triangle F C → V → Sfml.Triangle F C × V
  callRectangle : Sfml.Rectangle F C → V → Sfml.Rectangle F C × V
  callDrawing : List (Sfml.Shape F C) → V → List (Sfml.Shape F C) × V

/-- The call `std::visit(visitor, s)`: the overload of `operator()` for the active
alternative of the variant `s` runs. A `Triangle` is a `Circle` by inheritance, and the
overload for `Triangle &` is the exact match for the alternative `Triangle`. -/
def visit {F C V : Type} (visitor : Callable F C V) : Sfml.Shape F C → V → Sfml.Shape F C × V
  | .circle s, v => (.circle (visitor.callCircle s v).1, (visitor.callCircle s v).2)
  | .triangle s, v => (.triangle (visitor.callTriangle s v).1, (visitor.callTriangle s v).2)
  | .rectangle s, v => (.rectangle (visitor.callRectangle s v).1, (visitor.callRectangle s v).2)
  | .drawing d, v => (.drawing (visitor.callDrawing d v).1, (visitor.callDrawing d v).2)

/-- Modelled from the spec: the canary operation of the testable properties as a visitor of
`std::visit`, whose state is the list `m_log` of the kinds recorded so far;
`operator()(Circle &)` records the kind it was called for. -/
def Canary.callCircle {F C : Type} (_s : Sfml.Circle F C) (m_log : List Kind) : List Kind :=
  m_log ++ [Kind.circle]

/-- Modelled from the spec: the canary's `operator()(Triangle &)` records the kind it was
called for. -/
def Canary.callTriangle {F C : Type} (_s : Sfml.Triangle F C) (m_log : List Kind) :
    List Kind :=
  m_log ++ [Kind.triangle]

/-- Modelled from the spec: the canary's `operator()(Rectangle &)` records the kind it was
called for. -/
def Canary.callRectangle {F C : Type} (_s : Sfml.Rectangle F C) (m_log : List Kind) :
    List Kind :=
  m_log ++ [Kind.rectangle]

mutual
/-- The call `std::visit(visitor, s)` made with the canary. The `Drawing` case is the body of
the canary's `operator()(Drawing &d)`: the kind is recorded, then `d.accept(*this)`. -/
def Canary.visit {F C : Type} : Sfml.Shape F C → List Kind → List Kind
  | .circle s, m_log => Canary.callCircle s m_log
  | .triangle s, m_log => Canary.callTriangle s m_log
  | .rectangle s, m_log => Canary.callRectangle s m_log
  | .drawing d, m_log => Canary.accept d (m_log ++ [Kind.drawing])
/-- The instance of `Composite::accept` for the canary:
`for (auto &s : m_composite) { std::visit(visitor, s); }`. -/
def Canary.accept {F C : Type} : List (Sfml.Shape F C) → List Kind → List Kind
  | [], m_log => m_log
  | s :: rest, m_log => Canary.accept rest (Canary.visit s m_log)
end

/-- Modelled from the spec: the canary's `operator()(Drawing &d)` records the kind it was
called for and then recurses into the children with `d.accept(*this)`, as the visitors of
`shape8.cc` do. -/
def Canary.callDrawing {F C : Type} (d : List (Sfml.Shape F C)) (m_log : List Kind) :
    List Kind :=
  Canary.accept d (m_log ++ [Kind.drawing])

/-- The canary as a visitor of `std::visit`: its four overloads of `operator()`, none of
which changes the node it is given. -/
def Canary.callable {F C : Type} : Callable F C (List Kind) :=
  ⟨fun s m_log => (s, Canary.callCircle s m_log),
   fun s m_log => (s, Canary.callTriangle s m_log),
   fun s m_log => (s, Canary.callRectangle s m_log),
   fun d m_log => (d, Canary.callDrawing d m_log)⟩

end Shape8

/-! ## Notions used to state the properties of the tree operations -/

mutual
/-- The kinds of all nodes of a tree in pre-order: the node itself, then the nodes below its
children in insertion order. -/
def Shape.kinds : Shape → List Kind
  | .circle _ => [Kind.circle]
  | .triangle _ => [Kind.triangle]
  | .rectangle _ => [Kind.rectangle]
  | .drawing m_shape => Kind.drawing :: Drawing.kinds m_shape
/-- The kinds of all nodes below a child sequence, in pre-order. -/
def Drawing.kinds : List Shape → List Kind
  | [] => []
  | s :: rest => Shape.kinds s ++ Drawing.kinds rest
end

namespace Sfml

/-- A node of a tree taken by itself: a primitive with its attributes, or a drawing with the
number of its children. -/
inductive Node (F C : Type) where
  | circle (s : Circle F C)
  | triangle (s : Triangle F C)
  | rectangle (s : Rectangle F C)
  | drawing (children : Nat)
deriving DecidableEq, Repr

mutual
/-- All nodes of a tree in pre-order, each with its depth (the number of drawings that
enclose it, counted from `depth` for the root): the node itself, then the nodes below its
children in insertion order. -/
def Shape.nodes {F C : Type} : Nat → Shape F C → List (Nat × Node F C)
  | depth, .circle s => [(depth, .circle s)]
  | depth, .triangle s => [(depth, .triangle s)]
  | depth, .rectangle s => [(depth, .rectangle s)]
  | depth, .drawing m_shape => (depth, .drawing m_shape.length) :: Drawing.nodes (depth + 1) m_shape
/-- All nodes below a child sequence, in pre-order, the children being at depth `depth`. -/
def Drawing.nodes {F C : Type} : Nat → List (Shape F C) → List (Nat × Node F C)
  | _, [] => []
  | depth, s :: rest => Shape.nodes depth s ++ Drawing.nodes depth rest
end

/-- The kind of a node. -/
def Node.kind {F C : Type} : Node F C → Kind
  | .circle _ => Kind.circle
  | .triangle _ => Kind.triangle
  | .rectangle _ => Kind.rectangle
  | .drawing _ => Kind.drawing

/-- The size fields of a node: the radius of a circle or a triangle, `w` and `h` of a
rectangle, none for a drawing. -/
def Node.sizes {F C : Type} : Node F C → List F
  | .circle s => [s.m_radius]
  | .triangle s => [s.toCircle.m_radius]
  | .rectangle s => [s.m_size.x, s.m_size.y]
  | .drawing _ => []

/-- The fill colour of a node; a drawing has none. -/
def Node.fillColor {F C : Type} : Node F C → Option C
  | .circle s => some s.m_fillColor
  | .triangle s => some s.toCircle.m_fillColor
  | .rectangle s => some s.m_fillColor
  | .drawing _ => none

/-- The position of a node; a drawing has none. -/
def Node.position {F C : Type} : Node F C → Option (Vector2f F)
  | .circle s => some s.m_position
  | .triangle s => some s.toCircle.m_position
  | .rectangle s => some s.m_position
  | .drawing _ => none

/-- A node with every size field multiplied once by `r`, and nothing else changed. -/
def Node.scaleOnce {F C : Type} (mul : F → F → F) (r : F) : Node F C → Node F C
  | .circle s => .circle ⟨mul s.m_radius r, s.m_pointCount, s.m_fillColor, s.m_position⟩
  | .triangle s =>
    .triangle ⟨⟨mul s.toCircle.m_radius r, s.toCircle.m_pointCount, s.toCircle.m_fillColor,
      s.toCircle.m_position⟩⟩
  | .rectangle s => .rectangle ⟨⟨mul s.m_size.x r, mul s.m_size.y r⟩, s.m_fillColor, s.m_position⟩
  | .drawing children => .drawing children

/-- A node with its size fields replaced by the fixed value `z`: what is left of a node when
its size is not looked at. -/
def Node.eraseSize {F C : Type} (z : F) : Node F C → Node F C
  | .circle s => .circle ⟨z, s.m_pointCount, s.m_fillColor, s.m_position⟩
  | .triangle s =>
    .triangle ⟨⟨z, s.toCircle.m_pointCount, s.toCircle.m_fillColor, s.toCircle.m_position⟩⟩
  | .rectangle s => .rectangle ⟨⟨z, z⟩, s.m_fillColor, s.m_position⟩
  | .drawing children => .drawing children

/-- A node with its fill colour replaced by `c` when it is a primitive, and nothing else
changed. With a fixed colour this is what is left of a node when its colour is not looked
at. -/
def Node.setFill {F C : Type} (c : C) : Node F C → Node F C
  | .circle s => .circle ⟨s.m_radius, s.m_pointCount, c, s.m_position⟩
  | .triangle s =>
    .triangle ⟨⟨s.toCircle.m_radius, s.toCircle.m_pointCount, c, s.toCircle.m_position⟩⟩
  | .rectangle s => .rectangle ⟨s.m_size, c, s.m_position⟩
  | .drawing children => .drawing children

end Sfml

/-! ## A run of `main` in `shape6.cc` -/

namespace Shape6

/-- What `main` of `shape6.cc` works on: the drawing `d` it has built, the text written to
`std::cout` and the static `Indenter::m_ilevel`. -/
structure Program where
  d : List Shape
  cout : String
  m_ilevel : Int

/-- The statement `d.draw(std::cout);` (the one `main` of `shape5.cc` ends with; `Drawing`
has the same `draw` in `shape6.cc`). The methods `draw` write the members to the stream and
assign to none of them, so `d` is what it was. -/
def Program.draw (p : Program) : Program :=
  ⟨p.d, Shape5.Drawing.draw p.d p.cout, p.m_ilevel⟩

/-- The statements `ToJSON json(std::cout); json(d);`. The overloads of
`ToJSON::operator()` read a node through its `const` getters `getPosition` and `getSize`
only, so `d` is what it was. -/
def Program.json (p : Program) : Program :=
  ⟨p.d, ToJSON.callDrawing p.d p.cout, p.m_ilevel⟩

/-- The statements `ToYAML yaml(std::cout); yaml(d);`. The overloads of
`ToYAML::operator()` read a node through its `const` getters only, so `d` is what it was;
the stream and the counter are what `ToYAML::operator()(Drawing &)` leaves. -/
def Program.yaml (p : Program) : Program :=
  ⟨p.d, (ToYAML.callDrawing p.d ⟨p.cout, p.m_ilevel⟩).os,
    (ToYAML.callDrawing p.d ⟨p.cout, p.m_ilevel⟩).m_ilevel⟩

end Shape6

/-! ## Notions used to state termination, the explicit depth and the trace of the counter -/

mutual
/-- The number of nodes of a tree. -/
def Shape.size : Shape → Nat
  | .circle _ => 1
  | .triangle _ => 1
  | .rectangle _ => 1
  | .drawing m_shape => 1 + Drawing.size m_shape
/-- The number of nodes below a child sequence. -/
def Drawing.size : List Shape → Nat
  | [] => 0
  | s :: rest => Shape.size s + Drawing.size rest
end

namespace Sfml

mutual
/-- The number of nodes of a tree of SFML shapes. -/
def Shape.size {F C : Type} : Shape F C → Nat
  | .circle _ => 1
  | .triangle _ => 1
  | .rectangle _ => 1
  | .drawing m_shape => 1 + Drawing.size m_shape
/-- The number of nodes below a child sequence of SFML shapes. -/
def Drawing.size {F C : Type} : List (Shape F C) → Nat
  | [] => 0
  | s :: rest => Shape.size s + Drawing.size rest
end

end Sfml

/-- The header line of a primitive in the YAML text as the three `ToYAML` implementations
write it: the kind name and a colon, then a newline, with a space before the newline in the
case of a rectangle. -/
def yamlHeader : Primitive → String
  | .circle _ => "circle:\n"
  | .triangle _ => "triangle:\n"
  | .rectangle _ => "rectangle: \n"

/-- One field line of a primitive in the YAML text: the indent, `- `, the field name, a
colon, a space, the value and a newline. -/
def yamlFieldLine (indent : Nat) (name : String) (v : Int) : String :=
  String.mk (List.replicate indent ' ') ++ "- " ++ name ++ ": " ++ showInt v ++ "\n"

/-- The field lines of a primitive in field order, each prefixed by `indent` spaces. -/
def yamlFields (indent : Nat) : Primitive → String
  | .circle c =>
    yamlFieldLine indent "x" c.m_x ++ yamlFieldLine indent "y" c.m_y
      ++ yamlFieldLine indent "radius" c.m_radius
  | .triangle t =>
    yamlFieldLine indent "x" t.m_x ++ yamlFieldLine indent "y" t.m_y
      ++ yamlFieldLine indent "len" t.m_len
  | .rectangle r =>
    yamlFieldLine indent "x" r.m_x ++ yamlFieldLine indent "y" r.m_y
      ++ yamlFieldLine indent "w" r.m_w ++ yamlFieldLine indent "h" r.m_h

mutual
/-- The YAML text with the depth passed as a parameter, as the specification words it:
`yaml d primitive` is the header followed by the field lines prefixed by `d + 2` spaces, and
`yaml d (Drawing cs)` is `drawing:`, a newline and then, for each child `c`, `d + 2` spaces,
`- ` and `yaml (d + 2) c`. No counter is shared. -/
def yaml : Nat → Shape → String
  | d, .circle c => yamlHeader (.circle c) ++ yamlFields (d + 2) (.circle c)
  | d, .triangle t => yamlHeader (.triangle t) ++ yamlFields (d + 2) (.triangle t)
  | d, .rectangle r => yamlHeader (.rectangle r) ++ yamlFields (d + 2) (.rectangle r)
  | d, .drawing cs => "drawing:\n" ++ yamlChildren d cs
/-- The part of `yaml d (Drawing cs)` for the children `cs`: for each child `c`, `d + 2`
spaces, `- ` and `yaml (d + 2) c`. -/
def yamlChildren : Nat → List Shape → String
  | _, [] => ""
  | d, c :: rest =>
    String.mk (List.replicate (d + 2) ' ') ++ "- " ++ yaml (d + 2) c ++ yamlChildren d rest
end

/-- A run of `toYAML` together with a record of the counter: the state, the values
`Indenter::m_ilevel` has had after each step so far, and whether the clamping branch
`if (m_ilevel < 0) m_ilevel = 0;` of the destructor of `Indenter` has been taken. -/
structure Traced where
  st : State
  levels : List Int
  clamped : Bool

/-- One step of the run that is not a destructor: the state changes by `f` and the value of
the counter after it is recorded. -/
def Traced.step (f : State → State) (t : Traced) : Traced :=
  ⟨f t.st, t.levels ++ [(f t.st).m_ilevel], t.clamped⟩

/-- The destructor of `Indenter` as a step of the run: the value of the counter after it is
recorded, and it is recorded when the test `m_ilevel < 0` after the subtraction succeeds. -/
def Indenter.destructT (ind : Indenter) (t : Traced) : Traced :=
  ⟨ind.destruct t.st, t.levels ++ [(ind.destruct t.st).m_ilevel],
    t.clamped || decide (t.st.m_ilevel - ind.m_num_space < 0)⟩

namespace Shape3

/-- Method `Circle::toYAML` step by step, with the record of the counter. -/
def Circle.toYAMLT (c : Circle) (t : Traced) : Traced :=
  let ind : Indenter := ⟨2⟩
  t |> Traced.step ind.construct
    |> Traced.step (put "circle:\n")
    |> Traced.step ind.put |> Traced.step (put "- x: ") |> Traced.step (putInt c.m_x)
    |> Traced.step (put "\n")
    |> Traced.step ind.put |> Traced.step (put "- y: ") |> Traced.step (putInt c.m_y)
    |> Traced.step (put "\n")
    |> Traced.step ind.put |> Traced.step (put "- radius: ")
    |> Traced.step (putInt c.m_radius) |> Traced.step (put "\n")
    |> ind.destructT

/-- Method `Triangle::toYAML` step by step, with the record of the counter. -/
def Triangle.toYAMLT (s : Triangle) (t : Traced) : Traced :=
  let ind : Indenter := ⟨2⟩
  t |> Traced.step ind.construct
    |> Traced.step (put "triangle:\n")
    |> Traced.step ind.put |> Traced.step (put "- x: ") |> Traced.step (putInt s.m_x)
    |> Traced.step (put "\n")
    |> Traced.step ind.put |> Traced.step (put "- y: ") |> Traced.step (putInt s.m_y)
    |> Traced.step (put "\n")
    |> Traced.step ind.put |> Traced.step (put "- len: ") |> Traced.step (putInt s.m_len)
    |> Traced.step (put "\n")
    |> ind.destructT

/-- Method `Rectangle::toYAML` step by step, with the record of the counter. -/
def Rectangle.toYAMLT (r : Rectangle) (t : Traced) : Traced :=
  let ind : Indenter := ⟨2⟩
  t |> Traced.step ind.construct
    |> Traced.step (put "rectangle: \n")
    |> Traced.step ind.put |> Traced.step (put "- x: ") |> Traced.step (putInt r.m_x)
    |> Traced.step (put "\n")
    |> Traced.step ind.put |> Traced.step (put "- y: ") |> Traced.step (putInt r.m_y)
    |> Traced.step (put "\n")
    |> Traced.step ind.put |> Traced.step (put "- w: ") |> Traced.step (putInt r.m_w)
    |> Traced.step (put "\n")
    |> Traced.step ind.put |> Traced.step (put "- h: ") |> Traced.step (putInt r.m_h)
    |> Traced.step (put "\n")
    |> ind.destructT

mutual
/-- The virtual call `s->toYAML(os)` step by step, with the record of the counter. The
`Drawing` case is the body of `Drawing::toYAML`. -/
def Shape.toYAMLT : Shape → Traced → Traced
  | .circle c, t => Circle.toYAMLT c t
  | .triangle s, t => Triangle.toYAMLT s t
  | .rectangle r, t => Rectangle.toYAMLT r t
  | .drawing m_shape, t =>
    Indenter.destructT ⟨2⟩
      (Drawing.toYAMLT.loop ⟨2⟩ m_shape
        (Traced.step (put "drawing:\n") (Traced.step (Indenter.construct ⟨2⟩) t)))
/-- The loop of `Drawing::toYAML` step by step: `{ os << ind << "- "; s->toYAML(os); }`. -/
def Drawing.toYAMLT.loop (ind : Indenter) : List Shape → Traced → Traced
  | [], t => t
  | s :: rest, t =>
    Drawing.toYAMLT.loop ind rest
      (Shape.toYAMLT s (Traced.step (put "- ") (Traced.step ind.put t)))
end

end Shape3

/-- A primitive as a node of the tree. -/
def Primitive.toShape : Primitive → Shape
  | .circle c => .circle c
  | .triangle t => .triangle t
  | .rectangle r => .rectangle r

/-! ## The product of two `float`s

The type `float` of the platform and its product are not part of the repository. For the
cases in which the value of a product matters they are modelled here as IEEE-754 binary32
with rounding to nearest, ties to even. -/

/-- Modelled from the spec: a finite value of the type `float` (IEEE-754 binary32) by its
sign, significand and exponent. The value is `m * 2 ^ e`, negated when `sign` is set; in
normal form `2 ^ 23 ≤ m < 2 ^ 24`, and zero has `m = 0` and `e = 0`. -/
structure Binary32 where
  sign : Bool
  m : Nat
  e : Int
deriving DecidableEq, Repr

/-- The number of binary digits of `n`, found by at most `fuel` halvings; `fuel = n` is
always enough. -/
def binaryDigits : Nat → Nat → Nat
  | 0, _ => 0
  | fuel + 1, n => if n = 0 then 0 else binaryDigits fuel (n / 2) + 1

/-- Modelled from the spec: the `float` nearest to the exact value `p * 2 ^ e` (negated when
`sign` is set), in normal form: the significand is cut to 24 binary digits and rounded to
nearest, ties to even. The exponent is not bounded, so overflow to infinity and gradual
underflow are left out. -/
def Binary32.round (sign : Bool) (p : Nat) (e : Int) : Binary32 :=
  if p = 0 then ⟨sign, 0, 0⟩
  else
    let n := binaryDigits p p
    if n ≤ 24 then ⟨sign, p * 2 ^ (24 - n), e - ((24 - n : Nat) : Int)⟩
    else
      let k := n - 24
      let q := p / 2 ^ k
      let rem := p % 2 ^ k
      let half := 2 ^ (k - 1)
      let q := if half < rem ∨ (rem = half ∧ q % 2 = 1) then q + 1 else q
      if q = 2 ^ 24 then ⟨sign, 2 ^ 23, e + (k : Int) + 1⟩ else ⟨sign, q, e + (k : Int)⟩

/-- Modelled from the spec: the product `a * b` of two `float`s, which is the exact product
rounded to the nearest `float`. -/
def Binary32.mul (a b : Binary32) : Binary32 :=
  Binary32.round (a.sign != b.sign) (a.m * b.m) (a.e + b.e)

/-- Modelled from the spec: the `float` of a natural number, as in `25.f`. -/
def Binary32.ofNat (n : Nat) : Binary32 := Binary32.round false n 0

/-- Modelled from the spec: the literal `0.1f`, the `float` nearest to one tenth, which is
`13421773 * 2 ^ (-27)` (bit pattern `0x3DCCCCCD`). -/
def Binary32.tenth : Binary32 := ⟨false, 13421773, -27⟩

/-- Modelled from the spec: the colour `sf::Color::White` as its four components packed in
one number. -/
def Sfml.white : Nat := 0xFFFFFFFF

/-- The tree of `main` in `shape7.cc` and `shape8.cc` with respect to sizes: a circle and a
triangle of radius 50 and a drawing of two rectangles of size `(25, 50)`, every size being a
`float`. Positions and colours are those of a new shape. -/
def Sfml.scenarioTree : List (Sfml.Shape Binary32 Nat) :=
  [ .circle (Sfml.Circle.construct (Binary32.ofNat 0) Sfml.white (Binary32.ofNat 50) 30),
    .triangle (Sfml.Triangle.construct (Binary32.ofNat 0) Sfml.white (Binary32.ofNat 50)),
    .drawing
      [ .rectangle (Sfml.Rectangle.construct (Binary32.ofNat 0) Sfml.white
          ⟨Binary32.ofNat 25, Binary32.ofNat 50⟩),
        .rectangle (Sfml.Rectangle.construct (Binary32.ofNat 0) Sfml.white
          ⟨Binary32.ofNat 25, Binary32.ofNat 50⟩) ] ]

/-! ## Dispatch on a drawing -/

/-- The virtual call `s->toJSON(os)` on a `Drawing` runs `Drawing::toJSON`. -/
theorem Shape2.toJSON_dispatch_drawing (m_shape : List Shape) (os : String) :
    Shape2.Shape.toJSON (.drawing m_shape) os = Shape2.Drawing.toJSON m_shape os := by
  rw [Shape2.Shape.toJSON, Shape2.Drawing.toJSON]

/-- The virtual call `s->toYAML(os)` on a `Drawing` runs `Drawing::toYAML`. -/
theorem Shape3.toYAML_dispatch_drawing (m_shape : List Shape) (st : State) :
    Shape3.Shape.toYAML (.drawing m_shape) st = Shape3.Drawing.toYAML m_shape st := by
  rw [Shape3.Shape.toYAML]; rfl

/-- The call `s->accept(json)` on a `Drawing` runs `ToJSON::visit(Drawing &)`. -/
theorem Shape4.toJSON_accept_drawing (d : List Shape) (m_os : String) :
    Shape4.ToJSON.accept (.drawing d) m_os = Shape4.ToJSON.visitDrawing d m_os := by
  rw [Shape4.ToJSON.accept, Shape4.ToJSON.visitDrawing]

/-- The call `s->accept(yaml)` on a `Drawing` runs `ToYAML::visit(Drawing &)`. -/
theorem Shape4.toYAML_accept_drawing (d : List Shape) (st : State) :
    Shape4.ToYAML.accept (.drawing d) st = Shape4.ToYAML.visitDrawing d st := by
  rw [Shape4.ToYAML.accept]; rfl

/-- The call `std::visit(json, s)` on a `Drawing` runs `ToJSON::operator()(Drawing &)`. -/
theorem Shape6.toJSON_visit_drawing (d : List Shape) (m_os : String) :
    Shape6.ToJSON.visit (.drawing d) m_os = Shape6.ToJSON.callDrawing d m_os := by
  rw [Shape6.ToJSON.visit, Shape6.ToJSON.callDrawing]

/-- The call `std::visit(yaml, s)` on a `Drawing` runs `ToYAML::operator()(Drawing &)`. -/
theorem Shape6.toYAML_visit_drawing (d : List Shape) (st : State) :
    Shape6.ToYAML.visit (.drawing d) st = Shape6.ToYAML.callDrawing d st := by
  rw [Shape6.ToYAML.visit]; rfl

/-! ## Joining texts -/

theorem join_nil : String.join [] = "" := rfl

theorem join_append (a b : List String) :
    String.join (a ++ b) = String.join a ++ String.join b := by
  apply String.ext
  simp [String.data_join]

theorem join_cons (a : String) (b : List String) :
    String.join (a :: b) = a ++ String.join b := by
  apply String.ext
  simp [String.data_join]

theorem join_singleton (a : String) : String.join [a] = a := by
  apply String.ext
  simp [String.data_join]

theorem intercalate_go_eq (sep : String) : ∀ (l : List String) (acc : String),
    String.intercalate.go acc sep l = acc ++ String.join (l.map (sep ++ ·))
  | [], acc => by simp [String.intercalate.go, join_nil]
  | a :: l, acc => by
    rw [String.intercalate.go, intercalate_go_eq sep l, List.map_cons, join_cons]
    simp [String.append_assoc]

theorem intercalate_cons (sep a : String) (l : List String) :
    String.intercalate sep (a :: l) = a ++ String.join (l.map (sep ++ ·)) := by
  rw [String.intercalate, intercalate_go_eq]

/-! ## The text of `draw` -/

mutual
theorem Shape1.draw_shape_eq : ∀ (s : Shape) (os : String),
    Shape1.Shape.draw s os = os ++ String.join ((Shape.primitives s).map Primitive.line)
  | .circle c, os => by
    simp [Shape1.Shape.draw, Shape1.Circle.draw, Shape.primitives, Primitive.line, endl,
      join_singleton, String.append_assoc]
  | .triangle t, os => by
    simp [Shape1.Shape.draw, Shape1.Triangle.draw, Shape.primitives, Primitive.line, endl,
      join_singleton, String.append_assoc]
  | .rectangle r, os => by
    simp [Shape1.Shape.draw, Shape1.Rectangle.draw, Shape.primitives, Primitive.line, endl,
      join_singleton, String.append_assoc]
  | .drawing m_shape, os => by
    rw [Shape1.Shape.draw, Shape.primitives]
    exact Shape1.draw_drawing_eq m_shape os
theorem Shape1.draw_drawing_eq : ∀ (m_shape : List Shape) (os : String),
    Shape1.Drawing.draw m_shape os
      = os ++ String.join ((Drawing.primitives m_shape).map Primitive.line)
  | [], os => by simp [Shape1.Drawing.draw, Drawing.primitives, join_nil]
  | s :: rest, os => by
    rw [Shape1.Drawing.draw, Shape1.draw_shape_eq s os, Shape1.draw_drawing_eq rest,
      Drawing.primitives, List.map_append, join_append, String.append_assoc]
end

/-- C1: for every shape tree, `Drawing::draw` appends to the stream exactly the lines of the
primitives of the tree, one line per primitive, in pre-order (insertion order, depth first);
a `Drawing` adds no text of its own, so every primitive is drawn exactly once. On the tree of
the scenario the text is the four lines of the circle, the triangle and the two rectangles. -/
theorem C1_draw_preorder :
    (∀ (m_shape : List Shape) (os : String),
      Shape1.Drawing.draw m_shape os
        = os ++ String.join ((Drawing.primitives m_shape).map Primitive.line))
    ∧ Drawing.primitives scenarioTree
        = [.circle ⟨100, 100, 50⟩, .triangle ⟨100, 200, 40⟩,
           .rectangle ⟨50, 50, 25, 50⟩, .rectangle ⟨75, 75, 25, 50⟩]
    ∧ Shape1.Drawing.draw scenarioTree ""
        = "Circle(100,100,50)\nTriangle(100,200,40)\nRectangle(50,50,25,50)\nRectangle(75,75,25,50)\n" :=
  ⟨Shape1.draw_drawing_eq, by decide, by decide⟩

/-! ## The text of `toJSON` -/

namespace Shape2

mutual
theorem toJSON_shape_append : ∀ (s : Shape) (os : String),
    Shape.toJSON s os = os ++ Shape.toJSON s ""
  | .circle c, os => by simp [Shape.toJSON, Circle.toJSON, String.append_assoc]
  | .triangle t, os => by simp [Shape.toJSON, Triangle.toJSON, String.append_assoc]
  | .rectangle r, os => by simp [Shape.toJSON, Rectangle.toJSON, String.append_assoc]
  | .drawing m_shape, os => by
    rw [Shape.toJSON, Shape.toJSON, toJSON_loop_append m_shape "" (os ++ "\"drawing\": [\n"),
      toJSON_loop_append m_shape "" ("" ++ "\"drawing\": [\n")]
    simp [String.append_assoc]
theorem toJSON_loop_append : ∀ (m_shape : List Shape) (p os : String),
    Drawing.toJSON.loop m_shape p os = os ++ Drawing.toJSON.loop m_shape p ""
  | [], p, os => by simp [Drawing.toJSON.loop]
  | s :: rest, p, os => by
    rw [Drawing.toJSON.loop, Drawing.toJSON.loop, toJSON_loop_append rest ",\n" (Shape.toJSON s (os ++ p)),
      toJSON_loop_append rest ",\n" (Shape.toJSON s ("" ++ p)),
      toJSON_shape_append s (os ++ p), toJSON_shape_append s ("" ++ p)]
    simp [String.append_assoc]
end

theorem toJSON_loop_sep : ∀ (m_shape : List Shape) (os : String),
    Drawing.toJSON.loop m_shape ",\n" os
      = os ++ String.join (m_shape.map (fun c => ",\n" ++ Shape.toJSON c ""))
  | [], os => by simp [Drawing.toJSON.loop, join_nil]
  | s :: rest, os => by
    rw [Drawing.toJSON.loop, toJSON_loop_sep rest, toJSON_shape_append, List.map_cons, join_cons]
    simp [String.append_assoc]

theorem toJSON_loop_intercalate : ∀ (m_shape : List Shape) (os : String),
    Drawing.toJSON.loop m_shape "" os
      = os ++ String.intercalate ",\n" (m_shape.map (fun c => Shape.toJSON c ""))
  | [], os => by simp [Drawing.toJSON.loop, String.intercalate]
  | s :: rest, os => by
    rw [Drawing.toJSON.loop, toJSON_loop_sep, toJSON_shape_append, List.map_cons, intercalate_cons,
      List.map_map]
    simp [String.append_assoc, Function.comp_def]

theorem toJSON_drawing_eq (m_shape : List Shape) (os : String) :
    Drawing.toJSON m_shape os
      = os ++ "\"drawing\": [\n"
          ++ String.intercalate ",\n" (m_shape.map (fun c => Shape.toJSON c "")) ++ "]\n" := by
  rw [Drawing.toJSON, toJSON_loop_intercalate]

end Shape2

theorem digitChar_isDigit : ∀ d : Fin 10, (Nat.digitChar d.val).isDigit = true := by decide

theorem digitChar_value : ∀ d : Fin 10, (Nat.digitChar d.val).toNat - '0'.toNat = d.val := by
  decide

theorem toDigitsCore_acc : ∀ (fuel n : Nat) (ds : List Char),
    Nat.toDigitsCore 10 fuel n ds = Nat.toDigitsCore 10 fuel n [] ++ ds
  | 0, n, ds => by simp [Nat.toDigitsCore]
  | fuel + 1, n, ds => by
    simp only [Nat.toDigitsCore]
    split
    · simp
    · rw [toDigitsCore_acc fuel (n / 10) (Nat.digitChar (n % 10) :: ds),
        toDigitsCore_acc fuel (n / 10) [Nat.digitChar (n % 10)]]
      simp

theorem toDigitsCore_isDigit : ∀ (fuel n : Nat), ∀ c ∈ Nat.toDigitsCore 10 fuel n [],
    c.isDigit = true
  | 0, n, c, h => by simp [Nat.toDigitsCore] at h
  | fuel + 1, n, c, h => by
    have hd : (Nat.digitChar (n % 10)).isDigit = true :=
      digitChar_isDigit ⟨n % 10, Nat.mod_lt n (by decide)⟩
    simp only [Nat.toDigitsCore] at h
    split at h
    · simp only [List.mem_singleton] at h
      rw [h]; exact hd
    · rw [toDigitsCore_acc] at h
      rcases List.mem_append.mp h with h | h
      · exact toDigitsCore_isDigit fuel (n / 10) c h
      · simp only [List.mem_singleton] at h
        rw [h]; exact hd

theorem decimalValue_snoc (ds : List Char) (d : Char) :
    decimalValue (ds ++ [d]) = 10 * decimalValue ds + (d.toNat - '0'.toNat) := by
  simp [decimalValue, List.foldl_append]

theorem toDigitsCore_value : ∀ (fuel n : Nat), n < fuel →
    decimalValue (Nat.toDigitsCore 10 fuel n []) = n
  | 0, n, h => by omega
  | fuel + 1, n, h => by
    have hv : (Nat.digitChar (n % 10)).toNat - '0'.toNat = n % 10 :=
      digitChar_value ⟨n % 10, Nat.mod_lt n (by decide)⟩
    simp only [Nat.toDigitsCore]
    split
    · rename_i h0
      have := decimalValue_snoc [] (Nat.digitChar (n % 10))
      simp only [List.nil_append] at this
      rw [this, hv]
      simp [decimalValue]
      omega
    · rename_i h0
      rw [toDigitsCore_acc, decimalValue_snoc, hv,
        toDigitsCore_value fuel (n / 10) (by omega)]
      omega

theorem toDigitsCore_ne_nil : ∀ (fuel n : Nat), Nat.toDigitsCore 10 (fuel + 1) n [] ≠ [] := by
  intro fuel n
  simp only [Nat.toDigitsCore]
  split
  · simp
  · rw [toDigitsCore_acc]; simp

theorem showInt_ofNat (n : Nat) : (showInt (Int.ofNat n)).data = Nat.toDigits 10 n := rfl

theorem showInt_negSucc (n : Nat) :
    (showInt (Int.negSucc n)).data = '-' :: Nat.toDigits 10 (n + 1) := rfl

/-- The text of `showInt` is an optional minus sign and then decimal digits of the value. -/
theorem showInt_decimal (v : Int) :
    ∃ ds : List Char, (showInt v).data = (if v < 0 then ['-'] else []) ++ ds ∧ ds ≠ []
      ∧ (∀ c ∈ ds, c.isDigit = true) ∧ decimalValue ds = v.natAbs := by
  cases v with
  | ofNat n =>
    refine ⟨Nat.toDigits 10 n, ?_, toDigitsCore_ne_nil n n, toDigitsCore_isDigit (n + 1) n,
      toDigitsCore_value (n + 1) n (by omega)⟩
    rw [showInt_ofNat]
    have : ¬ (Int.ofNat n < 0) := by simp
    simp [this]
  | negSucc n =>
    refine ⟨Nat.toDigits 10 (n + 1), ?_, toDigitsCore_ne_nil (n + 1) (n + 1),
      toDigitsCore_isDigit (n + 2) (n + 1), ?_⟩
    · rw [showInt_negSucc]
      have : Int.negSucc n < 0 := Int.negSucc_lt_zero n
      simp [this]
    · have := toDigitsCore_value (n + 2) (n + 1) (by omega)
      simpa [Nat.toDigits] using this

theorem commaScan_append (s : Option Bool) (a b : String) :
    commaScan s (a ++ b) = commaScan (commaScan s a) b := by
  simp [commaScan, List.foldl_append]

theorem commaStep_foldl_none : ∀ (text : List Char), text.foldl commaStep none = none
  | [] => rfl
  | c :: text => by
    have := commaStep_foldl_none text
    simpa [commaStep] using this

theorem commaStep_foldl_pending : ∀ (b : List Char), b.foldl commaStep (some true) ≠ none →
    (b.dropWhile Char.isWhitespace).head? ≠ some ']'
  | [], _ => by simp
  | c :: b, h => by
    rw [List.foldl_cons] at h
    by_cases h1 : c = ']'
    · subst h1
      exact absurd (commaStep_foldl_none b) (by simpa [commaStep] using h)
    · by_cases h2 : c.isWhitespace = true
      · have h3 : c ≠ ',' := by
          intro h3; subst h3; revert h2; decide
        have : commaStep (some true) c = some true := by simp [commaStep, h1, h2, h3]
        rw [this] at h
        rw [List.dropWhile_cons_of_pos h2]
        exact commaStep_foldl_pending b h
      · rw [List.dropWhile_cons_of_neg h2]
        simpa using h1

/-- A text the scan accepts has no comma followed, after white space, by `]`. -/
theorem commaScan_sound (p : Bool) (text : String) (h : commaScan (some p) text ≠ none)
    (a b : List Char) (hab : text.data = a ++ ',' :: b) :
    (b.dropWhile Char.isWhitespace).head? ≠ some ']' := by
  rw [commaScan, hab, List.foldl_append, List.foldl_cons] at h
  cases hs : a.foldl commaStep (some p) with
  | none =>
    rw [hs] at h
    exact absurd (commaStep_foldl_none b) (by simpa [commaStep] using h)
  | some q =>
    rw [hs] at h
    have hstep : commaStep (some q) ',' = some true := by
      cases q <;> rfl
    rw [hstep] at h
    exact commaStep_foldl_pending b h

/-- A text the scan accepts does not contain a comma, a newline and `]` in a row. -/
theorem commaScan_no_substring (p : Bool) (text : String) (h : commaScan (some p) text ≠ none) :
    ¬ (",\n]".data <:+: text.data) := by
  rintro ⟨a, c, hac⟩
  have := commaScan_sound p text h a ('\n' :: ']' :: c) (by rw [← hac]; simp)
  exact this rfl

theorem commaStep_foldl_digits : ∀ (ds : List Char), (∀ c ∈ ds, c.isDigit = true) →
    ds.foldl commaStep (some false) = some false
  | [], _ => rfl
  | c :: ds, h => by
    have hc : c.isDigit = true := h c (List.mem_cons_self _ _)
    have h1 : c ≠ ']' := by intro e; subst e; revert hc; decide
    have h2 : c ≠ ',' := by intro e; subst e; revert hc; decide
    have hstep : commaStep (some false) c = some false := by
      simp only [commaStep, h1, h2, if_false]
      split <;> rfl
    rw [List.foldl_cons, hstep]
    exact commaStep_foldl_digits ds (fun d hd => h d (List.mem_cons_of_mem _ hd))

theorem commaScan_showInt (v : Int) : commaScan (some false) (showInt v) = some false := by
  obtain ⟨ds, hdata, -, hdig, -⟩ := showInt_decimal v
  rw [commaScan, hdata]
  by_cases hv : v < 0
  · simp only [hv, if_true, List.singleton_append, List.foldl_cons]
    exact commaStep_foldl_digits ds hdig
  · simp only [hv, if_false, List.nil_append]
    exact commaStep_foldl_digits ds hdig

theorem commaScan_kind_circle (p : Bool) :
    commaScan (some p) "\"circle\": \x7b\n" = some false := by cases p <;> rfl

theorem commaScan_kind_triangle (p : Bool) :
    commaScan (some p) "\"triangle\": \x7b\n" = some false := by cases p <;> rfl

theorem commaScan_kind_rectangle (p : Bool) :
    commaScan (some p) "\"rectangle\": \x7b\n" = some false := by cases p <;> rfl

theorem commaScan_kind_drawing (p : Bool) :
    commaScan (some p) "\"drawing\": [\n" = some false := by cases p <;> rfl

theorem commaScan_field_x (p : Bool) :
    commaScan (some p) "  \"x\": " = some false := by cases p <;> rfl

theorem commaScan_field_y (p : Bool) :
    commaScan (some p) "  \"y\": " = some false := by cases p <;> rfl

theorem commaScan_field_radius (p : Bool) :
    commaScan (some p) "  \"radius\": " = some false := by cases p <;> rfl

theorem commaScan_field_len (p : Bool) :
    commaScan (some p) "  \"len\": " = some false := by cases p <;> rfl

theorem commaScan_field_w (p : Bool) :
    commaScan (some p) "  \"w\": " = some false := by cases p <;> rfl

theorem commaScan_field_h (p : Bool) :
    commaScan (some p) "  \"h\": " = some false := by cases p <;> rfl

theorem commaScan_separator : commaScan (some false) ",\n" = some true := rfl

theorem commaScan_close_brace : commaScan (some false) "\n\x7d" = some false := rfl

theorem commaScan_close_bracket : commaScan (some false) "]\n" = some false := rfl

theorem commaScan_empty (s : Option Bool) : commaScan s "" = s := rfl

namespace Shape2

mutual
theorem commaScan_shape : ∀ (s : Shape) (p : Bool),
    commaScan (some p) (Shape.toJSON s "") = some false
  | .circle c, p => by
    simp only [Shape.toJSON, Circle.toJSON, commaScan_append,
      commaScan_empty, commaScan_kind_circle, commaScan_field_x, commaScan_field_y,
      commaScan_field_radius, commaScan_showInt, commaScan_separator, commaScan_close_brace]
  | .triangle t, p => by
    simp only [Shape.toJSON, Triangle.toJSON, commaScan_append,
      commaScan_empty, commaScan_kind_triangle, commaScan_field_x, commaScan_field_y,
      commaScan_field_len, commaScan_showInt, commaScan_separator, commaScan_close_brace]
  | .rectangle r, p => by
    simp only [Shape.toJSON, Rectangle.toJSON, commaScan_append,
      commaScan_empty, commaScan_kind_rectangle, commaScan_field_x, commaScan_field_y,
      commaScan_field_w, commaScan_field_h, commaScan_showInt, commaScan_separator,
      commaScan_close_brace]
  | .drawing m_shape, p => by
    cases m_shape with
    | nil =>
      simp only [Shape.toJSON, Drawing.toJSON.loop, commaScan_append,
        commaScan_empty, commaScan_kind_drawing, commaScan_close_bracket]
    | cons s rest =>
      rw [Shape.toJSON, Drawing.toJSON.loop, toJSON_loop_sep, toJSON_shape_append]
      simp only [commaScan_append, commaScan_empty,
        commaScan_kind_drawing, commaScan_shape s false, commaScan_rest rest,
        commaScan_close_bracket]
theorem commaScan_rest : ∀ (m_shape : List Shape),
    commaScan (some false)
      (String.join (m_shape.map (fun c => ",\n" ++ Shape.toJSON c ""))) = some false
  | [] => rfl
  | s :: rest => by
    rw [List.map_cons, join_cons]
    simp only [commaScan_append, commaScan_separator,
      commaScan_shape s true, commaScan_rest rest]
end

end Shape2

namespace Shape4

mutual
theorem toJSON_accept_eq : ∀ (s : Shape) (m_os : String),
    ToJSON.accept s m_os = Shape2.Shape.toJSON s m_os
  | .circle c, m_os => rfl
  | .triangle t, m_os => rfl
  | .rectangle r, m_os => rfl
  | .drawing d, m_os => by
    rw [ToJSON.accept, Shape2.Shape.toJSON, toJSON_visitLoop_eq d]
theorem toJSON_visitLoop_eq : ∀ (d : List Shape) (p m_os : String),
    ToJSON.visitDrawing.loop d p m_os = Shape2.Drawing.toJSON.loop d p m_os
  | [], p, m_os => rfl
  | s :: rest, p, m_os => by
    rw [ToJSON.visitDrawing.loop, Shape2.Drawing.toJSON.loop, toJSON_accept_eq s,
      toJSON_visitLoop_eq rest]
end

end Shape4

namespace Shape6

mutual
theorem toJSON_visit_eq : ∀ (s : Shape) (m_os : String),
    ToJSON.visit s m_os = Shape2.Shape.toJSON s m_os
  | .circle c, m_os => rfl
  | .triangle t, m_os => rfl
  | .rectangle r, m_os => rfl
  | .drawing d, m_os => by
    rw [ToJSON.visit, Shape2.Shape.toJSON, toJSON_callLoop_eq d]
theorem toJSON_callLoop_eq : ∀ (d : List Shape) (p m_os : String),
    ToJSON.callDrawing.loop d p m_os = Shape2.Drawing.toJSON.loop d p m_os
  | [], p, m_os => rfl
  | s :: rest, p, m_os => by
    rw [ToJSON.callDrawing.loop, Shape2.Drawing.toJSON.loop, toJSON_visit_eq s,
      toJSON_callLoop_eq rest]
end

theorem toJSON_callDrawing_eq (d : List Shape) (m_os : String) :
    ToJSON.callDrawing d m_os = Shape2.Drawing.toJSON d m_os := by
  rw [ToJSON.callDrawing, Shape2.Drawing.toJSON, toJSON_callLoop_eq]

end Shape6

/-- C2: for every `Drawing`, `toJSON` appends the header `"drawing": [`, a newline, the
children's own fragments in insertion order joined by a comma and a newline (nothing before
the first child, nothing after the last), then `]` and a newline. This holds for
`Drawing::toJSON` of `shape2.cc` and for `ToJSON::operator()(Drawing &)` of `shape6.cc`; for
the children `[A, B]` the text is the header, the fragment of `A`, the separator, the
fragment of `B` and the closing bracket. -/
theorem C2_toJSON_drawing_joined (m_shape : List Shape) (os : String) :
    Shape2.Drawing.toJSON m_shape os
        = os ++ "\"drawing\": [\n"
            ++ String.intercalate ",\n" (m_shape.map (fun c => Shape2.Shape.toJSON c ""))
            ++ "]\n"
    ∧ Shape6.ToJSON.callDrawing m_shape os
        = os ++ "\"drawing\": [\n"
            ++ String.intercalate ",\n" (m_shape.map (fun c => Shape6.ToJSON.visit c ""))
            ++ "]\n"
    ∧ (∀ A B : Shape,
        Shape2.Drawing.toJSON [A, B] os
          = os ++ "\"drawing\": [\n" ++ Shape2.Shape.toJSON A "" ++ ",\n"
              ++ Shape2.Shape.toJSON B "" ++ "]\n"
        ∧ Shape6.ToJSON.callDrawing [A, B] os
          = os ++ "\"drawing\": [\n" ++ Shape6.ToJSON.visit A "" ++ ",\n"
              ++ Shape6.ToJSON.visit B "" ++ "]\n") := by
  have h6 : (fun c => Shape6.ToJSON.visit c "") = (fun c => Shape2.Shape.toJSON c "") :=
    funext (fun c => Shape6.toJSON_visit_eq c "")
  refine ⟨Shape2.toJSON_drawing_eq m_shape os, ?_, ?_⟩
  · rw [Shape6.toJSON_callDrawing_eq, h6]
    exact Shape2.toJSON_drawing_eq m_shape os
  · intro A B
    have h2 : Shape2.Drawing.toJSON [A, B] os
        = os ++ "\"drawing\": [\n" ++ Shape2.Shape.toJSON A "" ++ ",\n"
            ++ Shape2.Shape.toJSON B "" ++ "]\n" := by
      rw [Shape2.toJSON_drawing_eq]
      simp [String.intercalate, String.intercalate.go, String.append_assoc]
    refine ⟨h2, ?_⟩
    rw [Shape6.toJSON_callDrawing_eq, Shape6.toJSON_visit_eq, Shape6.toJSON_visit_eq]
    exact h2

set_option maxRecDepth 100000 in
/-- C3 as stated fails: on the tree of the scenario the text of `toJSON` is not the one that
has a newline between the closing brace of the last rectangle and the inner `]`. -/
theorem C3_scenario_json_newline_fails :
    Shape2.Drawing.toJSON scenarioTree ""
      ≠ "\"drawing\": [\n" ++ Shape2.Shape.toJSON (.circle ⟨100, 100, 50⟩) "" ++ ",\n"
          ++ Shape2.Shape.toJSON (.triangle ⟨100, 200, 40⟩) "" ++ ",\n"
          ++ "\"drawing\": [\n" ++ Shape2.Shape.toJSON (.rectangle ⟨50, 50, 25, 50⟩) "" ++ ",\n"
          ++ Shape2.Shape.toJSON (.rectangle ⟨75, 75, 25, 50⟩) "" ++ "\n]\n]\n" := by
  decide

set_option maxRecDepth 100000 in
/-- C3, amended: on the tree of the scenario the text of `toJSON` is the header, the circle
fragment, the separator, the triangle fragment, the separator, the header of the nested
drawing, the first rectangle fragment, the separator, the second rectangle fragment, and then
`]`, newline, `]`, newline: the inner `]` follows the closing brace of the last rectangle on
the same line, and the outer `]` is on a line of its own. -/
theorem C3_scenario_json :
    Shape2.Drawing.toJSON scenarioTree ""
      = "\"drawing\": [\n" ++ Shape2.Shape.toJSON (.circle ⟨100, 100, 50⟩) "" ++ ",\n"
          ++ Shape2.Shape.toJSON (.triangle ⟨100, 200, 40⟩) "" ++ ",\n"
          ++ "\"drawing\": [\n" ++ Shape2.Shape.toJSON (.rectangle ⟨50, 50, 25, 50⟩) "" ++ ",\n"
          ++ Shape2.Shape.toJSON (.rectangle ⟨75, 75, 25, 50⟩) "" ++ "]\n]\n"
    ∧ Shape2.Drawing.toJSON scenarioTree ""
      = "\"drawing\": [\n\"circle\": \x7b\n  \"x\": 100,\n  \"y\": 100,\n  \"radius\": 50\n\x7d,\n\"triangle\": \x7b\n  \"x\": 100,\n  \"y\": 200,\n  \"len\": 40\n\x7d,\n\"drawing\": [\n\"rectangle\": \x7b\n  \"x\": 50,\n  \"y\": 50,\n  \"w\": 25,\n  \"h\": 50\n\x7d,\n\"rectangle\": \x7b\n  \"x\": 75,\n  \"y\": 75,\n  \"w\": 25,\n  \"h\": 50\n\x7d]\n]\n" := by
  decide

/-- C4: for every primitive, `toJSON` appends the quoted kind, a colon and an opening brace,
then one line per field (two spaces, the quoted field name, a colon, a space, the value),
consecutive field lines separated by a comma and a newline, then a newline and the closing
brace. The fields are `x, y, radius` for a circle, `x, y, len` for a triangle and
`x, y, w, h` for a rectangle, and every value is printed in decimal: an optional minus sign
and then the digits of its absolute value. -/
theorem C4_toJSON_primitive_fields (os : String) :
    (∀ c : Circle, Shape2.Circle.toJSON c os
        = os ++ "\"circle\": \x7b\n"
            ++ String.intercalate ",\n"
                [jsonField "x" c.m_x, jsonField "y" c.m_y, jsonField "radius" c.m_radius]
            ++ "\n\x7d")
    ∧ (∀ t : Triangle, Shape2.Triangle.toJSON t os
        = os ++ "\"triangle\": \x7b\n"
            ++ String.intercalate ",\n"
                [jsonField "x" t.m_x, jsonField "y" t.m_y, jsonField "len" t.m_len]
            ++ "\n\x7d")
    ∧ (∀ r : Rectangle, Shape2.Rectangle.toJSON r os
        = os ++ "\"rectangle\": \x7b\n"
            ++ String.intercalate ",\n"
                [jsonField "x" r.m_x, jsonField "y" r.m_y, jsonField "w" r.m_w,
                 jsonField "h" r.m_h]
            ++ "\n\x7d")
    ∧ (∀ v : Int, ∃ ds : List Char,
        (showInt v).data = (if v < 0 then ['-'] else []) ++ ds ∧ ds ≠ []
          ∧ (∀ d ∈ ds, d.isDigit = true) ∧ decimalValue ds = v.natAbs) := by
  have hx : ∀ v : Int, jsonField "x" v = "  \"x\": " ++ showInt v := fun _ => rfl
  have hy : ∀ v : Int, jsonField "y" v = "  \"y\": " ++ showInt v := fun _ => rfl
  have hr : ∀ v : Int, jsonField "radius" v = "  \"radius\": " ++ showInt v := fun _ => rfl
  have hl : ∀ v : Int, jsonField "len" v = "  \"len\": " ++ showInt v := fun _ => rfl
  have hw : ∀ v : Int, jsonField "w" v = "  \"w\": " ++ showInt v := fun _ => rfl
  have hh : ∀ v : Int, jsonField "h" v = "  \"h\": " ++ showInt v := fun _ => rfl
  refine ⟨fun c => ?_, fun t => ?_, fun r => ?_, showInt_decimal⟩
  · simp only [Shape2.Circle.toJSON, String.intercalate, String.intercalate.go, hx, hy, hr,
      String.append_assoc]
  · simp only [Shape2.Triangle.toJSON, String.intercalate, String.intercalate.go, hx, hy, hl,
      String.append_assoc]
  · simp only [Shape2.Rectangle.toJSON, String.intercalate, String.intercalate.go, hx, hy, hw,
      hh, String.append_assoc]

/-- C5: for every shape tree, whatever the nesting and with empty drawings included, the text
of `ToJSON` has no trailing comma: no comma of the text is followed, after white space and
newlines, by `]`, and the text never contains a comma, a newline and `]` in a row. This
holds for the visitor class of `shape4.cc` and for the functor of `shape6.cc`. -/
theorem C5_toJSON_no_trailing_comma (s : Shape) :
    (∀ a b : List Char, (Shape4.ToJSON.accept s "").data = a ++ ',' :: b →
        (b.dropWhile Char.isWhitespace).head? ≠ some ']')
    ∧ ¬ (",\n]".data <:+: (Shape4.ToJSON.accept s "").data)
    ∧ (∀ a b : List Char, (Shape6.ToJSON.visit s "").data = a ++ ',' :: b →
        (b.dropWhile Char.isWhitespace).head? ≠ some ']')
    ∧ ¬ (",\n]".data <:+: (Shape6.ToJSON.visit s "").data) := by
  have h : commaScan (some false) (Shape2.Shape.toJSON s "") ≠ none := by
    rw [Shape2.commaScan_shape s false]; simp
  rw [Shape4.toJSON_accept_eq, Shape6.toJSON_visit_eq]
  exact ⟨commaScan_sound false _ h, commaScan_no_substring false _ h,
    commaScan_sound false _ h, commaScan_no_substring false _ h⟩

set_option maxRecDepth 100000 in
/-- C5 at the circle `Circle(1,2,3)`: what follows the first comma of its fragment does not
start, after white space, with `]`. -/
theorem C5_witness :
    (List.dropWhile Char.isWhitespace "\n  \"y\": 2,\n  \"radius\": 3\n\x7d".data).head?
      ≠ some ']' :=
  (C5_toJSON_no_trailing_comma (.circle ⟨1, 2, 3⟩)).1
    "\"circle\": \x7b\n  \"x\": 1".data "\n  \"y\": 2,\n  \"radius\": 3\n\x7d".data (by decide)

/-! ## The text of `toYAML` and the indent counter -/

theorem Indenter.destruct_construct (os : String) (L : Int) (h : 0 ≤ L) :
    Indenter.destruct ⟨2⟩ ⟨os, L + 2⟩ = ⟨os, L⟩ := by
  simp only [Indenter.destruct, add_sub_cancel_right, not_lt.mpr h, if_false]

namespace Shape3

theorem toYAML_drawing_unfold (m_shape : List Shape) (os : String) (L : Int) :
    Shape.toYAML (.drawing m_shape) ⟨os, L⟩
      = Indenter.destruct ⟨2⟩ (Drawing.toYAML.loop ⟨2⟩ m_shape ⟨os ++ "drawing:\n", L + 2⟩) := by
  rw [Shape.toYAML]; rfl

theorem toYAML_loop_unfold (s : Shape) (rest : List Shape) (os : String) (L : Int) :
    Drawing.toYAML.loop ⟨2⟩ (s :: rest) ⟨os, L⟩
      = Drawing.toYAML.loop ⟨2⟩ rest
          (Shape.toYAML s ⟨os ++ Indenter.spaces L ++ "- ", L⟩) := by
  rw [Drawing.toYAML.loop]; rfl

mutual
theorem toYAML_shape_append : ∀ (s : Shape) (os : String) (L : Int), 0 ≤ L →
    Shape.toYAML s ⟨os, L⟩ = ⟨os ++ (Shape.toYAML s ⟨"", L⟩).os, L⟩
  | .circle c, os, L, h => by
    simp [Shape.toYAML, Circle.toYAML, put, putInt, Indenter.construct, Indenter.destruct,
      Indenter.put, not_lt.mpr h, String.append_assoc]
  | .triangle t, os, L, h => by
    simp [Shape.toYAML, Triangle.toYAML, put, putInt, Indenter.construct, Indenter.destruct,
      Indenter.put, not_lt.mpr h, String.append_assoc]
  | .rectangle r, os, L, h => by
    simp [Shape.toYAML, Rectangle.toYAML, put, putInt, Indenter.construct, Indenter.destruct,
      Indenter.put, not_lt.mpr h, String.append_assoc]
  | .drawing m_shape, os, L, h => by
    rw [toYAML_drawing_unfold, toYAML_drawing_unfold,
      toYAML_loop_eq m_shape (os ++ "drawing:\n") (L + 2) (by omega),
      toYAML_loop_eq m_shape ("" ++ "drawing:\n") (L + 2) (by omega),
      Indenter.destruct_construct _ L h, Indenter.destruct_construct _ L h]
    simp [String.append_assoc]
theorem toYAML_loop_eq : ∀ (m_shape : List Shape) (os : String) (L : Int), 0 ≤ L →
    Drawing.toYAML.loop ⟨2⟩ m_shape ⟨os, L⟩
      = ⟨os ++ String.join (m_shape.map (fun c =>
            Indenter.spaces L ++ "- " ++ (Shape.toYAML c ⟨"", L⟩).os)), L⟩
  | [], os, L, _ => by simp [Drawing.toYAML.loop, join_nil]
  | s :: rest, os, L, h => by
    rw [toYAML_loop_unfold, toYAML_shape_append s _ L h, toYAML_loop_eq rest _ L h,
      List.map_cons, join_cons]
    simp [String.append_assoc]
end

theorem toYAML_drawing_eq (m_shape : List Shape) (os : String) (L : Int) (h : 0 ≤ L) :
    Drawing.toYAML m_shape ⟨os, L⟩
      = ⟨os ++ "drawing:\n" ++ String.join (m_shape.map (fun c =>
            Indenter.spaces (L + 2) ++ "- " ++ (Shape.toYAML c ⟨"", L + 2⟩).os)), L⟩ := by
  have : Drawing.toYAML m_shape ⟨os, L⟩
      = Indenter.destruct ⟨2⟩
          (Drawing.toYAML.loop ⟨2⟩ m_shape ⟨os ++ "drawing:\n", L + 2⟩) := rfl
  rw [this, toYAML_loop_eq m_shape _ (L + 2) (by omega), Indenter.destruct_construct _ L h]

theorem toYAML_shape_level (s : Shape) (st : State) (h : 0 ≤ st.m_ilevel) :
    (Shape.toYAML s st).m_ilevel = st.m_ilevel := by
  obtain ⟨os, L⟩ := st
  rw [toYAML_shape_append s os L h]

theorem toYAML_loop_level (m_shape : List Shape) (st : State) (h : 0 ≤ st.m_ilevel) :
    (Drawing.toYAML.loop ⟨2⟩ m_shape st).m_ilevel = st.m_ilevel := by
  obtain ⟨os, L⟩ := st
  rw [toYAML_loop_eq m_shape os L h]

end Shape3

namespace Shape4

mutual
theorem toYAML_accept_eq : ∀ (s : Shape) (st : State),
    ToYAML.accept s st = Shape3.Shape.toYAML s st
  | .circle c, st => rfl
  | .triangle t, st => rfl
  | .rectangle r, st => rfl
  | .drawing d, st => by
    rw [ToYAML.accept, Shape3.Shape.toYAML, toYAML_visitLoop_eq ⟨2⟩ d]
theorem toYAML_visitLoop_eq : ∀ (ind : Indenter) (d : List Shape) (st : State),
    ToYAML.visitDrawing.loop ind d st = Shape3.Drawing.toYAML.loop ind d st
  | ind, [], st => rfl
  | ind, s :: rest, st => by
    rw [ToYAML.visitDrawing.loop, Shape3.Drawing.toYAML.loop, toYAML_accept_eq s,
      toYAML_visitLoop_eq ind rest]
end

theorem toYAML_visitDrawing_eq (d : List Shape) (st : State) :
    ToYAML.visitDrawing d st = Shape3.Drawing.toYAML d st := by
  simp only [ToYAML.visitDrawing, Shape3.Drawing.toYAML, toYAML_visitLoop_eq]

end Shape4

namespace Shape6

mutual
theorem toYAML_visit_eq : ∀ (s : Shape) (st : State),
    ToYAML.visit s st = Shape3.Shape.toYAML s st
  | .circle c, st => rfl
  | .triangle t, st => rfl
  | .rectangle r, st => rfl
  | .drawing d, st => by
    rw [ToYAML.visit, Shape3.Shape.toYAML, toYAML_callLoop_eq ⟨2⟩ d]
theorem toYAML_callLoop_eq : ∀ (ind : Indenter) (d : List Shape) (st : State),
    ToYAML.callDrawing.loop ind d st = Shape3.Drawing.toYAML.loop ind d st
  | ind, [], st => rfl
  | ind, s :: rest, st => by
    rw [ToYAML.callDrawing.loop, Shape3.Drawing.toYAML.loop, toYAML_visit_eq s,
      toYAML_callLoop_eq ind rest]
end

theorem toYAML_callDrawing_eq (d : List Shape) (st : State) :
    ToYAML.callDrawing d st = Shape3.Drawing.toYAML d st := by
  simp only [ToYAML.callDrawing, Shape3.Drawing.toYAML, toYAML_callLoop_eq]

end Shape6

namespace Shape3

theorem toYAML_loop_append (ind : Indenter) : ∀ (a b : List Shape) (st : State),
    Drawing.toYAML.loop ind (a ++ b) st
      = Drawing.toYAML.loop ind b (Drawing.toYAML.loop ind a st)
  | [], b, st => by simp [Drawing.toYAML.loop]
  | s :: a, b, st => by
    rw [List.cons_append, Drawing.toYAML.loop, Drawing.toYAML.loop, toYAML_loop_append ind a b]

/-- The state `enterAt` gives for child `i` lies on the run of the whole loop. -/
theorem toYAML_loop_split (ind : Indenter) (m_shape : List Shape) (i : Nat) (c : Shape)
    (hc : m_shape[i]? = some c) (st : State) :
    Drawing.toYAML.loop ind m_shape st
      = Drawing.toYAML.loop ind (m_shape.drop (i + 1))
          (Shape.toYAML c (put "- " (ind.put (Drawing.toYAML.loop ind (m_shape.take i) st)))) := by
  have hi : i < m_shape.length := (List.getElem?_eq_some_iff.mp hc).1
  have hci : m_shape[i] = c := (List.getElem?_eq_some_iff.mp hc).2
  have hsplit : m_shape = m_shape.take i ++ c :: m_shape.drop (i + 1) := by
    rw [← hci, ← List.drop_eq_getElem_cons hi, List.take_append_drop]
  conv_lhs => rw [hsplit]
  rw [toYAML_loop_append, Drawing.toYAML.loop]

theorem enterAt_level : ∀ (p : List Nat) (root : Shape) (st : State) (n : Shape) (st' : State),
    0 ≤ st.m_ilevel → enterAt Drawing.toYAML.loop p root st = some (n, st') →
    st'.m_ilevel = st.m_ilevel + 2 * (p.length : Int)
  | [], root, st, n, st', _, h => by
    simp only [enterAt, Option.some.injEq, Prod.mk.injEq] at h
    simp [h.2]
  | i :: p, .circle _, st, n, st', _, h => by simp [enterAt] at h
  | i :: p, .triangle _, st, n, st', _, h => by simp [enterAt] at h
  | i :: p, .rectangle _, st, n, st', _, h => by simp [enterAt] at h
  | i :: p, .drawing m_shape, st, n, st', h0, h => by
    rw [enterAt] at h
    cases hc : m_shape[i]? with
    | none => rw [hc] at h; simp at h
    | some c =>
      rw [hc] at h
      simp only [] at h
      have hl : (put "- " (Indenter.put ⟨2⟩ (Drawing.toYAML.loop ⟨2⟩ (m_shape.take i)
          (put "drawing:\n" (Indenter.construct ⟨2⟩ st))))).m_ilevel = st.m_ilevel + 2 := by
        simp only [put, Indenter.put]
        rw [toYAML_loop_level _ _ (by simp only [Indenter.construct]; omega)]
        rfl
      have := enterAt_level p c _ n st' (by rw [hl]; omega) h
      rw [this, hl, List.length_cons]
      push_cast
      ring

end Shape3

namespace Shape3

theorem toYAML_kind_header (c : Shape) (L : Int) (h : 0 ≤ L) :
    ∃ rest : String, (Shape.toYAML c ⟨"", L⟩).os = c.kindName ++ ":" ++ rest := by
  have e1 : "circle:\n" = "circle" ++ (":" ++ "\n") := rfl
  have e2 : "triangle:\n" = "triangle" ++ (":" ++ "\n") := rfl
  have e3 : "rectangle: \n" = "rectangle" ++ (":" ++ " \n") := rfl
  have e4 : "drawing:\n" = "drawing" ++ (":" ++ "\n") := rfl
  cases c with
  | circle c =>
    refine ⟨"\n" ++ Indenter.spaces (L + 2) ++ "- x: " ++ showInt c.m_x ++ "\n"
      ++ Indenter.spaces (L + 2) ++ "- y: " ++ showInt c.m_y ++ "\n"
      ++ Indenter.spaces (L + 2) ++ "- radius: " ++ showInt c.m_radius ++ "\n", ?_⟩
    simp only [Shape.toYAML, Circle.toYAML, put, putInt, Indenter.construct,
      Indenter.destruct, Indenter.put, Shape.kindName, e1, String.append_assoc,
      String.empty_append]
  | triangle t =>
    refine ⟨"\n" ++ Indenter.spaces (L + 2) ++ "- x: " ++ showInt t.m_x ++ "\n"
      ++ Indenter.spaces (L + 2) ++ "- y: " ++ showInt t.m_y ++ "\n"
      ++ Indenter.spaces (L + 2) ++ "- len: " ++ showInt t.m_len ++ "\n", ?_⟩
    simp only [Shape.toYAML, Triangle.toYAML, put, putInt, Indenter.construct,
      Indenter.destruct, Indenter.put, Shape.kindName, e2, String.append_assoc,
      String.empty_append]
  | rectangle r =>
    refine ⟨" \n" ++ Indenter.spaces (L + 2) ++ "- x: " ++ showInt r.m_x ++ "\n"
      ++ Indenter.spaces (L + 2) ++ "- y: " ++ showInt r.m_y ++ "\n"
      ++ Indenter.spaces (L + 2) ++ "- w: " ++ showInt r.m_w ++ "\n"
      ++ Indenter.spaces (L + 2) ++ "- h: " ++ showInt r.m_h ++ "\n", ?_⟩
    simp only [Shape.toYAML, Rectangle.toYAML, put, putInt, Indenter.construct,
      Indenter.destruct, Indenter.put, Shape.kindName, e3, String.append_assoc,
      String.empty_append]
  | drawing d =>
    refine ⟨"\n" ++ String.join (d.map (fun c =>
      Indenter.spaces (L + 2) ++ "- " ++ (Shape.toYAML c ⟨"", L + 2⟩).os)), ?_⟩
    rw [toYAML_drawing_unfold, toYAML_loop_eq d _ (L + 2) (by omega),
      Indenter.destruct_construct _ L h]
    simp only [Shape.kindName, e4, String.append_assoc, String.empty_append]

end Shape3

/-- C6: for every shape tree and every non-negative value `L` of `Indenter::m_ilevel` at the
start, the counter is `L` again after `ToYAML` has serialized the tree, and the same holds for
every sub-tree: the counter after the emission of a node of the tree is what it was when that
emission started. Constructing an `Indenter` raises the counter by 2 and its destructor
restores it. This holds for `toYAML` of `shape3.cc` and for the functor of `shape6.cc`. -/
theorem C6_toYAML_counter_restored (s : Shape) (os : String) (L : Int) (h : 0 ≤ L) :
    (Shape3.Shape.toYAML s ⟨os, L⟩).m_ilevel = L
    ∧ (Shape6.ToYAML.visit s ⟨os, L⟩).m_ilevel = L
    ∧ (∀ (p : List Nat) (n : Shape) (st : State),
        enterAt Shape3.Drawing.toYAML.loop p s ⟨os, L⟩ = some (n, st) →
          (Shape3.Shape.toYAML n st).m_ilevel = st.m_ilevel)
    ∧ (∀ (p : List Nat) (n : Shape) (st : State),
        enterAt Shape6.ToYAML.callDrawing.loop p s ⟨os, L⟩ = some (n, st) →
          (Shape6.ToYAML.visit n st).m_ilevel = st.m_ilevel)
    ∧ (Indenter.construct ⟨2⟩ ⟨os, L⟩).m_ilevel = L + 2
    ∧ Indenter.destruct ⟨2⟩ (Indenter.construct ⟨2⟩ ⟨os, L⟩) = ⟨os, L⟩ := by
  have h6 : Shape6.ToYAML.callDrawing.loop = Shape3.Drawing.toYAML.loop :=
    funext fun ind => funext fun d => funext fun st => Shape6.toYAML_callLoop_eq ind d st
  have hsub : ∀ (p : List Nat) (n : Shape) (st : State),
      enterAt Shape3.Drawing.toYAML.loop p s ⟨os, L⟩ = some (n, st) →
        (Shape3.Shape.toYAML n st).m_ilevel = st.m_ilevel := by
    intro p n st hp
    have hl := Shape3.enterAt_level p s ⟨os, L⟩ n st h hp
    exact Shape3.toYAML_shape_level n st (by rw [hl]; simp only []; omega)
  refine ⟨Shape3.toYAML_shape_level s ⟨os, L⟩ h, ?_, hsub, ?_, rfl,
    Indenter.destruct_construct os L h⟩
  · rw [Shape6.toYAML_visit_eq]
    exact Shape3.toYAML_shape_level s ⟨os, L⟩ h
  · intro p n st hp
    rw [h6] at hp
    rw [Shape6.toYAML_visit_eq]
    exact hsub p n st hp

/-- C6 on the tree of the scenario, started with the counter at 4: the counter is 4 at the
end, with the virtual method and with the functor. -/
theorem C6_witness :
    (0 : Int) ≤ 4
    ∧ (Shape3.Shape.toYAML (.drawing scenarioTree) ⟨"", 4⟩).m_ilevel = 4
    ∧ (Shape6.ToYAML.visit (.drawing scenarioTree) ⟨"", 4⟩).m_ilevel = 4 :=
  ⟨by decide, (C6_toYAML_counter_restored (.drawing scenarioTree) "" 4 (by decide)).1,
    (C6_toYAML_counter_restored (.drawing scenarioTree) "" 4 (by decide)).2.1⟩

set_option maxRecDepth 100000 in
/-- C7 at the failing input `Rectangle(50,50,25,50)`: `Rectangle::toYAML` of `shape3.cc` and
`ToYAML::operator()(Rectangle &)` of `shape6.cc` write the header `rectangle: ` with a space
between the colon and the newline, so the text is not the one with the header `rectangle:`;
`Circle::toYAML` writes its header `circle:` with nothing after the colon. -/
theorem C7_rectangle_header_trailing_space :
    (Shape3.Rectangle.toYAML ⟨50, 50, 25, 50⟩ ⟨"", 0⟩).os
        = "rectangle: \n  - x: 50\n  - y: 50\n  - w: 25\n  - h: 50\n"
    ∧ (Shape6.ToYAML.callRectangle ⟨50, 50, 25, 50⟩ ⟨"", 0⟩).os
        = "rectangle: \n  - x: 50\n  - y: 50\n  - w: 25\n  - h: 50\n"
    ∧ (Shape3.Rectangle.toYAML ⟨50, 50, 25, 50⟩ ⟨"", 0⟩).os
        ≠ "rectangle:\n  - x: 50\n  - y: 50\n  - w: 25\n  - h: 50\n"
    ∧ (Shape3.Circle.toYAML ⟨100, 100, 50⟩ ⟨"", 0⟩).os
        = "circle:\n  - x: 100\n  - y: 100\n  - radius: 50\n" := by
  decide

/-- C8: for every `Drawing` and every non-negative value `L` of the counter at the start,
`ToYAML` appends the header `drawing:` and a newline and then, for each child in insertion
order, the current indent (`L + 2` spaces), the marker `- ` and that child's own `ToYAML`
text; nothing else is written and the counter is `L` again. The text of a child starts with
its kind name and a colon, so the header of a child, a nested `drawing:` included, is on the
line of its marker. This holds for `Drawing::toYAML` of `shape3.cc` and for
`ToYAML::visit(Drawing &)` of `shape4.cc`. -/
theorem C8_toYAML_drawing_children (m_shape : List Shape) (os : String) (L : Int)
    (h : 0 ≤ L) :
    Shape3.Drawing.toYAML m_shape ⟨os, L⟩
        = ⟨os ++ "drawing:\n" ++ String.join (m_shape.map (fun c =>
              Indenter.spaces (L + 2) ++ "- " ++ (Shape3.Shape.toYAML c ⟨"", L + 2⟩).os)), L⟩
    ∧ Shape4.ToYAML.visitDrawing m_shape ⟨os, L⟩
        = ⟨os ++ "drawing:\n" ++ String.join (m_shape.map (fun c =>
              Indenter.spaces (L + 2) ++ "- " ++ (Shape4.ToYAML.accept c ⟨"", L + 2⟩).os)), L⟩
    ∧ Indenter.spaces (L + 2) = String.mk (List.replicate (L.toNat + 2) ' ')
    ∧ (∀ c : Shape, ∃ rest : String,
        (Shape3.Shape.toYAML c ⟨"", L + 2⟩).os = c.kindName ++ ":" ++ rest
        ∧ (Shape4.ToYAML.accept c ⟨"", L + 2⟩).os = c.kindName ++ ":" ++ rest) := by
  have h4 : (fun c => Indenter.spaces (L + 2) ++ "- " ++ (Shape4.ToYAML.accept c ⟨"", L + 2⟩).os)
      = (fun c => Indenter.spaces (L + 2) ++ "- " ++ (Shape3.Shape.toYAML c ⟨"", L + 2⟩).os) :=
    funext fun c => by rw [Shape4.toYAML_accept_eq]
  refine ⟨Shape3.toYAML_drawing_eq m_shape os L h, ?_, ?_, ?_⟩
  · rw [Shape4.toYAML_visitDrawing_eq, h4]
    exact Shape3.toYAML_drawing_eq m_shape os L h
  · have : (L + 2).toNat = L.toNat + 2 := by omega
    rw [Indenter.spaces, this]
  · intro c
    obtain ⟨rest, hrest⟩ := Shape3.toYAML_kind_header c (L + 2) (by omega)
    exact ⟨rest, hrest, by rw [Shape4.toYAML_accept_eq]; exact hrest⟩

set_option maxRecDepth 100000 in
/-- C8 on the drawing `[Circle(1,2,3), Drawing[]]` started with the counter at 0: the
header, then the circle and the empty nested drawing, each behind a marker indented by two
spaces. -/
theorem C8_witness :
    (0 : Int) ≤ 0
    ∧ Shape3.Drawing.toYAML [.circle ⟨1, 2, 3⟩, .drawing []] ⟨"", 0⟩
      = ⟨"drawing:\n  - circle:\n    - x: 1\n    - y: 2\n    - radius: 3\n  - drawing:\n", 0⟩ :=
  ⟨by decide,
    (C8_toYAML_drawing_children [.circle ⟨1, 2, 3⟩, .drawing []] "" 0 (by decide)).1.trans
      (by decide)⟩

/-- C10: an empty `Drawing` draws nothing, `toJSON` writes for it exactly the header
`"drawing": [`, a newline, `]` and a newline, and `toYAML` writes exactly `drawing:` and a
newline. -/
theorem C10_empty_drawing (os : String) (m_ilevel : Int) :
    Shape1.Drawing.draw [] os = os
    ∧ Shape2.Drawing.toJSON [] os = os ++ "\"drawing\": [\n]\n"
    ∧ (Shape3.Drawing.toYAML [] ⟨os, m_ilevel⟩).os = os ++ "drawing:\n" := by
  refine ⟨rfl, ?_, rfl⟩
  rw [Shape2.Drawing.toJSON, Shape2.Drawing.toJSON.loop, String.append_assoc]
  rfl

/-! ## The three implementations of `ToJSON` and of `ToYAML` agree -/

/-- C11: for every shape tree and every stream, the three `ToJSON` implementations write the
same text: the virtual method `toJSON` of `shape2.cc`, the visitor class `ToJSON` reached
through `accept` in `shape4.cc`, and the functor `ToJSON` applied with `std::visit` in
`shape6.cc`; the same holds for the three bodies that serialize a `Drawing`. -/
theorem C11_toJSON_three_implementations (s : Shape) (os : String) :
    Shape4.ToJSON.accept s os = Shape2.Shape.toJSON s os
    ∧ Shape6.ToJSON.visit s os = Shape2.Shape.toJSON s os
    ∧ Shape6.ToJSON.visit s os = Shape4.ToJSON.accept s os
    ∧ (∀ d : List Shape,
        Shape4.ToJSON.visitDrawing d os = Shape2.Drawing.toJSON d os
        ∧ Shape6.ToJSON.callDrawing d os = Shape2.Drawing.toJSON d os) := by
  refine ⟨Shape4.toJSON_accept_eq s os, Shape6.toJSON_visit_eq s os, ?_, fun d => ⟨?_, ?_⟩⟩
  · rw [Shape6.toJSON_visit_eq, Shape4.toJSON_accept_eq]
  · rw [Shape4.ToJSON.visitDrawing, Shape2.Drawing.toJSON, Shape4.toJSON_visitLoop_eq]
  · exact Shape6.toJSON_callDrawing_eq d os

/-- C12: for every shape tree, every stream and every value of the indent counter at the
start, the three `ToYAML` implementations write the same text and leave the counter at the
same value: the virtual method `toYAML` of `shape3.cc`, the visitor class `ToYAML` of
`shape4.cc` and the functor `ToYAML` of `shape6.cc`; the same holds for the three bodies that
serialize a `Drawing`. -/
theorem C12_toYAML_three_implementations (s : Shape) (st : State) :
    Shape4.ToYAML.accept s st = Shape3.Shape.toYAML s st
    ∧ Shape6.ToYAML.visit s st = Shape3.Shape.toYAML s st
    ∧ Shape6.ToYAML.visit s st = Shape4.ToYAML.accept s st
    ∧ (Shape4.ToYAML.accept s st).os = (Shape3.Shape.toYAML s st).os
    ∧ (Shape6.ToYAML.visit s st).os = (Shape3.Shape.toYAML s st).os
    ∧ (Shape4.ToYAML.accept s st).m_ilevel = (Shape3.Shape.toYAML s st).m_ilevel
    ∧ (Shape6.ToYAML.visit s st).m_ilevel = (Shape3.Shape.toYAML s st).m_ilevel
    ∧ (∀ d : List Shape,
        Shape4.ToYAML.visitDrawing d st = Shape3.Drawing.toYAML d st
        ∧ Shape6.ToYAML.callDrawing d st = Shape3.Drawing.toYAML d st) := by
  have h4 := Shape4.toYAML_accept_eq s st
  have h6 := Shape6.toYAML_visit_eq s st
  exact ⟨h4, h6, by rw [h4, h6], by rw [h4], by rw [h6], by rw [h4], by rw [h6],
    fun d => ⟨Shape4.toYAML_visitDrawing_eq d st, Shape6.toYAML_callDrawing_eq d st⟩⟩

/-! ## Building a drawing -/

theorem append_singleton_getElem_lt {α : Type} (l : List α) (a : α) (i : Nat)
    (h : i < l.length) : (l ++ [a])[i]? = l[i]? :=
  List.getElem?_append_left h

theorem append_singleton_getElem_length {α : Type} (l : List α) (a : α) :
    (l ++ [a])[(l ++ [a]).length - 1]? = some a := by
  simp

/-! ## `Scale` and `FillColor` on the nodes of a tree -/

namespace Shape7

theorem scale_callDrawing_length {F C : Type} (mul : F → F → F) (self : Scale F) :
    ∀ d : List (Sfml.Shape F C), (Scale.callDrawing mul self d).length = d.length
  | [] => rfl
  | s :: rest => by
    rw [Scale.callDrawing, List.length_cons, List.length_cons,
      scale_callDrawing_length mul self rest]

theorem fill_callDrawing_length {F C : Type} (self : FillColor C) :
    ∀ d : List (Sfml.Shape F C), (FillColor.callDrawing self d).length = d.length
  | [] => rfl
  | s :: rest => by
    rw [FillColor.callDrawing, List.length_cons, List.length_cons,
      fill_callDrawing_length self rest]

mutual
theorem scale_visit_nodes {F C : Type} (mul : F → F → F) (self : Scale F) :
    ∀ (depth : Nat) (t : Sfml.Shape F C),
      Sfml.Shape.nodes depth (Scale.visit mul self t)
        = (Sfml.Shape.nodes depth t).map
            (fun p => (p.1, Sfml.Node.scaleOnce mul self.m_ratio p.2))
  | depth, .circle s => rfl
  | depth, .triangle s => rfl
  | depth, .rectangle s => rfl
  | depth, .drawing d => by
    rw [Scale.visit, Sfml.Shape.nodes, Sfml.Shape.nodes, List.map_cons,
      scale_callDrawing_nodes mul self (depth + 1) d, scale_callDrawing_length]
    rfl
theorem scale_callDrawing_nodes {F C : Type} (mul : F → F → F) (self : Scale F) :
    ∀ (depth : Nat) (d : List (Sfml.Shape F C)),
      Sfml.Drawing.nodes depth (Scale.callDrawing mul self d)
        = (Sfml.Drawing.nodes depth d).map
            (fun p => (p.1, Sfml.Node.scaleOnce mul self.m_ratio p.2))
  | depth, [] => rfl
  | depth, s :: rest => by
    rw [Scale.callDrawing, Sfml.Drawing.nodes, Sfml.Drawing.nodes, List.map_append,
      scale_visit_nodes mul self depth s, scale_callDrawing_nodes mul self depth rest]
end

mutual
theorem fill_visit_nodes {F C : Type} (self : FillColor C) :
    ∀ (depth : Nat) (t : Sfml.Shape F C),
      Sfml.Shape.nodes depth (FillColor.visit self t)
        = (Sfml.Shape.nodes depth t).map (fun p => (p.1, Sfml.Node.setFill self.m_color p.2))
  | depth, .circle s => rfl
  | depth, .triangle s => rfl
  | depth, .rectangle s => rfl
  | depth, .drawing d => by
    rw [FillColor.visit, Sfml.Shape.nodes, Sfml.Shape.nodes, List.map_cons,
      fill_callDrawing_nodes self (depth + 1) d, fill_callDrawing_length]
    rfl
theorem fill_callDrawing_nodes {F C : Type} (self : FillColor C) :
    ∀ (depth : Nat) (d : List (Sfml.Shape F C)),
      Sfml.Drawing.nodes depth (FillColor.callDrawing self d)
        = (Sfml.Drawing.nodes depth d).map (fun p => (p.1, Sfml.Node.setFill self.m_color p.2))
  | depth, [] => rfl
  | depth, s :: rest => by
    rw [FillColor.callDrawing, Sfml.Drawing.nodes, Sfml.Drawing.nodes, List.map_append,
      fill_visit_nodes self depth s, fill_callDrawing_nodes self depth rest]
end

mutual
theorem scale_fill_visit_comm {F C : Type} (mul : F → F → F) (sc : Scale F)
    (fc : FillColor C) : ∀ t : Sfml.Shape F C,
      FillColor.visit fc (Scale.visit mul sc t) = Scale.visit mul sc (FillColor.visit fc t)
  | .circle s => rfl
  | .triangle s => rfl
  | .rectangle s => rfl
  | .drawing d => by
    rw [Scale.visit, FillColor.visit, FillColor.visit, Scale.visit,
      scale_fill_callDrawing_comm mul sc fc d]
theorem scale_fill_callDrawing_comm {F C : Type} (mul : F → F → F) (sc : Scale F)
    (fc : FillColor C) : ∀ d : List (Sfml.Shape F C),
      FillColor.callDrawing fc (Scale.callDrawing mul sc d)
        = Scale.callDrawing mul sc (FillColor.callDrawing fc d)
  | [] => rfl
  | s :: rest => by
    rw [Scale.callDrawing, FillColor.callDrawing, FillColor.callDrawing, Scale.callDrawing,
      scale_fill_visit_comm mul sc fc s, scale_fill_callDrawing_comm mul sc fc rest]
end

end Shape7

namespace Shape8

mutual
theorem scale_visit_eq_shape7 {F C : Type} (mul : F → F → F) (r : F) :
    ∀ t : Sfml.Shape F C, Scale.visit mul ⟨r⟩ t = Shape7.Scale.visit mul ⟨r⟩ t
  | .circle s => rfl
  | .triangle s => rfl
  | .rectangle s => rfl
  | .drawing d => by
    rw [Scale.visit, Shape7.Scale.visit, scale_accept_eq_shape7 mul r d]
theorem scale_accept_eq_shape7 {F C : Type} (mul : F → F → F) (r : F) :
    ∀ d : List (Sfml.Shape F C), Scale.accept mul ⟨r⟩ d = Shape7.Scale.callDrawing mul ⟨r⟩ d
  | [] => rfl
  | s :: rest => by
    rw [Scale.accept, Shape7.Scale.callDrawing, scale_visit_eq_shape7 mul r s,
      scale_accept_eq_shape7 mul r rest]
end

mutual
theorem fill_visit_eq_shape7 {F C : Type} (c : C) :
    ∀ t : Sfml.Shape F C, FillColor.visit ⟨c⟩ t = Shape7.FillColor.visit ⟨c⟩ t
  | .circle s => rfl
  | .triangle s => rfl
  | .rectangle s => rfl
  | .drawing d => by
    rw [FillColor.visit, Shape7.FillColor.visit, fill_accept_eq_shape7 c d]
theorem fill_accept_eq_shape7 {F C : Type} (c : C) :
    ∀ d : List (Sfml.Shape F C), FillColor.accept ⟨c⟩ d = Shape7.FillColor.callDrawing ⟨c⟩ d
  | [] => rfl
  | s :: rest => by
    rw [FillColor.accept, Shape7.FillColor.callDrawing, fill_visit_eq_shape7 c s,
      fill_accept_eq_shape7 c rest]
end

/-- The instance of `Composite::accept` for a `Scale` is the general `Composite::accept` run
with the call `std::visit(visitor, s)` of a `Scale`, which leaves the visitor as it was. -/
theorem scale_accept_eq_composite {F C : Type} (mul : F → F → F) (self : Scale F) :
    ∀ d : List (Sfml.Shape F C),
      Composite.accept (fun s (v : Scale F) => (Scale.visit mul v s, v)) d self
        = (Scale.accept mul self d, self)
  | [] => rfl
  | s :: rest => by
    rw [Composite.accept, Scale.accept]
    simp only [scale_accept_eq_composite mul self rest]

/-- The instance of `Composite::accept` for a `FillColor` is the general `Composite::accept`
run with the call `std::visit(visitor, s)` of a `FillColor`. -/
theorem fill_accept_eq_composite {F C : Type} (self : FillColor C) :
    ∀ d : List (Sfml.Shape F C),
      Composite.accept (fun s (v : FillColor C) => (FillColor.visit v s, v)) d self
        = (FillColor.accept self d, self)
  | [] => rfl
  | s :: rest => by
    rw [Composite.accept, FillColor.accept]
    simp only [fill_accept_eq_composite self rest]

end Shape8

namespace Sfml

theorem Node.sizes_scaleOnce {F C : Type} (mul : F → F → F) (r : F) (n : Node F C) :
    (n.scaleOnce mul r).sizes = n.sizes.map (fun x => mul x r) := by
  cases n <;> rfl

theorem Node.eraseSize_scaleOnce {F C : Type} (mul : F → F → F) (r z : F) (n : Node F C) :
    (n.scaleOnce mul r).eraseSize z = n.eraseSize z := by
  cases n <;> rfl

theorem Node.kind_scaleOnce {F C : Type} (mul : F → F → F) (r : F) (n : Node F C) :
    (n.scaleOnce mul r).kind = n.kind := by
  cases n <;> rfl

theorem Node.position_scaleOnce {F C : Type} (mul : F → F → F) (r : F) (n : Node F C) :
    (n.scaleOnce mul r).position = n.position := by
  cases n <;> rfl

theorem Node.fillColor_scaleOnce {F C : Type} (mul : F → F → F) (r : F) (n : Node F C) :
    (n.scaleOnce mul r).fillColor = n.fillColor := by
  cases n <;> rfl

theorem Node.setFill_setFill {F C : Type} (c c0 : C) (n : Node F C) :
    (n.setFill c).setFill c0 = n.setFill c0 := by
  cases n <;> rfl

theorem Node.sizes_setFill {F C : Type} (c : C) (n : Node F C) :
    (n.setFill c).sizes = n.sizes := by
  cases n <;> rfl

theorem Node.kind_setFill {F C : Type} (c : C) (n : Node F C) :
    (n.setFill c).kind = n.kind := by
  cases n <;> rfl

theorem Node.position_setFill {F C : Type} (c : C) (n : Node F C) :
    (n.setFill c).position = n.position := by
  cases n <;> rfl

theorem Node.fillColor_setFill {F C : Type} (c : C) (n : Node F C) :
    (n.setFill c).fillColor = if n.kind = Kind.drawing then none else some c := by
  cases n <;> rfl

end Sfml

/-- C14: for every shape tree and every ratio `r`, `Scale(r)` applied to the root multiplies
the size of every primitive, at every depth, by `r` exactly once: the nodes of the tree
afterwards are the nodes before, in the same order and at the same depths, each with its
radius `x` replaced by the `float` product `x * r` or its size `(w, h)` by `(w * r, h * r)`.
This holds for `shape7.cc` and for `shape8.cc`. In the example a circle in the root, a
rectangle in a drawing nested in the root and a triangle in a drawing nested in that one are
scaled by 3, with integers for the sizes and their product for `mul`: each gets 3 times its
size, whatever its depth. -/
theorem C14_scale_once {F C : Type} (mul : F → F → F) (r : F) (t : Sfml.Shape F C) :
    Sfml.Shape.nodes 0 (Shape7.Scale.visit mul ⟨r⟩ t)
        = (Sfml.Shape.nodes 0 t).map (fun p => (p.1, Sfml.Node.scaleOnce mul r p.2))
    ∧ Sfml.Shape.nodes 0 (Shape8.Scale.visit mul ⟨r⟩ t)
        = (Sfml.Shape.nodes 0 t).map (fun p => (p.1, Sfml.Node.scaleOnce mul r p.2))
    ∧ (Sfml.Shape.nodes 0 (Shape7.Scale.visit mul ⟨r⟩ t)).map (fun p => (p.1, p.2.kind, p.2.sizes))
        = (Sfml.Shape.nodes 0 t).map
            (fun p => (p.1, p.2.kind, p.2.sizes.map (fun x => mul x r)))
    ∧ (Sfml.Shape.nodes 0 (Shape8.Scale.visit mul ⟨r⟩ t)).map (fun p => (p.1, p.2.kind, p.2.sizes))
        = (Sfml.Shape.nodes 0 t).map
            (fun p => (p.1, p.2.kind, p.2.sizes.map (fun x => mul x r)))
    ∧ (Sfml.Shape.nodes 0 (Shape7.Scale.visit (fun x y : Int => x * y) ⟨3⟩
          (.drawing [.circle ⟨50, 30, "red", ⟨100, 100⟩⟩,
            .drawing [.rectangle ⟨⟨25, 50⟩, "blue", ⟨50, 50⟩⟩,
              .drawing [.triangle ⟨⟨7, 3, "green", ⟨1, 2⟩⟩⟩]]]))).map
          (fun p => (p.1, p.2.sizes))
        = [(0, []), (1, [150]), (1, []), (2, [75, 150]), (2, []), (3, [21])] := by
  have h7 := Shape7.scale_visit_nodes mul ⟨r⟩ 0 t
  have h8 : Sfml.Shape.nodes 0 (Shape8.Scale.visit mul ⟨r⟩ t)
      = (Sfml.Shape.nodes 0 t).map (fun p => (p.1, Sfml.Node.scaleOnce mul r p.2)) := by
    rw [Shape8.scale_visit_eq_shape7]; exact h7
  refine ⟨h7, h8, ?_, ?_, by decide⟩
  · rw [h7, List.map_map]
    apply List.map_congr_left
    intro p _
    simp only [Function.comp, Sfml.Node.sizes_scaleOnce, Sfml.Node.kind_scaleOnce]
  · rw [h8, List.map_map]
    apply List.map_congr_left
    intro p _
    simp only [Function.comp, Sfml.Node.sizes_scaleOnce, Sfml.Node.kind_scaleOnce]

/-- C15: for every shape tree and every ratio `r`, `Scale(r)` changes nothing but size fields:
with the sizes left out of the comparison (replaced by a fixed value `z`) the nodes of the
tree afterwards are the nodes before, so every position and every fill colour is unchanged,
and the tree has the same shape (the same kinds in the same order at the same depths, and the
same number of children in every drawing). This holds for `shape7.cc` and `shape8.cc`. -/
theorem C15_scale_frame {F C : Type} (mul : F → F → F) (r : F) (t : Sfml.Shape F C) (z : F) :
    (Sfml.Shape.nodes 0 (Shape7.Scale.visit mul ⟨r⟩ t)).map (fun p => (p.1, p.2.eraseSize z))
        = (Sfml.Shape.nodes 0 t).map (fun p => (p.1, p.2.eraseSize z))
    ∧ (Sfml.Shape.nodes 0 (Shape8.Scale.visit mul ⟨r⟩ t)).map (fun p => (p.1, p.2.eraseSize z))
        = (Sfml.Shape.nodes 0 t).map (fun p => (p.1, p.2.eraseSize z))
    ∧ (Sfml.Shape.nodes 0 (Shape7.Scale.visit mul ⟨r⟩ t)).map
          (fun p => (p.1, p.2.kind, p.2.position, p.2.fillColor))
        = (Sfml.Shape.nodes 0 t).map (fun p => (p.1, p.2.kind, p.2.position, p.2.fillColor))
    ∧ (Sfml.Shape.nodes 0 (Shape8.Scale.visit mul ⟨r⟩ t)).map
          (fun p => (p.1, p.2.kind, p.2.position, p.2.fillColor))
        = (Sfml.Shape.nodes 0 t).map (fun p => (p.1, p.2.kind, p.2.position, p.2.fillColor))
    := by
  have h7 := Shape7.scale_visit_nodes mul ⟨r⟩ 0 t
  have h8 : Sfml.Shape.nodes 0 (Shape8.Scale.visit mul ⟨r⟩ t)
      = (Sfml.Shape.nodes 0 t).map (fun p => (p.1, Sfml.Node.scaleOnce mul r p.2)) := by
    rw [Shape8.scale_visit_eq_shape7]; exact h7
  refine ⟨?_, ?_, ?_, ?_⟩
  · rw [h7, List.map_map]
    apply List.map_congr_left
    intro p _
    simp only [Function.comp, Sfml.Node.eraseSize_scaleOnce]
  · rw [h8, List.map_map]
    apply List.map_congr_left
    intro p _
    simp only [Function.comp, Sfml.Node.eraseSize_scaleOnce]
  · rw [h7, List.map_map]
    apply List.map_congr_left
    intro p _
    simp only [Function.comp, Sfml.Node.kind_scaleOnce, Sfml.Node.position_scaleOnce,
      Sfml.Node.fillColor_scaleOnce]
  · rw [h8, List.map_map]
    apply List.map_congr_left
    intro p _
    simp only [Function.comp, Sfml.Node.kind_scaleOnce, Sfml.Node.position_scaleOnce,
      Sfml.Node.fillColor_scaleOnce]

/-- C16: for every shape tree and every colour `c`, `FillColor(c)` applied to the root leaves
every primitive, at every depth, with the fill colour `c`, and changes nothing else: the nodes
of the tree afterwards are the nodes before, in the same order and at the same depths, each
primitive with its fill colour replaced by `c`; positions, sizes, kinds and the number of
children of every drawing are unchanged, and a drawing has no colour of its own. This holds
for `shape7.cc` and `shape8.cc`. -/
theorem C16_fill_all {F C : Type} (c : C) (t : Sfml.Shape F C) :
    Sfml.Shape.nodes 0 (Shape7.FillColor.visit ⟨c⟩ t)
        = (Sfml.Shape.nodes 0 t).map (fun p => (p.1, Sfml.Node.setFill c p.2))
    ∧ Sfml.Shape.nodes 0 (Shape8.FillColor.visit ⟨c⟩ t)
        = (Sfml.Shape.nodes 0 t).map (fun p => (p.1, Sfml.Node.setFill c p.2))
    ∧ (∀ p ∈ Sfml.Shape.nodes 0 (Shape7.FillColor.visit ⟨c⟩ t),
        p.2.fillColor = if p.2.kind = Kind.drawing then none else some c)
    ∧ (∀ p ∈ Sfml.Shape.nodes 0 (Shape8.FillColor.visit ⟨c⟩ t),
        p.2.fillColor = if p.2.kind = Kind.drawing then none else some c)
    ∧ (∀ c0 : C,
        (Sfml.Shape.nodes 0 (Shape7.FillColor.visit ⟨c⟩ t)).map (fun p => (p.1, p.2.setFill c0))
          = (Sfml.Shape.nodes 0 t).map (fun p => (p.1, p.2.setFill c0))
        ∧ (Sfml.Shape.nodes 0 (Shape8.FillColor.visit ⟨c⟩ t)).map
              (fun p => (p.1, p.2.setFill c0))
          = (Sfml.Shape.nodes 0 t).map (fun p => (p.1, p.2.setFill c0)))
    ∧ (Sfml.Shape.nodes 0 (Shape7.FillColor.visit ⟨c⟩ t)).map
          (fun p => (p.1, p.2.kind, p.2.position, p.2.sizes))
        = (Sfml.Shape.nodes 0 t).map (fun p => (p.1, p.2.kind, p.2.position, p.2.sizes))
    ∧ (Sfml.Shape.nodes 0 (Shape8.FillColor.visit ⟨c⟩ t)).map
          (fun p => (p.1, p.2.kind, p.2.position, p.2.sizes))
        = (Sfml.Shape.nodes 0 t).map (fun p => (p.1, p.2.kind, p.2.position, p.2.sizes))
    := by
  have h7 := @Shape7.fill_visit_nodes F C ⟨c⟩ 0 t
  have h8 : Sfml.Shape.nodes 0 (Shape8.FillColor.visit ⟨c⟩ t)
      = (Sfml.Shape.nodes 0 t).map (fun p => (p.1, Sfml.Node.setFill c p.2)) := by
    rw [Shape8.fill_visit_eq_shape7]; exact h7
  have hall : ∀ p ∈ (Sfml.Shape.nodes 0 t).map (fun p => (p.1, Sfml.Node.setFill c p.2)),
      p.2.fillColor = if p.2.kind = Kind.drawing then none else some c := by
    intro p hp
    obtain ⟨q, _, rfl⟩ := List.mem_map.mp hp
    simp only [Sfml.Node.fillColor_setFill, Sfml.Node.kind_setFill]
  have herase : ∀ c0 : C,
      ((Sfml.Shape.nodes 0 t).map (fun p => (p.1, Sfml.Node.setFill c p.2))).map
          (fun p => (p.1, p.2.setFill c0))
        = (Sfml.Shape.nodes 0 t).map (fun p => (p.1, p.2.setFill c0)) := by
    intro c0
    rw [List.map_map]
    apply List.map_congr_left
    intro p _
    simp only [Function.comp, Sfml.Node.setFill_setFill]
  have hrest : ((Sfml.Shape.nodes 0 t).map (fun p => (p.1, Sfml.Node.setFill c p.2))).map
        (fun p => (p.1, p.2.kind, p.2.position, p.2.sizes))
      = (Sfml.Shape.nodes 0 t).map (fun p => (p.1, p.2.kind, p.2.position, p.2.sizes)) := by
    rw [List.map_map]
    apply List.map_congr_left
    intro p _
    simp only [Function.comp, Sfml.Node.kind_setFill, Sfml.Node.position_setFill,
      Sfml.Node.sizes_setFill]
  refine ⟨h7, h8, ?_, ?_, fun c0 => ⟨?_, ?_⟩, ?_, ?_⟩
  · rw [h7]; exact hall
  · rw [h8]; exact hall
  · rw [h7]; exact herase c0
  · rw [h8]; exact herase c0
  · rw [h7]; exact hrest
  · rw [h8]; exact hrest

/-- C17: `Scale` and `FillColor` commute: for every shape tree, ratio `r` and colour `c`,
`Scale(r)` followed by `FillColor(c)` yields the same tree as `FillColor(c)` followed by
`Scale(r)`, and in that tree the sizes are those after `Scale(r)` alone and the fill colours
those after `FillColor(c)` alone. This holds for `shape7.cc` and `shape8.cc`. -/
theorem C17_scale_fill_commute {F C : Type} (mul : F → F → F) (r : F) (c : C)
    (t : Sfml.Shape F C) :
    Shape7.FillColor.visit ⟨c⟩ (Shape7.Scale.visit mul ⟨r⟩ t)
        = Shape7.Scale.visit mul ⟨r⟩ (Shape7.FillColor.visit ⟨c⟩ t)
    ∧ Shape8.FillColor.visit ⟨c⟩ (Shape8.Scale.visit mul ⟨r⟩ t)
        = Shape8.Scale.visit mul ⟨r⟩ (Shape8.FillColor.visit ⟨c⟩ t)
    ∧ (Sfml.Shape.nodes 0 (Shape7.FillColor.visit ⟨c⟩ (Shape7.Scale.visit mul ⟨r⟩ t))).map
          (fun p => (p.1, p.2.sizes))
        = (Sfml.Shape.nodes 0 (Shape7.Scale.visit mul ⟨r⟩ t)).map (fun p => (p.1, p.2.sizes))
    ∧ (Sfml.Shape.nodes 0 (Shape7.FillColor.visit ⟨c⟩ (Shape7.Scale.visit mul ⟨r⟩ t))).map
          (fun p => (p.1, p.2.fillColor))
        = (Sfml.Shape.nodes 0 (Shape7.FillColor.visit ⟨c⟩ t)).map
            (fun p => (p.1, p.2.fillColor))
    ∧ Sfml.Shape.nodes 0 (Shape7.FillColor.visit ⟨c⟩ (Shape7.Scale.visit mul ⟨r⟩ t))
        = (Sfml.Shape.nodes 0 t).map
            (fun p => (p.1, Sfml.Node.setFill c (Sfml.Node.scaleOnce mul r p.2))) := by
  have hc := Shape7.scale_fill_visit_comm mul ⟨r⟩ ⟨c⟩ t
  have hs := Shape7.scale_visit_nodes mul ⟨r⟩ 0 t
  have hf := @Shape7.fill_visit_nodes F C ⟨c⟩ 0 t
  have hfs := Shape7.fill_visit_nodes ⟨c⟩ 0 (Shape7.Scale.visit mul ⟨r⟩ t)
  refine ⟨hc, ?_, ?_, ?_, ?_⟩
  · rw [Shape8.scale_visit_eq_shape7, Shape8.fill_visit_eq_shape7, Shape8.fill_visit_eq_shape7,
      Shape8.scale_visit_eq_shape7]
    exact hc
  · rw [hfs, List.map_map]
    apply List.map_congr_left
    intro p _
    simp only [Function.comp, Sfml.Node.sizes_setFill]
  · rw [hfs, hs, hf, List.map_map, List.map_map, List.map_map]
    apply List.map_congr_left
    intro p _
    simp only [Function.comp, Sfml.Node.fillColor_setFill, Sfml.Node.kind_scaleOnce]
  · rw [hfs, hs, List.map_map]
    rfl

/-! ## Dispatch: the canary -/

namespace Shape4

mutual
theorem canary_accept_kinds : ∀ (s : Shape) (m_log : List Kind),
    Canary.accept s m_log = m_log ++ Shape.kinds s
  | .circle c, m_log => rfl
  | .triangle t, m_log => rfl
  | .rectangle r, m_log => rfl
  | .drawing d, m_log => by
    rw [Canary.accept, canary_loop_kinds d, Shape.kinds]
    simp
theorem canary_loop_kinds : ∀ (d : List Shape) (m_log : List Kind),
    Canary.visitDrawing.loop d m_log = m_log ++ Drawing.kinds d
  | [], m_log => by simp [Canary.visitDrawing.loop, Drawing.kinds]
  | s :: rest, m_log => by
    rw [Canary.visitDrawing.loop, canary_accept_kinds s, canary_loop_kinds rest, Drawing.kinds]
    simp
end

/-- The call `s->accept(canary)` through the overrides of `Shape::accept` is the run of the
canary. -/
theorem canary_dispatch (s : Shape) (m_log : List Kind) :
    Shape.accept Canary.visitor s m_log = Canary.accept s m_log := by
  cases s with
  | circle c => rfl
  | triangle t => rfl
  | rectangle r => rfl
  | drawing d => rw [Canary.accept]; rfl

end Shape4

namespace Shape8

mutual
theorem canary_visit_kinds {F C : Type} : ∀ (depth : Nat) (t : Sfml.Shape F C)
    (m_log : List Kind),
    Canary.visit t m_log = m_log ++ (Sfml.Shape.nodes depth t).map (fun p => p.2.kind)
  | depth, .circle s, m_log => rfl
  | depth, .triangle s, m_log => rfl
  | depth, .rectangle s, m_log => rfl
  | depth, .drawing d, m_log => by
    rw [Canary.visit, canary_composite_kinds (depth + 1) d, Sfml.Shape.nodes]
    simp [Sfml.Node.kind]
theorem canary_composite_kinds {F C : Type} : ∀ (depth : Nat) (d : List (Sfml.Shape F C))
    (m_log : List Kind),
    Canary.accept d m_log = m_log ++ (Sfml.Drawing.nodes depth d).map (fun p => p.2.kind)
  | depth, [], m_log => by simp [Canary.accept, Sfml.Drawing.nodes]
  | depth, s :: rest, m_log => by
    rw [Canary.accept, canary_visit_kinds depth s, canary_composite_kinds depth rest,
      Sfml.Drawing.nodes]
    simp
end

/-- The call `std::visit(canary, s)` is the run of the canary, and leaves the node as it
was. -/
theorem canary_visit_dispatch {F C : Type} (t : Sfml.Shape F C) (m_log : List Kind) :
    visit Canary.callable t m_log = (t, Canary.visit t m_log) := by
  cases t with
  | circle s => rfl
  | triangle s => rfl
  | rectangle s => rfl
  | drawing d => rw [Canary.visit]; rfl

/-- The general `Composite::accept` run with the canary is the instance for the canary, and
leaves the children as they were. -/
theorem canary_accept_eq_composite {F C : Type} : ∀ (d : List (Sfml.Shape F C))
    (m_log : List Kind),
    Composite.accept (visit Canary.callable) d m_log = (d, Canary.accept d m_log)
  | [], m_log => rfl
  | s :: rest, m_log => by
    rw [Composite.accept, Canary.accept]
    simp only [canary_visit_dispatch, canary_accept_eq_composite rest]

end Shape8

/-- C19: for every shape tree, dispatching the canary operation (one handler per kind that
records the kind it was called for, the `Drawing` handler then recursing into its children)
records exactly the kinds of all nodes in pre-order, children in insertion order: every node
reaches the handler of its own kind, once. This holds for the double dispatch through
`Shape::accept` and `Visitor::visit` of `shape4.cc`, and for `std::visit` with
`Composite::accept` of `shape8.cc`, where a `Triangle`, which derives from `Circle`, reaches
the handler for `Triangle`. -/
theorem C19_canary_dispatch (s : Shape) (m_log : List Kind) :
    Shape4.Shape.accept Shape4.Canary.visitor s m_log = m_log ++ Shape.kinds s
    ∧ (∀ (σ : Type) (visitor : Shape4.Visitor σ) (st : σ),
        (∀ c, Shape4.Shape.accept visitor (.circle c) st = visitor.visitCircle c st)
        ∧ (∀ t, Shape4.Shape.accept visitor (.triangle t) st = visitor.visitTriangle t st)
        ∧ (∀ r, Shape4.Shape.accept visitor (.rectangle r) st = visitor.visitRectangle r st)
        ∧ (∀ d, Shape4.Shape.accept visitor (.drawing d) st = visitor.visitDrawing d st))
    ∧ (∀ (F C : Type) (t : Sfml.Shape F C),
        Shape8.visit Shape8.Canary.callable t m_log
          = (t, m_log ++ (Sfml.Shape.nodes 0 t).map (fun p => p.2.kind)))
    ∧ (∀ (F C : Type) (d : List (Sfml.Shape F C)),
        Shape8.Composite.accept (Shape8.visit Shape8.Canary.callable) d m_log
          = (d, m_log ++ (Sfml.Drawing.nodes 0 d).map (fun p => p.2.kind)))
    ∧ (∀ (F C V : Type) (visitor : Shape8.Callable F C V) (v : V),
        (∀ c, Shape8.visit visitor (.circle c) v
            = (.circle (visitor.callCircle c v).1, (visitor.callCircle c v).2))
        ∧ (∀ t, Shape8.visit visitor (.triangle t) v
            = (.triangle (visitor.callTriangle t v).1, (visitor.callTriangle t v).2))
        ∧ (∀ r, Shape8.visit visitor (.rectangle r) v
            = (.rectangle (visitor.callRectangle r v).1, (visitor.callRectangle r v).2))
        ∧ (∀ d, Shape8.visit visitor (.drawing d) v
            = (.drawing (visitor.callDrawing d v).1, (visitor.callDrawing d v).2)))
    ∧ (∀ (F C : Type) (tr : Sfml.Triangle F C),
        Shape8.visit Shape8.Canary.callable (.triangle tr) m_log
          = (.triangle tr, m_log ++ [Kind.triangle])) := by
  refine ⟨?_, fun σ visitor st => ⟨fun _ => rfl, fun _ => rfl, fun _ => rfl, fun _ => rfl⟩,
    fun F C t => ?_, fun F C d => ?_,
    fun F C V visitor v => ⟨fun _ => rfl, fun _ => rfl, fun _ => rfl, fun _ => rfl⟩,
    fun F C tr => rfl⟩
  · rw [Shape4.canary_dispatch, Shape4.canary_accept_kinds]
  · rw [Shape8.canary_visit_dispatch, Shape8.canary_visit_kinds 0]
  · rw [Shape8.canary_accept_eq_composite, Shape8.canary_composite_kinds 0]

/-! ## Serializing twice -/

namespace Shape5

mutual
theorem draw_shape_eq_shape1 : ∀ (s : Shape) (os : String),
    Shape.draw s os = Shape1.Shape.draw s os
  | .circle c, os => rfl
  | .triangle t, os => rfl
  | .rectangle r, os => rfl
  | .drawing d, os => by
    rw [Shape.draw, Shape1.Shape.draw, draw_drawing_eq_shape1 d]
theorem draw_drawing_eq_shape1 : ∀ (d : List Shape) (os : String),
    Drawing.draw d os = Shape1.Drawing.draw d os
  | [], os => rfl
  | s :: rest, os => by
    rw [Drawing.draw, Shape1.Drawing.draw, draw_shape_eq_shape1 s, draw_drawing_eq_shape1 rest]
end

end Shape5

/-- C20: serialization is a pure function of the tree. For every shape tree, running `draw`,
`ToJSON` or `ToYAML` twice in succession from the initial state of the program (nothing
written, indent counter 0) writes the same text both times, the counter is 0 after each run
of `ToYAML`, and the tree is the same after each run as before it. -/
theorem C20_serialization_pure (d : List Shape) :
    ((Shape6.Program.draw (Shape6.Program.draw ⟨d, "", 0⟩)).cout
        = (Shape6.Program.draw ⟨d, "", 0⟩).cout ++ (Shape6.Program.draw ⟨d, "", 0⟩).cout
      ∧ (Shape6.Program.draw ⟨d, "", 0⟩).d = d
      ∧ (Shape6.Program.draw (Shape6.Program.draw ⟨d, "", 0⟩)).d = d)
    ∧ ((Shape6.Program.json (Shape6.Program.json ⟨d, "", 0⟩)).cout
        = (Shape6.Program.json ⟨d, "", 0⟩).cout ++ (Shape6.Program.json ⟨d, "", 0⟩).cout
      ∧ (Shape6.Program.json ⟨d, "", 0⟩).d = d
      ∧ (Shape6.Program.json (Shape6.Program.json ⟨d, "", 0⟩)).d = d)
    ∧ ((Shape6.Program.yaml (Shape6.Program.yaml ⟨d, "", 0⟩)).cout
        = (Shape6.Program.yaml ⟨d, "", 0⟩).cout ++ (Shape6.Program.yaml ⟨d, "", 0⟩).cout
      ∧ (Shape6.Program.yaml ⟨d, "", 0⟩).m_ilevel = 0
      ∧ (Shape6.Program.yaml (Shape6.Program.yaml ⟨d, "", 0⟩)).m_ilevel = 0
      ∧ (Shape6.Program.yaml ⟨d, "", 0⟩).d = d
      ∧ (Shape6.Program.yaml (Shape6.Program.yaml ⟨d, "", 0⟩)).d = d)
    ∧ (∀ p : Shape6.Program, p.draw.d = p.d ∧ p.json.d = p.d ∧ p.yaml.d = p.d) := by
  have hy : ∀ os : String, Shape6.ToYAML.callDrawing d ⟨os, 0⟩
      = ⟨os ++ (Shape6.ToYAML.callDrawing d ⟨"", 0⟩).os, 0⟩ := by
    intro os
    rw [Shape6.toYAML_callDrawing_eq, Shape6.toYAML_callDrawing_eq,
      Shape3.toYAML_drawing_eq d os 0 (le_refl _), Shape3.toYAML_drawing_eq d "" 0 (le_refl _)]
    simp [String.append_assoc]
  have hj : ∀ os : String, Shape6.ToJSON.callDrawing d os
      = os ++ Shape6.ToJSON.callDrawing d "" := by
    intro os
    rw [Shape6.toJSON_callDrawing_eq, Shape6.toJSON_callDrawing_eq,
      ← Shape2.toJSON_dispatch_drawing, ← Shape2.toJSON_dispatch_drawing,
      Shape2.toJSON_shape_append]
  have hd : ∀ os : String, Shape5.Drawing.draw d os = os ++ Shape5.Drawing.draw d "" := by
    intro os
    rw [Shape5.draw_drawing_eq_shape1, Shape5.draw_drawing_eq_shape1,
      Shape1.draw_drawing_eq d os, Shape1.draw_drawing_eq d ""]
    simp
  have h0 : (Shape6.ToYAML.callDrawing d ⟨"", 0⟩).m_ilevel = 0 := by
    rw [Shape6.toYAML_callDrawing_eq, Shape3.toYAML_drawing_eq d "" 0 (le_refl _)]
  refine ⟨⟨?_, rfl, rfl⟩, ⟨?_, rfl, rfl⟩, ⟨?_, h0, ?_, rfl, rfl⟩, fun p => ⟨rfl, rfl, rfl⟩⟩
  · simp only [Shape6.Program.draw]
    exact hd _
  · simp only [Shape6.Program.json]
    exact hj _
  · simp only [Shape6.Program.yaml]
    rw [h0, hy]
  · simp only [Shape6.Program.yaml]
    rw [h0, hy]

/-! ## Drawing after an addition, and the two `draw` implementations -/

namespace Shape1

theorem draw_drawing_append : ∀ (cs : List Shape) (n : Shape) (os : String),
    Drawing.draw (cs ++ [n]) os = Shape.draw n (Drawing.draw cs os)
  | [], n, os => rfl
  | s :: rest, n, os => by
    rw [List.cons_append, Drawing.draw, Drawing.draw, draw_drawing_append rest n]

end Shape1

namespace Shape5

theorem draw_variant_append : ∀ (cs : List Shape) (n : Shape) (os : String),
    Drawing.draw (cs ++ [n]) os = Shape.draw n (Drawing.draw cs os)
  | [], n, os => rfl
  | s :: rest, n, os => by
    rw [List.cons_append, Drawing.draw, Drawing.draw, draw_variant_append rest n]

end Shape5

/-- C23: traversal order is insertion order. For every `Drawing` with child sequence `cs` and
every node `n`, a primitive or a drawing, the text `draw` writes for the drawing once `n` is
its last child is the text it wrote before, followed by the text `draw` writes for `n`. This
holds for a node just added with `add<K>(a)` and for any node at the end of the sequence (a
nested drawing filled later through the reference `add` returned), in `shape1.cc` and in
`shape5.cc`. -/
theorem C23_draw_after_add (cs : List Shape) (os : String) :
    (∀ call : AddCall,
        Shape1.Drawing.draw (Shape1.Drawing.add call cs).1 os
          = Shape1.Drawing.draw cs os ++ Shape1.Shape.draw call.construct ""
        ∧ Shape5.Drawing.draw (Shape5.Drawing.add call cs).1 os
          = Shape5.Drawing.draw cs os ++ Shape5.Shape.draw call.construct "")
    ∧ (∀ n : Shape,
        Shape1.Drawing.draw (cs ++ [n]) os
          = Shape1.Drawing.draw cs os ++ Shape1.Shape.draw n ""
        ∧ Shape5.Drawing.draw (cs ++ [n]) os
          = Shape5.Drawing.draw cs os ++ Shape5.Shape.draw n "") := by
  have h1 : ∀ n : Shape, Shape1.Drawing.draw (cs ++ [n]) os
      = Shape1.Drawing.draw cs os ++ Shape1.Shape.draw n "" := by
    intro n
    rw [Shape1.draw_drawing_append, Shape1.draw_shape_eq n (Shape1.Drawing.draw cs os),
      Shape1.draw_shape_eq n ""]
    simp
  have h5 : ∀ n : Shape, Shape5.Drawing.draw (cs ++ [n]) os
      = Shape5.Drawing.draw cs os ++ Shape5.Shape.draw n "" := by
    intro n
    rw [Shape5.draw_drawing_eq_shape1, Shape5.draw_drawing_eq_shape1,
      Shape5.draw_shape_eq_shape1]
    exact h1 n
  exact ⟨fun call => ⟨h1 call.construct, h5 call.construct⟩, fun n => ⟨h1 n, h5 n⟩⟩

/-- C24: for every shape tree and every stream, `draw` by virtual dispatch on the base class
`Shape` (`shape1.cc`) and `draw` by `std::visit` over the variant (`shape5.cc`) write the same
text, for a node and for a `Drawing`. -/
theorem C24_draw_virtual_vs_variant (s : Shape) (os : String) :
    Shape5.Shape.draw s os = Shape1.Shape.draw s os
    ∧ (∀ d : List Shape, Shape5.Drawing.draw d os = Shape1.Drawing.draw d os) :=
  ⟨Shape5.draw_shape_eq_shape1 s os, fun d => Shape5.draw_drawing_eq_shape1 d os⟩

/-! ## `FillColor` twice, and `Composite` against the `Drawing` of `shape7.cc` -/

namespace Shape7

mutual
theorem fill_fill_visit {F C : Type} (c1 c2 : C) : ∀ t : Sfml.Shape F C,
    FillColor.visit ⟨c2⟩ (FillColor.visit ⟨c1⟩ t) = FillColor.visit ⟨c2⟩ t
  | .circle s => rfl
  | .triangle s => rfl
  | .rectangle s => rfl
  | .drawing d => by
    rw [FillColor.visit, FillColor.visit, FillColor.visit, fill_fill_callDrawing c1 c2 d]
theorem fill_fill_callDrawing {F C : Type} (c1 c2 : C) : ∀ d : List (Sfml.Shape F C),
    FillColor.callDrawing ⟨c2⟩ (FillColor.callDrawing ⟨c1⟩ d) = FillColor.callDrawing ⟨c2⟩ d
  | [] => rfl
  | s :: rest => by
    rw [FillColor.callDrawing, FillColor.callDrawing, FillColor.callDrawing,
      fill_fill_visit c1 c2 s, fill_fill_callDrawing c1 c2 rest]
end

end Shape7

namespace Shape8

/-- The general `Composite::accept` visits the children one after the other from the first:
the visitor a child is visited with is the one the children before it have left. -/
theorem composite_accept_cons {F C V : Type}
    (visit : Sfml.Shape F C → V → Sfml.Shape F C × V) (s : Sfml.Shape F C)
    (rest : List (Sfml.Shape F C)) (v : V) :
    Composite.accept visit (s :: rest) v
      = ((visit s v).1 :: (Composite.accept visit rest (visit s v).2).1,
          (Composite.accept visit rest (visit s v).2).2) := by
  rw [Composite.accept]

/-- The general `Composite::accept` run with a visitor that only records the node it is
called for: the record is the child sequence itself. -/
theorem composite_accept_record {F C : Type} : ∀ (d : List (Sfml.Shape F C))
    (seen : List (Sfml.Shape F C)),
    Composite.accept (fun s seen => (s, seen ++ [s])) d seen = (d, seen ++ d)
  | [], seen => by simp [Composite.accept]
  | s :: rest, seen => by
    rw [composite_accept_cons, composite_accept_record rest]
    simp

/-- The general `Composite::accept` changes each child by the visit of that child alone, and
keeps the number of children. -/
theorem composite_accept_map {F C : Type} (f : Sfml.Shape F C → Sfml.Shape F C) :
    ∀ (d : List (Sfml.Shape F C)) (n : Nat),
      Composite.accept (fun s (n : Nat) => (f s, n + 1)) d n = (d.map f, n + d.length)
  | [], n => by simp [Composite.accept]
  | s :: rest, n => by
    rw [composite_accept_cons, composite_accept_map f rest]
    simp only [List.map_cons, List.length_cons, Prod.mk.injEq, true_and]
    omega

end Shape8

/-- C27: `FillColor` is last-writer-wins and idempotent. For every shape tree and colours
`c1`, `c2`, `FillColor(c1)` followed by `FillColor(c2)` yields the same tree as
`FillColor(c2)` alone, and `FillColor(c)` applied twice yields the same tree as applied once.
This holds for `shape7.cc` and `shape8.cc`. -/
theorem C27_fill_last_writer_wins {F C : Type} (c1 c2 : C) (t : Sfml.Shape F C) :
    Shape7.FillColor.visit ⟨c2⟩ (Shape7.FillColor.visit ⟨c1⟩ t) = Shape7.FillColor.visit ⟨c2⟩ t
    ∧ Shape7.FillColor.visit ⟨c2⟩ (Shape7.FillColor.visit ⟨c2⟩ t)
        = Shape7.FillColor.visit ⟨c2⟩ t
    ∧ Shape8.FillColor.visit ⟨c2⟩ (Shape8.FillColor.visit ⟨c1⟩ t)
        = Shape8.FillColor.visit ⟨c2⟩ t
    ∧ Shape8.FillColor.visit ⟨c2⟩ (Shape8.FillColor.visit ⟨c2⟩ t)
        = Shape8.FillColor.visit ⟨c2⟩ t := by
  refine ⟨Shape7.fill_fill_visit c1 c2 t, Shape7.fill_fill_visit c2 c2 t, ?_, ?_⟩
  · rw [Shape8.fill_visit_eq_shape7, Shape8.fill_visit_eq_shape7, Shape8.fill_visit_eq_shape7]
    exact Shape7.fill_fill_visit c1 c2 t
  · rw [Shape8.fill_visit_eq_shape7, Shape8.fill_visit_eq_shape7]
    exact Shape7.fill_fill_visit c2 c2 t

/-- C28: the class template `Composite` of `shape8.cc` is a faithful refactoring of the
`Drawing` of `shape7.cc`. `Composite::accept` applies the visitor to each direct child exactly
once, in insertion order, and does not descend further itself: run with a visitor that only
records the node it is called for, it records the child sequence; run with a visitor that
changes a node by `f` and counts its calls, it yields the children changed by `f` one by one
and as many calls as there are children. For every shape tree, ratio and colour, `Scale` and
`FillColor` written against `Composite::accept` (`shape8.cc`) yield the same tree as the ones
that loop over the children with `std::visit` (`shape7.cc`); their instances of
`Composite::accept` are the general one. -/
theorem C28_composite_refactoring {F C : Type} (mul : F → F → F) (r : F) (c : C)
    (t : Sfml.Shape F C) :
    Shape8.Scale.visit mul ⟨r⟩ t = Shape7.Scale.visit mul ⟨r⟩ t
    ∧ Shape8.FillColor.visit ⟨c⟩ t = Shape7.FillColor.visit ⟨c⟩ t
    ∧ (∀ d : List (Sfml.Shape F C),
        Shape8.Scale.callDrawing mul ⟨r⟩ d = Shape7.Scale.callDrawing mul ⟨r⟩ d
        ∧ Shape8.FillColor.callDrawing ⟨c⟩ d = Shape7.FillColor.callDrawing ⟨c⟩ d
        ∧ Shape8.Composite.accept (fun s (v : Shape8.Scale F) => (Shape8.Scale.visit mul v s, v))
              d ⟨r⟩
            = (Shape8.Scale.accept mul ⟨r⟩ d, ⟨r⟩)
        ∧ Shape8.Composite.accept
              (fun s (v : Shape8.FillColor C) => (Shape8.FillColor.visit v s, v)) d ⟨c⟩
            = (Shape8.FillColor.accept ⟨c⟩ d, ⟨c⟩)
        ∧ Shape8.Composite.accept (fun s seen => (s, seen ++ [s])) d [] = (d, d)
        ∧ (∀ f : Sfml.Shape F C → Sfml.Shape F C,
            Shape8.Composite.accept (fun s (n : Nat) => (f s, n + 1)) d 0
              = (d.map f, d.length))) := by
  refine ⟨Shape8.scale_visit_eq_shape7 mul r t, Shape8.fill_visit_eq_shape7 c t, fun d =>
    ⟨Shape8.scale_accept_eq_shape7 mul r d, Shape8.fill_accept_eq_shape7 c d,
      Shape8.scale_accept_eq_composite mul ⟨r⟩ d, Shape8.fill_accept_eq_composite ⟨c⟩ d, ?_,
      fun f => ?_⟩⟩
  · rw [Shape8.composite_accept_record]; simp
  · rw [Shape8.composite_accept_map]; simp

/-! ## Termination: the recursion is on the children -/

theorem Drawing.size_mem : ∀ (cs : List Shape) (c : Shape), c ∈ cs →
    Shape.size c ≤ Drawing.size cs
  | [], c, h => by simp at h
  | s :: rest, c, h => by
    rw [Drawing.size]
    rcases List.mem_cons.mp h with h | h
    · subst h; omega
    · have := Drawing.size_mem rest c h
      omega

theorem Sfml.Drawing.size_mem_sfml {F C : Type} : ∀ (cs : List (Sfml.Shape F C))
    (c : Sfml.Shape F C), c ∈ cs → Sfml.Shape.size c ≤ Sfml.Drawing.size cs
  | [], c, h => by simp at h
  | s :: rest, c, h => by
    rw [Sfml.Drawing.size]
    rcases List.mem_cons.mp h with h | h
    · subst h; omega
    · have := Sfml.Drawing.size_mem_sfml rest c h
      omega

theorem Shape1.draw_drawing_foldl : ∀ (cs : List Shape) (os : String),
    Shape1.Drawing.draw cs os = cs.foldl (fun os c => Shape1.Shape.draw c os) os
  | [], os => rfl
  | s :: rest, os => by
    rw [Shape1.Drawing.draw, List.foldl_cons, Shape1.draw_drawing_foldl rest]

theorem Shape6.toJSON_loop_foldl : ∀ (cs : List Shape) (p m_os : String),
    Shape6.ToJSON.callDrawing.loop cs p m_os
      = (cs.foldl (fun (acc : String × String) c =>
          (",\n", Shape6.ToJSON.visit c (acc.2 ++ acc.1))) (p, m_os)).2
  | [], p, m_os => rfl
  | s :: rest, p, m_os => by
    rw [Shape6.ToJSON.callDrawing.loop, List.foldl_cons, Shape6.toJSON_loop_foldl rest]

theorem Shape6.toYAML_loop_foldl (ind : Indenter) : ∀ (cs : List Shape) (st : State),
    Shape6.ToYAML.callDrawing.loop ind cs st
      = cs.foldl (fun st c => Shape6.ToYAML.visit c (put "- " (ind.put st))) st
  | [], st => rfl
  | s :: rest, st => by
    rw [Shape6.ToYAML.callDrawing.loop, List.foldl_cons, Shape6.toYAML_loop_foldl ind rest]

theorem Shape7.scale_callDrawing_map {F C : Type} (mul : F → F → F) (self : Shape7.Scale F) :
    ∀ cs : List (Sfml.Shape F C),
      Shape7.Scale.callDrawing mul self cs = cs.map (Shape7.Scale.visit mul self)
  | [] => rfl
  | s :: rest => by
    rw [Shape7.Scale.callDrawing, List.map_cons, Shape7.scale_callDrawing_map mul self rest]

theorem Shape7.fill_callDrawing_map {F C : Type} (self : Shape7.FillColor C) :
    ∀ cs : List (Sfml.Shape F C),
      Shape7.FillColor.callDrawing self cs = cs.map (Shape7.FillColor.visit self)
  | [] => rfl
  | s :: rest => by
    rw [Shape7.FillColor.callDrawing, List.map_cons, Shape7.fill_callDrawing_map self rest]

theorem Shape8.scale_accept_map {F C : Type} (mul : F → F → F) (self : Shape8.Scale F) :
    ∀ cs : List (Sfml.Shape F C),
      Shape8.Scale.accept mul self cs = cs.map (Shape8.Scale.visit mul self)
  | [] => rfl
  | s :: rest => by
    rw [Shape8.Scale.accept, List.map_cons, Shape8.scale_accept_map mul self rest]

theorem Shape8.fill_accept_map {F C : Type} (self : Shape8.FillColor C) :
    ∀ cs : List (Sfml.Shape F C),
      Shape8.FillColor.accept self cs = cs.map (Shape8.FillColor.visit self)
  | [] => rfl
  | s :: rest => by
    rw [Shape8.FillColor.accept, List.map_cons, Shape8.fill_accept_map self rest]

/-- C21: every traversal is a total function of the tree, and its recursion into a `Drawing`
is only on the children, which are strictly smaller sub-trees. What `draw`, `ToJSON` and
`ToYAML` do on a drawing is a fold of what they do on its children, in order; what `Scale`
and `FillColor` do on a drawing is what they do on each child; and every child of a drawing
has fewer nodes than the drawing. -/
theorem C21_traversals_recurse_on_children (cs : List Shape) :
    (∀ os : String,
        Shape1.Shape.draw (.drawing cs) os
          = cs.foldl (fun os c => Shape1.Shape.draw c os) os)
    ∧ (∀ m_os : String,
        Shape6.ToJSON.visit (.drawing cs) m_os
          = (cs.foldl (fun (acc : String × String) c =>
              (",\n", Shape6.ToJSON.visit c (acc.2 ++ acc.1)))
              ("", m_os ++ "\"drawing\": [\n")).2 ++ "]\n")
    ∧ (∀ st : State,
        Shape6.ToYAML.visit (.drawing cs) st
          = Indenter.destruct ⟨2⟩
              (cs.foldl (fun st c => Shape6.ToYAML.visit c (put "- " (Indenter.put ⟨2⟩ st)))
                (put "drawing:\n" (Indenter.construct ⟨2⟩ st))))
    ∧ (∀ c : Shape, c ∈ cs → Shape.size c < Shape.size (.drawing cs))
    ∧ (∀ (F C : Type) (mul : F → F → F) (r : F) (color : C) (ts : List (Sfml.Shape F C)),
        Shape7.Scale.visit mul ⟨r⟩ (.drawing ts)
            = .drawing (ts.map (Shape7.Scale.visit mul ⟨r⟩))
        ∧ Shape7.FillColor.visit ⟨color⟩ (.drawing ts)
            = .drawing (ts.map (Shape7.FillColor.visit ⟨color⟩))
        ∧ Shape8.Scale.visit mul ⟨r⟩ (.drawing ts)
            = .drawing (ts.map (Shape8.Scale.visit mul ⟨r⟩))
        ∧ Shape8.FillColor.visit ⟨color⟩ (.drawing ts)
            = .drawing (ts.map (Shape8.FillColor.visit ⟨color⟩))
        ∧ (∀ c : Sfml.Shape F C, c ∈ ts →
            Sfml.Shape.size c < Sfml.Shape.size (Sfml.Shape.drawing ts))) := by
  refine ⟨fun os => ?_, fun m_os => ?_, fun st => ?_, fun c hc => ?_,
    fun F C mul r color ts => ⟨?_, ?_, ?_, ?_, fun c hc => ?_⟩⟩
  · rw [Shape1.Shape.draw, Shape1.draw_drawing_foldl]
  · rw [Shape6.ToJSON.visit, Shape6.toJSON_loop_foldl]
  · rw [Shape6.ToYAML.visit, Shape6.toYAML_loop_foldl]
  · have := Drawing.size_mem cs c hc
    rw [Shape.size.eq_4]
    omega
  · rw [Shape7.Scale.visit, Shape7.scale_callDrawing_map]
  · rw [Shape7.FillColor.visit, Shape7.fill_callDrawing_map]
  · rw [Shape8.Scale.visit, Shape8.scale_accept_map]
  · rw [Shape8.FillColor.visit, Shape8.fill_accept_map]
  · have := Sfml.Drawing.size_mem_sfml ts c hc
    rw [Sfml.Shape.size.eq_4]
    omega

/-! ## The shared counter against an explicit depth -/

theorem Indenter.spaces_natCast (n : Nat) :
    Indenter.spaces ((n : Int) + 2) = String.mk (List.replicate (n + 2) ' ') := by
  have : ((n : Int) + 2).toNat = n + 2 := by omega
  rw [Indenter.spaces, this]

theorem yamlField_name_x (rest : String) : "- " ++ ("x" ++ (": " ++ rest)) = "- x: " ++ rest := by
  rw [← String.append_assoc, ← String.append_assoc]; rfl

theorem yamlField_name_y (rest : String) : "- " ++ ("y" ++ (": " ++ rest)) = "- y: " ++ rest := by
  rw [← String.append_assoc, ← String.append_assoc]; rfl

theorem yamlField_name_radius (rest : String) :
    "- " ++ ("radius" ++ (": " ++ rest)) = "- radius: " ++ rest := by
  rw [← String.append_assoc, ← String.append_assoc]; rfl

theorem yamlField_name_len (rest : String) :
    "- " ++ ("len" ++ (": " ++ rest)) = "- len: " ++ rest := by
  rw [← String.append_assoc, ← String.append_assoc]; rfl

theorem yamlField_name_w (rest : String) : "- " ++ ("w" ++ (": " ++ rest)) = "- w: " ++ rest := by
  rw [← String.append_assoc, ← String.append_assoc]; rfl

theorem yamlField_name_h (rest : String) : "- " ++ ("h" ++ (": " ++ rest)) = "- h: " ++ rest := by
  rw [← String.append_assoc, ← String.append_assoc]; rfl

namespace Shape3

mutual
theorem toYAML_shape_yaml : ∀ (s : Shape) (L : Nat),
    (Shape.toYAML s ⟨"", (L : Int)⟩).os = yaml L s
  | .circle c, L => by
    simp only [yaml, yamlHeader, yamlFields, yamlFieldLine, Shape.toYAML, Circle.toYAML, put,
      putInt, Indenter.construct, Indenter.destruct, Indenter.put, Indenter.spaces_natCast,
      String.append_assoc, String.empty_append, String.append_empty,
      yamlField_name_x, yamlField_name_y, yamlField_name_radius]
  | .triangle c, L => by
    simp only [yaml, yamlHeader, yamlFields, yamlFieldLine, Shape.toYAML, Triangle.toYAML, put,
      putInt, Indenter.construct, Indenter.destruct, Indenter.put, Indenter.spaces_natCast,
      String.append_assoc, String.empty_append, String.append_empty,
      yamlField_name_x, yamlField_name_y, yamlField_name_len]
  | .rectangle c, L => by
    simp only [yaml, yamlHeader, yamlFields, yamlFieldLine, Shape.toYAML, Rectangle.toYAML, put,
      putInt, Indenter.construct, Indenter.destruct, Indenter.put, Indenter.spaces_natCast,
      String.append_assoc, String.empty_append, String.append_empty,
      yamlField_name_x, yamlField_name_y, yamlField_name_w, yamlField_name_h]
  | .drawing cs, L => by
    rw [toYAML_drawing_unfold, toYAML_loop_eq cs _ ((L : Int) + 2) (by omega),
      Indenter.destruct_construct _ (L : Int) (by omega), yaml, toYAML_children_yaml cs L]
    simp only [String.empty_append]
theorem toYAML_children_yaml : ∀ (cs : List Shape) (L : Nat),
    String.join (cs.map (fun c =>
        Indenter.spaces ((L : Int) + 2) ++ "- " ++ (Shape.toYAML c ⟨"", (L : Int) + 2⟩).os))
      = yamlChildren L cs
  | [], L => by simp [yamlChildren, join_nil]
  | c :: rest, L => by
    have h := toYAML_shape_yaml c (L + 2)
    rw [Nat.cast_add] at h
    rw [List.map_cons, join_cons, toYAML_children_yaml rest L, yamlChildren,
      Indenter.spaces_natCast]
    simp only [Nat.cast_ofNat] at h
    rw [h]
end

end Shape3

set_option maxRecDepth 100000 in
/-- C22: the `ToYAML` that uses the shared counter `Indenter::m_ilevel` is equivalent to the
version with an explicit depth. For every shape tree and every non-negative value `L` of the
counter at the start, the text `ToYAML` appends is `yaml L node`, where the depth is a
parameter, and the counter is `L` again at the end; this holds for the virtual `toYAML`
of `shape3.cc`, for a node and for a `Drawing`. On the tree of the scenario `yaml 0` gives
the text with the indents 2, 4 and 6. -/
theorem C22_toYAML_explicit_depth (s : Shape) (os : String) (L : Nat) :
    Shape3.Shape.toYAML s ⟨os, (L : Int)⟩ = ⟨os ++ yaml L s, (L : Int)⟩
    ∧ (∀ cs : List Shape,
        Shape3.Drawing.toYAML cs ⟨os, (L : Int)⟩ = ⟨os ++ yaml L (.drawing cs), (L : Int)⟩)
    ∧ yaml 0 (.drawing scenarioTree)
        = "drawing:\n  - circle:\n    - x: 100\n    - y: 100\n    - radius: 50\n  - triangle:\n    - x: 100\n    - y: 200\n    - len: 40\n  - drawing:\n    - rectangle: \n      - x: 50\n      - y: 50\n      - w: 25\n      - h: 50\n    - rectangle: \n      - x: 75\n      - y: 75\n      - w: 25\n      - h: 50\n" := by
  have h : ∀ t : Shape, Shape3.Shape.toYAML t ⟨os, (L : Int)⟩ = ⟨os ++ yaml L t, (L : Int)⟩ := by
    intro t
    rw [Shape3.toYAML_shape_append t os (L : Int) (by omega), Shape3.toYAML_shape_yaml]
  refine ⟨h s, fun cs => ?_, by decide⟩
  rw [← Shape3.toYAML_dispatch_drawing]
  exact h (.drawing cs)

/-! ## The counter during a run of `toYAML` -/

/-- The record of a run is in order for the counter value `L`: the counter is `L`, every value
recorded is non-negative and even, and the clamping branch has not been taken. -/
theorem Traced.step_keeps (f : State → State) (hf : ∀ st, (f st).m_ilevel = st.m_ilevel)
    (t : Traced) (L : Int) (hL : 0 ≤ L ∧ L % 2 = 0)
    (h : t.st.m_ilevel = L ∧ (∀ v ∈ t.levels, 0 ≤ v ∧ v % 2 = 0) ∧ t.clamped = false) :
    (Traced.step f t).st.m_ilevel = L
      ∧ (∀ v ∈ (Traced.step f t).levels, 0 ≤ v ∧ v % 2 = 0)
      ∧ (Traced.step f t).clamped = false := by
  refine ⟨by rw [Traced.step, hf, h.1], ?_, h.2.2⟩
  intro v hv
  simp only [Traced.step, List.mem_append, List.mem_singleton] at hv
  rcases hv with hv | hv
  · exact h.2.1 v hv
  · rw [hv, hf, h.1]; exact hL

theorem Traced.step_construct (t : Traced) (L : Int) (hL : 0 ≤ L ∧ L % 2 = 0)
    (h : t.st.m_ilevel = L ∧ (∀ v ∈ t.levels, 0 ≤ v ∧ v % 2 = 0) ∧ t.clamped = false) :
    (Traced.step (Indenter.construct ⟨2⟩) t).st.m_ilevel = L + 2
      ∧ (∀ v ∈ (Traced.step (Indenter.construct ⟨2⟩) t).levels, 0 ≤ v ∧ v % 2 = 0)
      ∧ (Traced.step (Indenter.construct ⟨2⟩) t).clamped = false := by
  have hc : (Indenter.construct ⟨2⟩ t.st).m_ilevel = L + 2 := by
    simp only [Indenter.construct, h.1]
  refine ⟨hc, ?_, h.2.2⟩
  intro v hv
  simp only [Traced.step, List.mem_append, List.mem_singleton] at hv
  rcases hv with hv | hv
  · exact h.2.1 v hv
  · rw [hv, hc]; omega

theorem Indenter.destructT_keeps (t : Traced) (L : Int) (hL : 0 ≤ L ∧ L % 2 = 0)
    (h : t.st.m_ilevel = L + 2 ∧ (∀ v ∈ t.levels, 0 ≤ v ∧ v % 2 = 0) ∧ t.clamped = false) :
    (Indenter.destructT ⟨2⟩ t).st.m_ilevel = L
      ∧ (∀ v ∈ (Indenter.destructT ⟨2⟩ t).levels, 0 ≤ v ∧ v % 2 = 0)
      ∧ (Indenter.destructT ⟨2⟩ t).clamped = false := by
  have hd : (Indenter.destruct ⟨2⟩ t.st).m_ilevel = L := by
    simp only [Indenter.destruct, h.1, add_sub_cancel_right, not_lt.mpr hL.1, if_false]
  refine ⟨hd, ?_, ?_⟩
  · intro v hv
    simp only [Indenter.destructT, List.mem_append, List.mem_singleton] at hv
    rcases hv with hv | hv
    · exact h.2.1 v hv
    · rw [hv, hd]; exact hL
  · have : ¬ (t.st.m_ilevel - 2 < 0) := by rw [h.1]; omega
    simp only [Indenter.destructT, h.2.2, this, decide_False, Bool.or_false]

namespace Shape3

theorem circle_toYAMLT_keeps (c : Circle) (t : Traced) (L : Int) (hL : 0 ≤ L ∧ L % 2 = 0)
    (h : t.st.m_ilevel = L ∧ (∀ v ∈ t.levels, 0 ≤ v ∧ v % 2 = 0) ∧ t.clamped = false) :
    (Circle.toYAMLT c t).st.m_ilevel = L
      ∧ (∀ v ∈ (Circle.toYAMLT c t).levels, 0 ≤ v ∧ v % 2 = 0)
      ∧ (Circle.toYAMLT c t).clamped = false := by
  have h2 : 0 ≤ L + 2 ∧ (L + 2) % 2 = 0 := by omega
  apply Indenter.destructT_keeps _ L hL
  iterate 13 apply Traced.step_keeps _ (by intro _; rfl) _ _ h2
  exact Traced.step_construct t L hL h

theorem triangle_toYAMLT_keeps (s : Triangle) (t : Traced) (L : Int)
    (hL : 0 ≤ L ∧ L % 2 = 0)
    (h : t.st.m_ilevel = L ∧ (∀ v ∈ t.levels, 0 ≤ v ∧ v % 2 = 0) ∧ t.clamped = false) :
    (Triangle.toYAMLT s t).st.m_ilevel = L
      ∧ (∀ v ∈ (Triangle.toYAMLT s t).levels, 0 ≤ v ∧ v % 2 = 0)
      ∧ (Triangle.toYAMLT s t).clamped = false := by
  have h2 : 0 ≤ L + 2 ∧ (L + 2) % 2 = 0 := by omega
  apply Indenter.destructT_keeps _ L hL
  iterate 13 apply Traced.step_keeps _ (by intro _; rfl) _ _ h2
  exact Traced.step_construct t L hL h

theorem rectangle_toYAMLT_keeps (r : Rectangle) (t : Traced) (L : Int)
    (hL : 0 ≤ L ∧ L % 2 = 0)
    (h : t.st.m_ilevel = L ∧ (∀ v ∈ t.levels, 0 ≤ v ∧ v % 2 = 0) ∧ t.clamped = false) :
    (Rectangle.toYAMLT r t).st.m_ilevel = L
      ∧ (∀ v ∈ (Rectangle.toYAMLT r t).levels, 0 ≤ v ∧ v % 2 = 0)
      ∧ (Rectangle.toYAMLT r t).clamped = false := by
  have h2 : 0 ≤ L + 2 ∧ (L + 2) % 2 = 0 := by omega
  apply Indenter.destructT_keeps _ L hL
  iterate 17 apply Traced.step_keeps _ (by intro _; rfl) _ _ h2
  exact Traced.step_construct t L hL h

mutual
theorem shape_toYAMLT_keeps : ∀ (s : Shape) (t : Traced) (L : Int), (0 ≤ L ∧ L % 2 = 0) →
    (t.st.m_ilevel = L ∧ (∀ v ∈ t.levels, 0 ≤ v ∧ v % 2 = 0) ∧ t.clamped = false) →
    (Shape.toYAMLT s t).st.m_ilevel = L
      ∧ (∀ v ∈ (Shape.toYAMLT s t).levels, 0 ≤ v ∧ v % 2 = 0)
      ∧ (Shape.toYAMLT s t).clamped = false
  | .circle c, t, L, hL, h => circle_toYAMLT_keeps c t L hL h
  | .triangle s, t, L, hL, h => triangle_toYAMLT_keeps s t L hL h
  | .rectangle r, t, L, hL, h => rectangle_toYAMLT_keeps r t L hL h
  | .drawing d, t, L, hL, h => by
    have h2 : 0 ≤ L + 2 ∧ (L + 2) % 2 = 0 := by omega
    rw [Shape.toYAMLT]
    apply Indenter.destructT_keeps _ L hL
    apply loop_toYAMLT_keeps d _ (L + 2) h2
    apply Traced.step_keeps _ (by intro _; rfl) _ _ h2
    exact Traced.step_construct t L hL h
theorem loop_toYAMLT_keeps : ∀ (d : List Shape) (t : Traced) (L : Int),
    (0 ≤ L ∧ L % 2 = 0) →
    (t.st.m_ilevel = L ∧ (∀ v ∈ t.levels, 0 ≤ v ∧ v % 2 = 0) ∧ t.clamped = false) →
    (Drawing.toYAMLT.loop ⟨2⟩ d t).st.m_ilevel = L
      ∧ (∀ v ∈ (Drawing.toYAMLT.loop ⟨2⟩ d t).levels, 0 ≤ v ∧ v % 2 = 0)
      ∧ (Drawing.toYAMLT.loop ⟨2⟩ d t).clamped = false
  | [], t, L, hL, h => h
  | s :: rest, t, L, hL, h => by
    rw [Drawing.toYAMLT.loop]
    apply loop_toYAMLT_keeps rest _ L hL
    apply shape_toYAMLT_keeps s _ L hL
    apply Traced.step_keeps _ (by intro _; rfl) _ _ hL
    exact Traced.step_keeps _ (by intro _; rfl) _ _ hL h
end

mutual
theorem shape_toYAMLT_state : ∀ (s : Shape) (t : Traced),
    (Shape.toYAMLT s t).st = Shape.toYAML s t.st
  | .circle c, t => rfl
  | .triangle s, t => rfl
  | .rectangle r, t => rfl
  | .drawing d, t => by
    rw [Shape.toYAMLT, Shape.toYAML]
    simp only [Indenter.destructT]
    rw [loop_toYAMLT_state ⟨2⟩ d]
    rfl
theorem loop_toYAMLT_state : ∀ (ind : Indenter) (d : List Shape) (t : Traced),
    (Drawing.toYAMLT.loop ind d t).st = Drawing.toYAML.loop ind d t.st
  | ind, [], t => rfl
  | ind, s :: rest, t => by
    rw [Drawing.toYAMLT.loop, Drawing.toYAML.loop, loop_toYAMLT_state ind rest,
      shape_toYAMLT_state s]
    rfl
end

end Shape3

set_option maxRecDepth 100000 in
/-- C25: in every `toYAML` traversal of a shape tree that starts with `Indenter::m_ilevel`
at 0, the counter is a non-negative even number after every step, and the clamping branch
`if (m_ilevel < 0) m_ilevel = 0;` of the destructor of `Indenter` is never taken. The run
that keeps the record is the run of `toYAML`: it ends in the same state. On the tree of the
scenario the counter goes through 0, 2, 4 and 6 only. -/
theorem C25_counter_even_no_clamp (s : Shape) (os : String) :
    (∀ v ∈ (Shape3.Shape.toYAMLT s ⟨⟨os, 0⟩, [0], false⟩).levels, 0 ≤ v ∧ v % 2 = 0)
    ∧ (Shape3.Shape.toYAMLT s ⟨⟨os, 0⟩, [0], false⟩).clamped = false
    ∧ (Shape3.Shape.toYAMLT s ⟨⟨os, 0⟩, [0], false⟩).st = Shape3.Shape.toYAML s ⟨os, 0⟩
    ∧ (∀ t : Traced, (Shape3.Shape.toYAMLT s t).st = Shape3.Shape.toYAML s t.st)
    ∧ (Shape3.Shape.toYAMLT (.drawing scenarioTree) ⟨⟨"", 0⟩, [0], false⟩).levels.dedup
        = [6, 4, 2, 0] := by
  have h := Shape3.shape_toYAMLT_keeps s ⟨⟨os, 0⟩, [0], false⟩ 0 (by decide)
    ⟨rfl, by intro v hv; simp only [List.mem_singleton] at hv; rw [hv]; decide, rfl⟩
  exact ⟨h.2.1, h.2.2, Shape3.shape_toYAMLT_state s _, Shape3.shape_toYAMLT_state s,
    by decide⟩

/-! ## Where a JSON fragment ends -/

theorem join_map_sep_comm (sep : String) (xs : List String) :
    String.join (xs.map (fun x => sep ++ x)) ++ sep
      = sep ++ String.join (xs.map (fun x => x ++ sep)) := by
  induction xs with
  | nil => simp only [List.map_nil, join_nil, String.empty_append, String.append_empty]
  | cons x xs ih =>
    simp only [List.map_cons, join_cons, String.append_assoc]
    rw [ih]

theorem intercalate_split (sep : String) (a : List String) (c : String) (b : List String) :
    sep.intercalate (a ++ c :: b)
      = String.join (a.map (fun x => x ++ sep)) ++ c
          ++ String.join (b.map (fun x => sep ++ x)) := by
  cases a with
  | nil =>
    simp only [List.nil_append, List.map_nil, join_nil, String.empty_append, intercalate_cons]
  | cons x xs =>
    have key := join_map_sep_comm sep xs
    simp only [List.cons_append, intercalate_cons, List.map_append, join_append,
      List.map_cons, join_cons, String.append_assoc]
    rw [← String.append_assoc (String.join (xs.map (fun x => sep ++ x))) sep, key,
      String.append_assoc]

namespace Shape2

theorem toJSON_drawing_split (a : List Shape) (c : Shape) (b : List Shape) (os : String) :
    Drawing.toJSON (a ++ c :: b) os
      = os ++ "\"drawing\": [\n"
          ++ String.join (a.map (fun x => Shape.toJSON x "" ++ ",\n"))
          ++ Shape.toJSON c ""
          ++ String.join (b.map (fun x => ",\n" ++ Shape.toJSON x ""))
          ++ "]\n" := by
  rw [toJSON_drawing_eq, List.map_append, List.map_cons, intercalate_split, List.map_map,
    List.map_map]
  simp only [String.append_assoc, Function.comp_def]

theorem toJSON_primitive_end (p : Primitive) :
    ∃ pre : String, Shape.toJSON p.toShape "" = pre ++ "\x7d" := by
  have hb : "\n\x7d" = "\n" ++ "\x7d" := by decide
  cases p with
  | circle c =>
    refine ⟨"\"circle\": \x7b\n" ++ "  \"x\": " ++ showInt c.m_x ++ ",\n"
      ++ "  \"y\": " ++ showInt c.m_y ++ ",\n"
      ++ "  \"radius\": " ++ showInt c.m_radius ++ "\n", ?_⟩
    simp only [Primitive.toShape, Shape.toJSON, Circle.toJSON, String.empty_append, hb,
      String.append_assoc]
  | triangle t =>
    refine ⟨"\"triangle\": \x7b\n" ++ "  \"x\": " ++ showInt t.m_x ++ ",\n"
      ++ "  \"y\": " ++ showInt t.m_y ++ ",\n"
      ++ "  \"len\": " ++ showInt t.m_len ++ "\n", ?_⟩
    simp only [Primitive.toShape, Shape.toJSON, Triangle.toJSON, String.empty_append, hb,
      String.append_assoc]
  | rectangle r =>
    refine ⟨"\"rectangle\": \x7b\n" ++ "  \"x\": " ++ showInt r.m_x ++ ",\n"
      ++ "  \"y\": " ++ showInt r.m_y ++ ",\n"
      ++ "  \"w\": " ++ showInt r.m_w ++ ",\n"
      ++ "  \"h\": " ++ showInt r.m_h ++ "\n", ?_⟩
    simp only [Primitive.toShape, Shape.toJSON, Rectangle.toJSON, String.empty_append, hb,
      String.append_assoc]

end Shape2

set_option maxRecDepth 100000 in
/-- C26: the JSON fragment of a Circle, Triangle or Rectangle ends with the closing brace and
no newline after it, and the fragment of a Drawing ends with a closing bracket and a newline.
In the text of a Drawing every child before the last is followed directly by a comma and a
newline and the last child directly by the closing bracket and newline; so a primitive child
is followed directly by `,\n` or `]\n`, and a nested Drawing that has a following sibling
gives the sequence `]\n,\n`. -/
theorem C26_toJSON_fragment_ends (os : String) :
    (∀ p : Primitive, ∃ pre : String, Shape2.Shape.toJSON p.toShape "" = pre ++ "\x7d")
    ∧ (∀ cs : List Shape, ∃ pre : String,
        Shape2.Shape.toJSON (.drawing cs) "" = pre ++ "]\n")
    ∧ (∀ (a : List Shape) (c : Shape) (b : List Shape),
        Shape2.Drawing.toJSON (a ++ c :: b) os
          = os ++ "\"drawing\": [\n"
              ++ String.join (a.map (fun x => Shape2.Shape.toJSON x "" ++ ",\n"))
              ++ Shape2.Shape.toJSON c ""
              ++ String.join (b.map (fun x => ",\n" ++ Shape2.Shape.toJSON x ""))
              ++ "]\n")
    ∧ (∀ (a : List Shape) (p : Primitive) (b : List Shape), ∃ before after : String,
        Shape2.Drawing.toJSON (a ++ p.toShape :: b) os
          = before ++ "\x7d" ++ (if b.isEmpty then "]\n" else ",\n") ++ after
        ∧ before ++ "\x7d"
          = os ++ "\"drawing\": [\n"
              ++ String.join (a.map (fun x => Shape2.Shape.toJSON x "" ++ ",\n"))
              ++ Shape2.Shape.toJSON p.toShape "")
    ∧ (∀ (a cs : List Shape) (y : Shape) (b : List Shape), ∃ before after : String,
        Shape2.Drawing.toJSON (a ++ .drawing cs :: y :: b) os
          = before ++ "]\n,\n" ++ after
        ∧ before ++ "]\n"
          = os ++ "\"drawing\": [\n"
              ++ String.join (a.map (fun x => Shape2.Shape.toJSON x "" ++ ",\n"))
              ++ Shape2.Shape.toJSON (.drawing cs) "")
    ∧ Shape2.Drawing.toJSON [.drawing [], .circle ⟨1, 2, 3⟩] ""
        = "\"drawing\": [\n\"drawing\": [\n]\n,\n\"circle\": \x7b\n  \"x\": 1,\n  \"y\": 2,\n  \"radius\": 3\n\x7d]\n" := by
  have hd : ∀ cs : List Shape, ∃ pre : String,
      Shape2.Shape.toJSON (.drawing cs) "" = pre ++ "]\n" := by
    intro cs
    rw [Shape2.toJSON_dispatch_drawing, Shape2.toJSON_drawing_eq]
    exact ⟨_, rfl⟩
  refine ⟨Shape2.toJSON_primitive_end, hd, ?_, ?_, ?_, by decide⟩
  · intro a c b
    exact Shape2.toJSON_drawing_split a c b os
  · intro a p b
    obtain ⟨pre, hpre⟩ := Shape2.toJSON_primitive_end p
    refine ⟨os ++ "\"drawing\": [\n"
      ++ String.join (a.map (fun x => Shape2.Shape.toJSON x "" ++ ",\n")) ++ pre,
      (match b with
        | [] => ""
        | y :: ys => Shape2.Shape.toJSON y ""
            ++ String.join (ys.map (fun x => ",\n" ++ Shape2.Shape.toJSON x "")) ++ "]\n"),
      ?_, ?_⟩
    · rw [Shape2.toJSON_drawing_split, hpre]
      cases b with
      | nil =>
        simp only [List.map_nil, join_nil, List.isEmpty_nil, if_true,
          String.append_assoc, String.append_empty, String.empty_append]
      | cons y ys =>
        simp only [List.map_cons, join_cons, List.isEmpty_cons, if_false,
          String.append_assoc, Bool.false_eq_true]
    · rw [hpre]; simp only [String.append_assoc]
  · intro a cs y b
    obtain ⟨pre, hpre⟩ := hd cs
    refine ⟨os ++ "\"drawing\": [\n"
      ++ String.join (a.map (fun x => Shape2.Shape.toJSON x "" ++ ",\n")) ++ pre,
      Shape2.Shape.toJSON y ""
        ++ String.join (b.map (fun x => ",\n" ++ Shape2.Shape.toJSON x "")) ++ "]\n", ?_, ?_⟩
    · rw [Shape2.toJSON_drawing_split, hpre]
      simp only [List.map_cons, join_cons, String.append_assoc]
      rfl
    · rw [hpre]; simp only [String.append_assoc]

/-! ## `Scale` twice against `Scale` once with the product of the ratios -/

namespace Shape7

mutual
theorem scale_scale_visit_iff {F C : Type} (mul : F → F → F) (r1 r2 : F) :
    ∀ (depth : Nat) (t : Sfml.Shape F C),
      (Scale.visit mul ⟨r2⟩ (Scale.visit mul ⟨r1⟩ t) = Scale.visit mul ⟨mul r1 r2⟩ t
        ↔ ∀ n ∈ Sfml.Shape.nodes depth t, ∀ x ∈ n.2.sizes,
            mul (mul x r1) r2 = mul x (mul r1 r2))
  | depth, .circle s => by
    simp [Scale.visit, Scale.callCircle, Sfml.Circle.setRadius, Sfml.Circle.getRadius,
      Sfml.Shape.nodes, Sfml.Node.sizes]
  | depth, .triangle s => by
    simp [Scale.visit, Scale.callTriangle, Sfml.Circle.setRadius, Sfml.Circle.getRadius,
      Sfml.Shape.nodes, Sfml.Node.sizes]
  | depth, .rectangle s => by
    simp [Scale.visit, Scale.callRectangle, Sfml.Rectangle.setSize, Sfml.Rectangle.getSize,
      Sfml.Shape.nodes, Sfml.Node.sizes]
  | depth, .drawing d => by
    have h := scale_scale_callDrawing_iff mul r1 r2 (depth + 1) d
    simp only [Scale.visit, Sfml.Shape.drawing.injEq, Sfml.Shape.nodes, List.mem_cons,
      forall_eq_or_imp, Sfml.Node.sizes, List.not_mem_nil, false_imp_iff, implies_true,
      true_and]
    exact h
theorem scale_scale_callDrawing_iff {F C : Type} (mul : F → F → F) (r1 r2 : F) :
    ∀ (depth : Nat) (d : List (Sfml.Shape F C)),
      (Scale.callDrawing mul ⟨r2⟩ (Scale.callDrawing mul ⟨r1⟩ d)
          = Scale.callDrawing mul ⟨mul r1 r2⟩ d
        ↔ ∀ n ∈ Sfml.Drawing.nodes depth d, ∀ x ∈ n.2.sizes,
            mul (mul x r1) r2 = mul x (mul r1 r2))
  | depth, [] => by
    simp [Scale.callDrawing, Sfml.Drawing.nodes]
  | depth, s :: rest => by
    have h1 := scale_scale_visit_iff mul r1 r2 depth s
    have h2 := scale_scale_callDrawing_iff mul r1 r2 depth rest
    simp only [Scale.callDrawing, List.cons.injEq, Sfml.Drawing.nodes, List.mem_append,
      or_imp, forall_and]
    rw [h1, h2]
end

end Shape7

/-- C18, as the claim words it, does not hold for the product of `float`s: the circle of
radius `25.f` scaled by `0.1f` and then by `3.f` has the radius 7.5, and scaled once by the
`float` product of `0.1f` and `3.f` it has the radius 7.50000048 (the next `float` above
7.5), in `shape7.cc` and in `shape8.cc`. So the two trees are not the same for every tree and
all ratios. -/
theorem C18_scale_compose_rounding_fails :
    Shape7.Scale.visit Binary32.mul ⟨Binary32.ofNat 3⟩
        (Shape7.Scale.visit Binary32.mul ⟨Binary32.tenth⟩
          (.circle (Sfml.Circle.construct (Binary32.ofNat 0) Sfml.white (Binary32.ofNat 25) 30)))
      = .circle ⟨⟨false, 15728640, -21⟩, 30, Sfml.white, ⟨Binary32.ofNat 0, Binary32.ofNat 0⟩⟩
    ∧ Shape7.Scale.visit Binary32.mul ⟨Binary32.mul Binary32.tenth (Binary32.ofNat 3)⟩
        (.circle (Sfml.Circle.construct (Binary32.ofNat 0) Sfml.white (Binary32.ofNat 25) 30))
      = .circle ⟨⟨false, 15728641, -21⟩, 30, Sfml.white, ⟨Binary32.ofNat 0, Binary32.ofNat 0⟩⟩
    ∧ Shape7.Scale.visit Binary32.mul ⟨Binary32.ofNat 3⟩
        (Shape7.Scale.visit Binary32.mul ⟨Binary32.tenth⟩
          (.circle (Sfml.Circle.construct (Binary32.ofNat 0) Sfml.white (Binary32.ofNat 25) 30)))
      ≠ Shape7.Scale.visit Binary32.mul ⟨Binary32.mul Binary32.tenth (Binary32.ofNat 3)⟩
        (.circle (Sfml.Circle.construct (Binary32.ofNat 0) Sfml.white (Binary32.ofNat 25) 30))
    ∧ Shape8.Scale.visit Binary32.mul ⟨Binary32.ofNat 3⟩
        (Shape8.Scale.visit Binary32.mul ⟨Binary32.tenth⟩
          (.circle (Sfml.Circle.construct (Binary32.ofNat 0) Sfml.white (Binary32.ofNat 25) 30)))
      ≠ Shape8.Scale.visit Binary32.mul ⟨Binary32.mul Binary32.tenth (Binary32.ofNat 3)⟩
        (.circle (Sfml.Circle.construct (Binary32.ofNat 0) Sfml.white (Binary32.ofNat 25) 30))
    ∧ ¬ (∀ (t : Sfml.Shape Binary32 Nat) (r1 r2 : Binary32),
          Shape7.Scale.visit Binary32.mul ⟨r2⟩ (Shape7.Scale.visit Binary32.mul ⟨r1⟩ t)
            = Shape7.Scale.visit Binary32.mul ⟨Binary32.mul r1 r2⟩ t)
    ∧ ¬ (∀ (t : Sfml.Shape Binary32 Nat) (r1 r2 : Binary32),
          Shape8.Scale.visit Binary32.mul ⟨r2⟩ (Shape8.Scale.visit Binary32.mul ⟨r1⟩ t)
            = Shape8.Scale.visit Binary32.mul ⟨Binary32.mul r1 r2⟩ t) := by
  have h1 : Shape7.Scale.visit Binary32.mul ⟨Binary32.ofNat 3⟩
        (Shape7.Scale.visit Binary32.mul ⟨Binary32.tenth⟩
          (.circle (Sfml.Circle.construct (Binary32.ofNat 0) Sfml.white (Binary32.ofNat 25) 30)))
      = .circle ⟨⟨false, 15728640, -21⟩, 30, Sfml.white,
          ⟨Binary32.ofNat 0, Binary32.ofNat 0⟩⟩ := by
    simp only [Shape7.Scale.visit, Shape7.Scale.callCircle, Sfml.Circle.setRadius,
      Sfml.Circle.getRadius, Sfml.Circle.construct, Sfml.Shape.circle.injEq,
      Sfml.Circle.mk.injEq, and_true]
    decide
  have h2 : Shape7.Scale.visit Binary32.mul ⟨Binary32.mul Binary32.tenth (Binary32.ofNat 3)⟩
        (.circle (Sfml.Circle.construct (Binary32.ofNat 0) Sfml.white (Binary32.ofNat 25) 30))
      = .circle ⟨⟨false, 15728641, -21⟩, 30, Sfml.white,
          ⟨Binary32.ofNat 0, Binary32.ofNat 0⟩⟩ := by
    simp only [Shape7.Scale.visit, Shape7.Scale.callCircle, Sfml.Circle.setRadius,
      Sfml.Circle.getRadius, Sfml.Circle.construct, Sfml.Shape.circle.injEq,
      Sfml.Circle.mk.injEq, and_true]
    decide
  have h3 : Shape7.Scale.visit Binary32.mul ⟨Binary32.ofNat 3⟩
        (Shape7.Scale.visit Binary32.mul ⟨Binary32.tenth⟩
          (.circle (Sfml.Circle.construct (Binary32.ofNat 0) Sfml.white (Binary32.ofNat 25) 30)))
      ≠ Shape7.Scale.visit Binary32.mul ⟨Binary32.mul Binary32.tenth (Binary32.ofNat 3)⟩
        (.circle (Sfml.Circle.construct (Binary32.ofNat 0) Sfml.white (Binary32.ofNat 25) 30))
      := by
    rw [h1, h2]
    simp only [ne_eq, Sfml.Shape.circle.injEq, Sfml.Circle.mk.injEq, and_true]
    decide
  have h4 : Shape8.Scale.visit Binary32.mul ⟨Binary32.ofNat 3⟩
        (Shape8.Scale.visit Binary32.mul ⟨Binary32.tenth⟩
          (.circle (Sfml.Circle.construct (Binary32.ofNat 0) Sfml.white (Binary32.ofNat 25) 30)))
      ≠ Shape8.Scale.visit Binary32.mul ⟨Binary32.mul Binary32.tenth (Binary32.ofNat 3)⟩
        (.circle (Sfml.Circle.construct (Binary32.ofNat 0) Sfml.white (Binary32.ofNat 25) 30))
      := by
    rw [Shape8.scale_visit_eq_shape7, Shape8.scale_visit_eq_shape7,
      Shape8.scale_visit_eq_shape7]
    exact h3
  exact ⟨h1, h2, h3, h4, fun h => h3 (h _ _ _), fun h => h4 (h _ _ _)⟩

/-- C18, amended: `Scale(r1)` followed by `Scale(r2)` yields the same tree as the single
`Scale(r1 * r2)` exactly when every primitive size field `x` of the tree (the radius of a
circle or a triangle, `w` and `h` of a rectangle) satisfies `(x * r1) * r2 = x * (r1 * r2)` for
the product of `float`s, in `shape7.cc` and in `shape8.cc`. So it holds for every tree when
that product is associative at `r1`, `r2`, as it is when no product is rounded: on the tree
of `main`, `Scale(2)` twice is `Scale(4)`, and `Scale(2)` followed by `Scale(3)` is
`Scale(6)`. -/
theorem C18_scale_compose_iff_exact {F C : Type} (mul : F → F → F) (r1 r2 : F)
    (t : Sfml.Shape F C) :
    (Shape7.Scale.visit mul ⟨r2⟩ (Shape7.Scale.visit mul ⟨r1⟩ t)
        = Shape7.Scale.visit mul ⟨mul r1 r2⟩ t
      ↔ ∀ n ∈ Sfml.Shape.nodes 0 t, ∀ x ∈ n.2.sizes, mul (mul x r1) r2 = mul x (mul r1 r2))
    ∧ (Shape8.Scale.visit mul ⟨r2⟩ (Shape8.Scale.visit mul ⟨r1⟩ t)
        = Shape8.Scale.visit mul ⟨mul r1 r2⟩ t
      ↔ ∀ n ∈ Sfml.Shape.nodes 0 t, ∀ x ∈ n.2.sizes, mul (mul x r1) r2 = mul x (mul r1 r2))
    ∧ ((∀ x : F, mul (mul x r1) r2 = mul x (mul r1 r2)) →
        Shape7.Scale.visit mul ⟨r2⟩ (Shape7.Scale.visit mul ⟨r1⟩ t)
            = Shape7.Scale.visit mul ⟨mul r1 r2⟩ t
        ∧ Shape8.Scale.visit mul ⟨r2⟩ (Shape8.Scale.visit mul ⟨r1⟩ t)
            = Shape8.Scale.visit mul ⟨mul r1 r2⟩ t)
    ∧ Shape7.Scale.visit Binary32.mul ⟨Binary32.ofNat 2⟩
          (Shape7.Scale.visit Binary32.mul ⟨Binary32.ofNat 2⟩ (.drawing Sfml.scenarioTree))
        = Shape7.Scale.visit Binary32.mul ⟨Binary32.mul (Binary32.ofNat 2) (Binary32.ofNat 2)⟩
            (.drawing Sfml.scenarioTree)
    ∧ Binary32.mul (Binary32.ofNat 2) (Binary32.ofNat 2) = Binary32.ofNat 4
    ∧ Shape8.Scale.visit Binary32.mul ⟨Binary32.ofNat 3⟩
          (Shape8.Scale.visit Binary32.mul ⟨Binary32.ofNat 2⟩ (.drawing Sfml.scenarioTree))
        = Shape8.Scale.visit Binary32.mul ⟨Binary32.mul (Binary32.ofNat 2) (Binary32.ofNat 3)⟩
            (.drawing Sfml.scenarioTree)
    ∧ Binary32.mul (Binary32.ofNat 2) (Binary32.ofNat 3) = Binary32.ofNat 6 := by
  have h7 := Shape7.scale_scale_visit_iff mul r1 r2 0 t
  have h8 : (Shape8.Scale.visit mul ⟨r2⟩ (Shape8.Scale.visit mul ⟨r1⟩ t)
        = Shape8.Scale.visit mul ⟨mul r1 r2⟩ t
      ↔ ∀ n ∈ Sfml.Shape.nodes 0 t, ∀ x ∈ n.2.sizes,
          mul (mul x r1) r2 = mul x (mul r1 r2)) := by
    rw [Shape8.scale_visit_eq_shape7, Shape8.scale_visit_eq_shape7,
      Shape8.scale_visit_eq_shape7]
    exact h7
  refine ⟨h7, h8, fun h => ⟨h7.mpr (fun _ _ x _ => h x), h8.mpr (fun _ _ x _ => h x)⟩,
    ?_, by decide, ?_, by decide⟩
  · rw [Shape7.scale_scale_visit_iff Binary32.mul _ _ 0]
    decide
  · rw [Shape8.scale_visit_eq_shape7, Shape8.scale_visit_eq_shape7,
      Shape8.scale_visit_eq_shape7, Shape7.scale_scale_visit_iff Binary32.mul _ _ 0]
    decide

/-! ## What `add` puts at the end -/

/-- C13: for every `Drawing` with child sequence `cs` and every use `add<K>(a)`, with `K` one
of `Circle`, `Triangle`, `Rectangle`, `Drawing`, the child sequence afterwards is `cs` with the
new node `K(a)` at its end: the length grows by one, the children that were there keep their
values and positions, the new node is the last one, it is of the kind `K` and holds the
arguments `a` in its fields (an added `Drawing` is empty), and the returned reference
designates that last child. This holds for `Drawing::add` of `shape1.cc` and of `shape5.cc`
and for `Composite::emplace_back` of `shape8.cc`, where a new circle has 30 points, a new
triangle 3, and a new shape is white at the origin. -/
theorem C13_add_appends (call : AddCall) (cs : List Shape) :
    ((Shape1.Drawing.add call cs).1 = cs ++ [call.construct]
      ∧ (Shape1.Drawing.add call cs).1.length = cs.length + 1
      ∧ (∀ i : Nat, i < cs.length → (Shape1.Drawing.add call cs).1[i]? = cs[i]?)
      ∧ (Shape1.Drawing.add call cs).1.getLast? = some call.construct
      ∧ (Shape1.Drawing.add call cs).2 = cs.length
      ∧ (Shape1.Drawing.add call cs).1[(Shape1.Drawing.add call cs).2]? = some call.construct)
    ∧ ((Shape5.Drawing.add call cs).1 = cs ++ [call.construct]
      ∧ (Shape5.Drawing.add call cs).1.length = cs.length + 1
      ∧ (∀ i : Nat, i < cs.length → (Shape5.Drawing.add call cs).1[i]? = cs[i]?)
      ∧ (Shape5.Drawing.add call cs).1.getLast? = some call.construct
      ∧ (Shape5.Drawing.add call cs).2 = cs.length
      ∧ (Shape5.Drawing.add call cs).1[(Shape5.Drawing.add call cs).2]? = some call.construct)
    ∧ AddCall.drawing.construct = Shape.drawing []
    ∧ (∀ (F C : Type) (zero : F) (white : C) (call8 : Sfml.AddCall F)
        (cs8 : List (Sfml.Shape F C)),
        (Shape8.Composite.emplace_back zero white call8 cs8).1
            = cs8 ++ [call8.construct zero white]
        ∧ (Shape8.Composite.emplace_back zero white call8 cs8).1.length = cs8.length + 1
        ∧ (∀ i : Nat, i < cs8.length →
            (Shape8.Composite.emplace_back zero white call8 cs8).1[i]? = cs8[i]?)
        ∧ (Shape8.Composite.emplace_back zero white call8 cs8).1.getLast?
            = some (call8.construct zero white)
        ∧ (Shape8.Composite.emplace_back zero white call8 cs8).2 = cs8.length
        ∧ (Shape8.Composite.emplace_back zero white call8 cs8).1[
              (Shape8.Composite.emplace_back zero white call8 cs8).2]?
            = some (call8.construct zero white)
        ∧ (Sfml.AddCall.drawing.construct zero white : Sfml.Shape F C) = Sfml.Shape.drawing [])
    ∧ (∀ x y radius : Int,
        Shape1.Drawing.add (.circle x y radius) cs
            = (cs ++ [Shape.circle ⟨x, y, radius⟩], cs.length)
        ∧ Shape5.Drawing.add (.circle x y radius) cs
            = (cs ++ [Shape.circle ⟨x, y, radius⟩], cs.length)
        ∧ Shape1.Drawing.draw (Shape1.Drawing.add (.circle x y radius) cs).1 ""
            = Shape1.Drawing.draw cs "" ++ "Circle(" ++ showInt x ++ "," ++ showInt y ++ ","
                ++ showInt radius ++ ")" ++ endl)
    ∧ (∀ x y len : Int,
        Shape1.Drawing.add (.triangle x y len) cs
            = (cs ++ [Shape.triangle ⟨x, y, len⟩], cs.length)
        ∧ Shape5.Drawing.add (.triangle x y len) cs
            = (cs ++ [Shape.triangle ⟨x, y, len⟩], cs.length)
        ∧ Shape1.Drawing.draw (Shape1.Drawing.add (.triangle x y len) cs).1 ""
            = Shape1.Drawing.draw cs "" ++ "Triangle(" ++ showInt x ++ "," ++ showInt y ++ ","
                ++ showInt len ++ ")" ++ endl)
    ∧ (∀ x y w h : Int,
        Shape1.Drawing.add (.rectangle x y w h) cs
            = (cs ++ [Shape.rectangle ⟨x, y, w, h⟩], cs.length)
        ∧ Shape5.Drawing.add (.rectangle x y w h) cs
            = (cs ++ [Shape.rectangle ⟨x, y, w, h⟩], cs.length)
        ∧ Shape1.Drawing.draw (Shape1.Drawing.add (.rectangle x y w h) cs).1 ""
            = Shape1.Drawing.draw cs "" ++ "Rectangle(" ++ showInt x ++ "," ++ showInt y
                ++ "," ++ showInt w ++ "," ++ showInt h ++ ")" ++ endl)
    ∧ (Shape1.Drawing.add .drawing cs = (cs ++ [Shape.drawing []], cs.length)
        ∧ Shape5.Drawing.add .drawing cs = (cs ++ [Shape.drawing []], cs.length)
        ∧ Shape1.Drawing.draw (Shape1.Drawing.add .drawing cs).1 ""
            = Shape1.Drawing.draw cs "")
    ∧ (∀ (F C : Type) (zero : F) (white : C) (cs8 : List (Sfml.Shape F C)),
        (∀ radius : F,
          Shape8.Composite.emplace_back zero white (.circle radius) cs8
              = (cs8 ++ [Sfml.Shape.circle ⟨radius, 30, white, ⟨zero, zero⟩⟩], cs8.length)
          ∧ Shape7.Drawing.add zero white (.circle radius) cs8
              = (cs8 ++ [Sfml.Shape.circle ⟨radius, 30, white, ⟨zero, zero⟩⟩], cs8.length))
        ∧ (∀ radius : F,
          Shape8.Composite.emplace_back zero white (.triangle radius) cs8
              = (cs8 ++ [Sfml.Shape.triangle ⟨⟨radius, 3, white, ⟨zero, zero⟩⟩⟩], cs8.length)
          ∧ Shape7.Drawing.add zero white (.triangle radius) cs8
              = (cs8 ++ [Sfml.Shape.triangle ⟨⟨radius, 3, white, ⟨zero, zero⟩⟩⟩], cs8.length))
        ∧ (∀ size : Sfml.Vector2f F,
          Shape8.Composite.emplace_back zero white (.rectangle size) cs8
              = (cs8 ++ [Sfml.Shape.rectangle ⟨size, white, ⟨zero, zero⟩⟩], cs8.length)
          ∧ Shape7.Drawing.add zero white (.rectangle size) cs8
              = (cs8 ++ [Sfml.Shape.rectangle ⟨size, white, ⟨zero, zero⟩⟩], cs8.length))
        ∧ Shape8.Composite.emplace_back zero white .drawing cs8
            = (cs8 ++ [Sfml.Shape.drawing []], cs8.length)
        ∧ Shape7.Drawing.add zero white .drawing cs8
            = (cs8 ++ [Sfml.Shape.drawing []], cs8.length))
    := by
  refine ⟨⟨rfl, ?_, fun i hi => append_singleton_getElem_lt cs _ i hi, ?_, ?_,
      append_singleton_getElem_length cs _⟩,
    ⟨rfl, ?_, fun i hi => append_singleton_getElem_lt cs _ i hi, ?_, ?_,
      append_singleton_getElem_length cs _⟩, rfl, ?_, ?_, ?_, ?_, ?_, ?_⟩
  · simp [Shape1.Drawing.add]
  · simp [Shape1.Drawing.add]
  · simp [Shape1.Drawing.add]
  · simp [Shape5.Drawing.add]
  · simp [Shape5.Drawing.add]
  · simp [Shape5.Drawing.add]
  · intro F C zero white call8 cs8
    refine ⟨rfl, ?_, fun i hi => append_singleton_getElem_lt cs8 _ i hi, ?_, ?_,
      append_singleton_getElem_length cs8 _, rfl⟩
    · simp [Shape8.Composite.emplace_back]
    · simp [Shape8.Composite.emplace_back]
    · simp [Shape8.Composite.emplace_back]
  · intro x y radius
    refine ⟨by simp [Shape1.Drawing.add, AddCall.construct],
      by simp [Shape5.Drawing.add, AddCall.construct], ?_⟩
    have h : (Shape1.Drawing.add (.circle x y radius) cs).1
        = cs ++ [Shape.circle ⟨x, y, radius⟩] := rfl
    rw [h, Shape1.draw_drawing_append]
    simp only [Shape1.Shape.draw, Shape1.Circle.draw, String.append_assoc]
  · intro x y len
    refine ⟨by simp [Shape1.Drawing.add, AddCall.construct],
      by simp [Shape5.Drawing.add, AddCall.construct], ?_⟩
    have h : (Shape1.Drawing.add (.triangle x y len) cs).1
        = cs ++ [Shape.triangle ⟨x, y, len⟩] := rfl
    rw [h, Shape1.draw_drawing_append]
    simp only [Shape1.Shape.draw, Shape1.Triangle.draw, String.append_assoc]
  · intro x y w h
    refine ⟨by simp [Shape1.Drawing.add, AddCall.construct],
      by simp [Shape5.Drawing.add, AddCall.construct], ?_⟩
    have h : (Shape1.Drawing.add (.rectangle x y w h) cs).1
        = cs ++ [Shape.rectangle ⟨x, y, w, h⟩] := rfl
    rw [h, Shape1.draw_drawing_append]
    simp only [Shape1.Shape.draw, Shape1.Rectangle.draw, String.append_assoc]
  · refine ⟨by simp [Shape1.Drawing.add, AddCall.construct],
      by simp [Shape5.Drawing.add, AddCall.construct], ?_⟩
    have h : (Shape1.Drawing.add .drawing cs).1 = cs ++ [Shape.drawing []] := rfl
    rw [h, Shape1.draw_drawing_append, Shape1.Shape.draw, Shape1.Drawing.draw]
  · intro F C zero white cs8
    refine ⟨fun radius => ⟨?_, ?_⟩, fun radius => ⟨?_, ?_⟩, fun size => ⟨?_, ?_⟩, ?_, ?_⟩ <;>
      simp [Shape8.Composite.emplace_back, Shape7.Drawing.add, Sfml.AddCall.construct,
        Sfml.Circle.construct, Sfml.Triangle.construct, Sfml.Rectangle.construct]

end Visitor
